import Mathlib

/-!
# Page-replacement simulator (`virtmem.c`)

A shallow embedding of the inverted page table of `virtmem.c`, of `setup`, of
`resolve_address` with its FIFO, LRU and CLOCK branches, and of the loop of
`main` that feeds it, followed by the properties proved about them.

Modelling conventions.
* C `int` and `long` values that the program computes with (`page_num`, `dirty`,
  `modified`, `free`, the event counters, `lru_mod`, addresses) are unbounded
  `Int`s: signed overflow is undefined in C and is assumed not to happen;
  `x << n` is `x * 2 ^ n`, `x >> n` is the floor of `x / 2 ^ n`, and `&`, `|`
  are the two's complement operations `Int.land`, `Int.lor`.
* `size_of_frame`, `size_of_memory`, the scheme number and the two cursors
  `fifo_index` and `clock_hand` are `Nat`s: `main` refuses non-positive sizes
  before `setup` runs, and the cursors start at 0 and are only incremented or
  reset to 0.
* `page_table` is a list; `page_table[i]` is `entry pt i`, which reads an
  all-zero entry outside the list, and a store outside the list is dropped.
* The definitions with the suffix `_machine` follow the same source text with the
  integers of the compiled program: the `int` counters have 32 bits and the `long`
  arithmetic 64 bits, in two's complement, and a shift takes its count modulo 64.
  The statements that depend on the width of the integers are made about these;
  `run_machine_eq_run` relates the two readings.
-/

set_option linter.unusedVariables false

namespace Virtmem

/-! ## Compile-time constants -/

def REPLACE_NONE : Nat := 0
def REPLACE_FIFO : Nat := 1
def REPLACE_LRU : Nat := 2
def REPLACE_CLOCK : Nat := 3
def REPLACE_OPTIMAL : Nat := 4

def TRUE : Int := 1
def FALSE : Int := 0

/-! ## Data model -/

/-- The C `struct page_table_entry`. -/
structure page_table_entry where
  page_num : Int
  dirty : Int
  modified : Int
  free : Int
deriving DecidableEq, Repr

instance : Inhabited page_table_entry := ⟨⟨0, 0, 0, 0⟩⟩

/-- The globals that `main` sets from the command line. -/
structure Config where
  size_of_frame : Nat
  size_of_memory : Nat
  page_replacement_scheme : Nat
deriving DecidableEq, Repr

/-- The globals that `setup` and `resolve_address` read and write. -/
structure State where
  page_table : List page_table_entry
  page_faults : Int
  mem_refs : Int
  swap_outs : Int
  swap_ins : Int
  fifo_index : Nat
  lru_mod : Int
  clock_hand : Nat
deriving DecidableEq, Repr

/-- The array read `page_table[i]`. -/
def entry (pt : List page_table_entry) (i : Nat) : page_table_entry :=
  pt.getD i default

/-- The C expression `x << n` on a `long`, without overflow. -/
def shl (x : Int) (n : Nat) : Int := x * 2 ^ n

/-! ## The loops of `resolve_address` -/

/-- The mask loop: `for (i=0; i<size_of_frame; i++) { mask = mask << 1; mask |= 1; }`,
with `k` iterations left. -/
def mask_loop : Nat → Int → Int
  | 0, mask => mask
  | k + 1, mask => mask_loop k (Int.lor (shl mask 1) 1)

/-- The lookup loop, from index `i` with `k` iterations left:
the first `i` with `!page_table[i].free && page_table[i].page_num == page`,
or `-1` (the initial value of `frame`). -/
def find_page (pt : List page_table_entry) (page : Int) : Nat → Nat → Int
  | _, 0 => -1
  | i, k + 1 =>
    if (entry pt i).free = 0 ∧ (entry pt i).page_num = page then (i : Int)
    else find_page pt page (i + 1) k

/-- The free-frame loop, from index `i` with `k` iterations left:
the first `i` with `page_table[i].free`, or `-1`. -/
def find_free (pt : List page_table_entry) : Nat → Nat → Int
  | _, 0 => -1
  | i, k + 1 =>
    if (entry pt i).free ≠ 0 then (i : Int)
    else find_free pt (i + 1) k

/-- The LRU scan, from index `i` with `k` iterations left, carrying `frame` and
`lowest_mod`; the value is the final `frame`. -/
def lru_scan (pt : List page_table_entry) : Nat → Nat → Int → Int → Int
  | _, 0, frame, _ => frame
  | i, k + 1, frame, lowest_mod =>
    if lowest_mod > (entry pt i).modified then
      lru_scan pt (i + 1) k (i : Int) (entry pt i).modified
    else lru_scan pt (i + 1) k frame lowest_mod

/-- The cursor update `c++; if (c >= size_of_memory) c = 0;`. -/
def advance (size_of_memory c : Nat) : Nat :=
  if c + 1 ≥ size_of_memory then 0 else c + 1

/-- The CLOCK `while (victim_found != 1)` loop. The value is
`(frame, page_table, clock_hand, swap_ins)` when the loop exits. Every pass
that does not exit clears a non-zero `dirty`, which is the termination measure. -/
def clock_loop (size_of_memory : Nat) (pt : List page_table_entry) (clock_hand : Nat)
    (swap_ins : Int) : Int × List page_table_entry × Nat × Int :=
  if (entry pt clock_hand).dirty = 0 then
    ((clock_hand : Int), pt, advance size_of_memory clock_hand, swap_ins)
  else
    clock_loop size_of_memory
      (pt.set clock_hand { entry pt clock_hand with dirty := 0 })
      (advance size_of_memory clock_hand) (swap_ins + 1)
termination_by (pt.filter (fun e => !decide (e.dirty = 0))).length
decreasing_by
  rename_i hd
  have key : ∀ (l : List page_table_entry) (h : Nat) (e : page_table_entry),
      (l.getD h default).dirty ≠ 0 → e.dirty = 0 →
      ((l.set h e).filter (fun e => !decide (e.dirty = 0))).length
        < (l.filter (fun e => !decide (e.dirty = 0))).length := by
    intro l
    induction l with
    | nil => intro h e h1 _; exact absurd rfl h1
    | cons a t ih =>
      intro h e h1 h2
      cases h with
      | zero =>
        have ha : a.dirty ≠ 0 := h1
        simp [List.filter_cons, ha, h2]
      | succ h =>
        have := ih h e h1 h2
        by_cases ha : a.dirty = 0 <;> simp [List.filter_cons, ha] <;> omega
  exact key pt clock_hand _ hd rfl

/-! ## `resolve_address` -/

/-- The function `resolve_address(logical, memwrite)`: the returned `long` and the
globals after the call. -/
def resolve_address (cfg : Config) (s : State) (logical : Int) (memwrite : Int) :
    Int × State :=
  let page := logical >>> cfg.size_of_frame
  let mask := mask_loop cfg.size_of_frame 0
  let offset := Int.land logical mask
  let frame := find_page s.page_table page 0 cfg.size_of_memory
  if frame ≠ -1 then
    let effective := Int.lor (shl frame cfg.size_of_frame) offset
    let s1 : State :=
      if cfg.page_replacement_scheme = REPLACE_LRU then
        { s with
          page_table := s.page_table.set frame.toNat
            { entry s.page_table frame.toNat with modified := s.lru_mod }
          lru_mod := s.lru_mod + 1
          swap_ins := s.swap_ins + 1 }
      else s
    let s2 : State :=
      if cfg.page_replacement_scheme = REPLACE_CLOCK then
        if (entry s1.page_table frame.toNat).dirty = 0 then
          { s1 with
            page_table := s1.page_table.set frame.toNat
              { entry s1.page_table frame.toNat with dirty := 1 }
            swap_ins := s1.swap_ins + 1 }
        else s1
      else s1
    (effective, s2)
  else
    let s0 : State := { s with page_faults := s.page_faults + 1 }
    let frame := find_free s0.page_table 0 cfg.size_of_memory
    if frame ≠ -1 then
      let pt1 := s0.page_table.set frame.toNat
        { entry s0.page_table frame.toNat with page_num := page, free := FALSE }
      let s1 : State := { s0 with page_table := pt1 }
      let s2 : State :=
        if cfg.page_replacement_scheme = REPLACE_LRU then
          { s1 with
            page_table := s1.page_table.set frame.toNat
              { entry s1.page_table frame.toNat with modified := s1.lru_mod }
            lru_mod := s1.lru_mod + 1 }
        else s1
      let s3 : State :=
        if cfg.page_replacement_scheme = REPLACE_CLOCK then
          { s2 with
            page_table := s2.page_table.set frame.toNat
              { entry s2.page_table frame.toNat with dirty := 1 } }
        else s2
      (Int.lor (shl frame cfg.size_of_frame) offset, s3)
    else if cfg.page_replacement_scheme = REPLACE_FIFO then
      let frame : Int := (s0.fifo_index : Int)
      let s1 : State := { s0 with fifo_index := advance cfg.size_of_memory s0.fifo_index }
      let s2 : State :=
        { s1 with
          page_table := s1.page_table.set frame.toNat
            { entry s1.page_table frame.toNat with page_num := page, free := FALSE }
          swap_outs := s1.swap_outs + 1
          swap_ins := s1.swap_ins + 1 }
      (Int.lor (shl frame cfg.size_of_frame) offset, s2)
    else if cfg.page_replacement_scheme = REPLACE_LRU then
      let frame := lru_scan s0.page_table 0 cfg.size_of_memory 0 (entry s0.page_table 0).modified
      let s1 : State :=
        { s0 with
          page_table := s0.page_table.set frame.toNat
            { entry s0.page_table frame.toNat with
              page_num := page, free := FALSE, modified := s0.lru_mod }
          lru_mod := s0.lru_mod + 1
          swap_outs := s0.swap_outs + 1
          swap_ins := s0.swap_ins + 1 }
      (Int.lor (shl frame cfg.size_of_frame) offset, s1)
    else if cfg.page_replacement_scheme = REPLACE_CLOCK then
      let r := clock_loop cfg.size_of_memory s0.page_table s0.clock_hand s0.swap_ins
      let frame := r.1
      let s1 : State :=
        { s0 with
          page_table := r.2.1.set frame.toNat
            { entry r.2.1 frame.toNat with page_num := page, free := FALSE, dirty := 1 }
          clock_hand := r.2.2.1
          swap_outs := s0.swap_outs + 1
          swap_ins := r.2.2.2 + 1 }
      (Int.lor (shl frame cfg.size_of_frame) offset, s1)
    else (-1, s0)

/-! ## `setup` and the loop of `main` -/

/-- The loop of `setup`: `for (i=0; i<size_of_memory; i++) page_table[i].free = TRUE;`,
from index `i` with `k` iterations left. -/
def setup_loop (pt : List page_table_entry) : Nat → Nat → List page_table_entry
  | _, 0 => pt
  | i, k + 1 => setup_loop (pt.set i { entry pt i with free := TRUE }) (i + 1) k

/-- The globals after `setup()`. `raw` is the block that `malloc` returned, of
`size_of_memory` entries with indeterminate contents; every other global still
has its static initialiser 0. -/
def setup (cfg : Config) (raw : List page_table_entry) : State :=
  { page_table := setup_loop raw 0 cfg.size_of_memory
    page_faults := 0
    mem_refs := 0
    swap_outs := 0
    swap_ins := 0
    fifo_index := 0
    lru_mod := 0
    clock_hand := 0 }

/-- The test with which `main` refuses a configuration (the input file apart). -/
def config_rejected (cfg : Config) : Bool :=
  cfg.page_replacement_scheme == REPLACE_NONE ||
  decide (cfg.size_of_frame ≤ 0) ||
  decide (cfg.size_of_memory ≤ 0)

/-- One pass of the `while (fgets ...)` loop of `main` over a decoded line
`(addr, is_write)` on which `resolve_address` does not return `-1`:
the call, then `mem_refs++`. -/
def main_step (cfg : Config) (s : State) (line : Int × Int) : State :=
  let r := resolve_address cfg s line.1 line.2
  { r.2 with mem_refs := r.2.mem_refs + 1 }

/-- The loop of `main` over a list of decoded lines. -/
def run (cfg : Config) (s : State) (trace : List (Int × Int)) : State :=
  trace.foldl (main_step cfg) s

/-! ## Auxiliary notions for the statements -/

/-- The frame reached from `h` after `d` passes of the hand, for `h < n`, `d ≤ n`. -/
def hand_after (n h d : Nat) : Nat := if h + d ≥ n then h + d - n else h + d

/-- Whether frame `j` is among the `d` frames the hand passes from `h` on. -/
def swept (n h d j : Nat) : Prop := j < n ∧ ((h ≤ j ∧ j < h + d) ∨ j + n < h + d)

instance (n h d j : Nat) : Decidable (swept n h d j) := by
  unfold swept; infer_instance

/-- The table has `size_of_memory` entries and both cursors index it. -/
def in_range (cfg : Config) (s : State) : Prop :=
  s.page_table.length = cfg.size_of_memory ∧
  s.fifo_index < cfg.size_of_memory ∧
  s.clock_hand < cfg.size_of_memory

/-- The number of occupied entries (`free == 0`) of a table. -/
def occupied_count (pt : List page_table_entry) : Nat :=
  (pt.filter (fun e => decide (e.free = 0))).length

/-- No two occupied entries among the first `n` hold the same page number. -/
def pages_distinct (pt : List page_table_entry) (n : Nat) : Prop :=
  ∀ i j, i < n → j < n → i ≠ j → (entry pt i).free = 0 → (entry pt j).free = 0 →
    (entry pt i).page_num ≠ (entry pt j).page_num

/-- The scheme is one that `resolve_address` implements. -/
def scheme_implemented (cfg : Config) : Prop :=
  cfg.page_replacement_scheme = REPLACE_FIFO ∨
  cfg.page_replacement_scheme = REPLACE_LRU ∨
  cfg.page_replacement_scheme = REPLACE_CLOCK

/-- Every occupied entry among the first `size_of_memory` carries a `modified`
stamp below the counter `lru_mod`. -/
def lru_stamped (cfg : Config) (s : State) : Prop :=
  ∀ j, j < cfg.size_of_memory → (entry s.page_table j).free = 0 →
    (entry s.page_table j).modified < s.lru_mod

/-- The page of a decoded line: `addr >> size_of_frame`. -/
def page_of (cfg : Config) (line : Int × Int) : Int := line.1 >>> cfg.size_of_frame

/-! ## Sample inputs -/

/-- A block as `malloc` may return it: two entries with arbitrary contents. -/
def sample_raw : List page_table_entry := [⟨7, 3, 9, 0⟩, ⟨7, 5, -2, 0⟩]

/-- The configuration `--framesize=4 --numframes=2` with a given scheme. -/
def sample_cfg (scheme : Nat) : Config := ⟨4, 2, scheme⟩

/-- The configuration `--framesize=4 --numframes=1` with a given scheme. -/
def sample_cfg_one (scheme : Nat) : Config := ⟨4, 1, scheme⟩

/-- A one-entry block as `malloc` may return it. -/
def sample_raw_one : List page_table_entry := [⟨-4, 6, 11, 0⟩]

/-- A state with two occupied frames holding pages 0 and 1, the flag of page 0
cleared and the hand on frame 1, as CLOCK leaves it after a sweep. -/
def sample_clock_state : State :=
  { page_table := [⟨0, 0, 9, 0⟩, ⟨1, 1, -2, 0⟩]
    page_faults := 3
    mem_refs := 3
    swap_outs := 1
    swap_ins := 3
    fifo_index := 0
    lru_mod := 0
    clock_hand := 1 }

/-! ## Notions for the later statements -/

/-- The physical addresses that the calls of the loop of `main` return, in order. -/
def outputs (cfg : Config) : State → List (Int × Int) → List Int
  | _, [] => []
  | s, line :: rest =>
    (resolve_address cfg s line.1 line.2).1 :: outputs cfg (main_step cfg s line) rest

/-- The number of frames below `n` whose `dirty` is non-zero in the table `before`
and zero in the table `after`. -/
def flags_cleared (before after : List page_table_entry) (n : Nat) : Nat :=
  ((List.range n).filter
    (fun j => decide ((entry before j).dirty ≠ 0 ∧ (entry after j).dirty = 0))).length

/-- The occupied entries among the first `n` are exactly the frames below `k`. -/
def occupied_below (pt : List page_table_entry) (n k : Nat) : Prop :=
  k ≤ n ∧ ∀ j, j < n → ((entry pt j).free = 0 ↔ j < k)

/-- Whether `page` is in an occupied entry, as the lookup loop tests it. -/
def resident (cfg : Config) (s : State) (page : Int) : Bool :=
  (List.range cfg.size_of_memory).any
    (fun j => decide ((entry s.page_table j).free = 0 ∧ (entry s.page_table j).page_num = page))

/-- The number of lines of the trace whose page is not resident when the loop of
`main` reaches them. -/
def miss_count (cfg : Config) : State → List (Int × Int) → Nat
  | _, [] => 0
  | s, line :: rest =>
    (if resident cfg s (page_of cfg line) then 0 else 1)
      + miss_count cfg (main_step cfg s line) rest

/-- The number of lines of the trace whose page is resident when the loop of `main`
reaches them. -/
def hit_count (cfg : Config) : State → List (Int × Int) → Nat
  | _, [] => 0
  | s, line :: rest =>
    (if resident cfg s (page_of cfg line) then 1 else 0)
      + hit_count cfg (main_step cfg s line) rest

/-- The loop of `main` with its way out: `none` when a call returns `-1` and
`error_resolve_address` ends the process. -/
def main_loop (cfg : Config) : State → List (Int × Int) → Option State
  | s, [] => some s
  | s, line :: rest =>
    if (resolve_address cfg s line.1 line.2).1 = -1 then none
    else main_loop cfg (main_step cfg s line) rest

/-- The account of faults: the occupied entries are the frames below some `k`,
`page_faults = k + swap_outs`, no swap-out while `k < size_of_memory`, and under
FIFO `swap_ins = swap_outs`. -/
def fault_account (cfg : Config) (s : State) : Prop :=
  ∃ k : Nat, occupied_below s.page_table cfg.size_of_memory k ∧
    s.page_faults = k + s.swap_outs ∧
    (k < cfg.size_of_memory → s.swap_outs = 0) ∧
    (cfg.page_replacement_scheme = REPLACE_FIFO → s.swap_ins = s.swap_outs)

/-- The CLOCK loop with a limit of `fuel` inspections and with the subscript of
`page_table[clock_hand]` checked: `none` when the limit is reached before a victim
is found or when `clock_hand` is outside the table. -/
def clock_loop_checked (size_of_memory : Nat) :
    Nat → List page_table_entry → Nat → Int → Option (Int × List page_table_entry × Nat × Int)
  | 0, _, _, _ => none
  | fuel + 1, pt, clock_hand, swap_ins =>
    if clock_hand < pt.length then
      if (entry pt clock_hand).dirty = 0 then
        some ((clock_hand : Int), pt, advance size_of_memory clock_hand, swap_ins)
      else
        clock_loop_checked size_of_memory fuel
          (pt.set clock_hand { entry pt clock_hand with dirty := 0 })
          (advance size_of_memory clock_hand) (swap_ins + 1)
    else none

/-- Whether every subscript that the call `resolve_address(logical, _)` applies to
`page_table` is inside the table. The two `for` loops and the LRU scan subscript
with `i < size_of_memory`; the branches subscript with `frame`, with `fifo_index`,
with `0` and, in the CLOCK loop, with `clock_hand`. -/
def accesses_in_bounds (cfg : Config) (s : State) (logical : Int) : Bool :=
  let page := logical >>> cfg.size_of_frame
  let frame := find_page s.page_table page 0 cfg.size_of_memory
  decide (cfg.size_of_memory ≤ s.page_table.length) &&
  (if frame ≠ -1 then decide (0 ≤ frame ∧ frame.toNat < s.page_table.length)
   else
    let frame := find_free s.page_table 0 cfg.size_of_memory
    if frame ≠ -1 then decide (0 ≤ frame ∧ frame.toNat < s.page_table.length)
    else if cfg.page_replacement_scheme = REPLACE_FIFO then
      decide (s.fifo_index < s.page_table.length)
    else if cfg.page_replacement_scheme = REPLACE_LRU then
      let frame := lru_scan s.page_table 0 cfg.size_of_memory 0 (entry s.page_table 0).modified
      decide (0 < s.page_table.length) &&
        decide (0 ≤ frame ∧ frame.toNat < s.page_table.length)
    else if cfg.page_replacement_scheme = REPLACE_CLOCK then
      (clock_loop_checked cfg.size_of_memory (cfg.size_of_memory + 1) s.page_table
          s.clock_hand s.swap_ins).isSome &&
        decide (0 ≤ (clock_loop cfg.size_of_memory s.page_table s.clock_hand s.swap_ins).1 ∧
          (clock_loop cfg.size_of_memory s.page_table s.clock_hand s.swap_ins).1.toNat
            < s.page_table.length)
    else true)

/-! ## Reference simulators -/

/-- One access of the reference LRU simulator of C18: the state is the list of
resident pages, least recently used first, and the number of faults. A resident page
moves to the back; a new page is a fault and goes to the back, after the page at the
front has been dropped if the list already holds `capacity` pages. -/
def reference_lru_step (capacity : Nat) (st : List Int × Nat) (page : Int) : List Int × Nat :=
  if page ∈ st.1 then (st.1.erase page ++ [page], st.2)
  else if st.1.length < capacity then (st.1 ++ [page], st.2 + 1)
  else (st.1.drop 1 ++ [page], st.2 + 1)

/-- The reference LRU simulator of C18 on a sequence of pages, from the empty list. -/
def reference_lru (capacity : Nat) (pages : List Int) : List Int × Nat :=
  pages.foldl (reference_lru_step capacity) ([], 0)

/-- Every occupied frame that holds page `p` has a smaller `modified` than every
occupied frame that holds page `q`. -/
def older (cfg : Config) (s : State) (p q : Int) : Prop :=
  ∀ i j, i < cfg.size_of_memory → j < cfg.size_of_memory →
    (entry s.page_table i).free = 0 → (entry s.page_table j).free = 0 →
    (entry s.page_table i).page_num = p → (entry s.page_table j).page_num = q →
    (entry s.page_table i).modified < (entry s.page_table j).modified

/-- The table holds the list `l` of the reference LRU simulator: `l` has no
repetition, the occupied frames are those below `l.length`, the pages of `l` are the
resident pages, and `l` is in the order of the `modified` stamps. -/
def lru_rel (cfg : Config) (s : State) (l : List Int) : Prop :=
  l.Nodup ∧
  occupied_below s.page_table cfg.size_of_memory l.length ∧
  (∀ p, p ∈ l ↔ ∃ j, j < cfg.size_of_memory ∧ (entry s.page_table j).free = 0 ∧
    (entry s.page_table j).page_num = p) ∧
  l.Pairwise (older cfg s)

/-- The stamps are positions in the sequence `pages` of the pages accessed so far:
`lru_mod` is its length, and `modified` of an occupied frame is the position of the
last access to the page of the frame. -/
def stamps_are_last_accesses (cfg : Config) (s : State) (pages : List Int) : Prop :=
  s.lru_mod = (pages.length : Int) ∧
  ∀ j, j < cfg.size_of_memory → (entry s.page_table j).free = 0 →
    ∃ m : Nat, (entry s.page_table j).modified = (m : Int) ∧
      pages[m]? = some (entry s.page_table j).page_num ∧
      ∀ i, m < i → pages[i]? ≠ some (entry s.page_table j).page_num


/-! ## The compiled program: integers of 32 and 64 bits

The definitions above keep every C integer as an unbounded `Int`. The definitions
of this section follow the same source text with the integers as the compiled
program holds them: an `int` counter that is incremented at `INT_MAX` continues at
`INT_MIN`, a `long` shift keeps the low 64 bits of the result and takes its count
modulo 64. The two readings are related by `resolve_address_machine_state` and
`run_machine_eq_run` below. -/

def INT_MAX : Int := 2147483647
def INT_MIN : Int := -2147483648

/-- The value of a C `int` that is assigned the integer `x`: the low 32 bits of `x`
in two's complement. -/
def wrap_int (x : Int) : Int := (x + 2147483648) % 4294967296 - 2147483648

/-- The value of a C `long` that is assigned the integer `x`: the low 64 bits of `x`
in two's complement. -/
def wrap_long (x : Int) : Int :=
  (x + 9223372036854775808) % 18446744073709551616 - 9223372036854775808

/-- The C expression `x << n` on a `long` as the compiled program evaluates it. -/
def shl_long (x : Int) (n : Nat) : Int := wrap_long (x * ((2 ^ (n % 64) : Nat) : Int))

/-- The C expression `x >> n` on a `long` as the compiled program evaluates it. -/
def shr_long (x : Int) (n : Nat) : Int := x >>> (n % 64)

/-- The mask loop on a `long`, with `k` iterations left. -/
def mask_loop_machine : Nat → Int → Int
  | 0, mask => mask
  | k + 1, mask => mask_loop_machine k (Int.lor (shl_long mask 1) 1)

/-- The CLOCK loop with `swap_ins` as an `int`. -/
def clock_loop_machine (size_of_memory : Nat) (pt : List page_table_entry) (clock_hand : Nat)
    (swap_ins : Int) : Int × List page_table_entry × Nat × Int :=
  if (entry pt clock_hand).dirty = 0 then
    ((clock_hand : Int), pt, advance size_of_memory clock_hand, swap_ins)
  else
    clock_loop_machine size_of_memory
      (pt.set clock_hand { entry pt clock_hand with dirty := 0 })
      (advance size_of_memory clock_hand) (wrap_int (swap_ins + 1))
termination_by (pt.filter (fun e => !decide (e.dirty = 0))).length
decreasing_by
  rename_i hd
  have key : ∀ (l : List page_table_entry) (h : Nat) (e : page_table_entry),
      (l.getD h default).dirty ≠ 0 → e.dirty = 0 →
      ((l.set h e).filter (fun e => !decide (e.dirty = 0))).length
        < (l.filter (fun e => !decide (e.dirty = 0))).length := by
    intro l
    induction l with
    | nil => intro h e h1 _; exact absurd rfl h1
    | cons a t ih =>
      intro h e h1 h2
      cases h with
      | zero =>
        have ha : a.dirty ≠ 0 := h1
        simp [List.filter_cons, ha, h2]
      | succ h =>
        have := ih h e h1 h2
        by_cases ha : a.dirty = 0 <;> simp [List.filter_cons, ha] <;> omega
  exact key pt clock_hand _ hd rfl

/-- The function `resolve_address(logical, memwrite)` of the compiled program: the
returned `long` and the globals after the call. -/
def resolve_address_machine (cfg : Config) (s : State) (logical : Int) (memwrite : Int) :
    Int × State :=
  let page := shr_long logical cfg.size_of_frame
  let mask := mask_loop_machine cfg.size_of_frame 0
  let offset := Int.land logical mask
  let frame := find_page s.page_table page 0 cfg.size_of_memory
  if frame ≠ -1 then
    let effective := Int.lor (shl_long frame cfg.size_of_frame) offset
    let s1 : State :=
      if cfg.page_replacement_scheme = REPLACE_LRU then
        { s with
          page_table := s.page_table.set frame.toNat
            { entry s.page_table frame.toNat with modified := s.lru_mod }
          lru_mod := wrap_int (s.lru_mod + 1)
          swap_ins := wrap_int (s.swap_ins + 1) }
      else s
    let s2 : State :=
      if cfg.page_replacement_scheme = REPLACE_CLOCK then
        if (entry s1.page_table frame.toNat).dirty = 0 then
          { s1 with
            page_table := s1.page_table.set frame.toNat
              { entry s1.page_table frame.toNat with dirty := 1 }
            swap_ins := wrap_int (s1.swap_ins + 1) }
        else s1
      else s1
    (effective, s2)
  else
    let s0 : State := { s with page_faults := wrap_int (s.page_faults + 1) }
    let frame := find_free s0.page_table 0 cfg.size_of_memory
    if frame ≠ -1 then
      let pt1 := s0.page_table.set frame.toNat
        { entry s0.page_table frame.toNat with page_num := page, free := FALSE }
      let s1 : State := { s0 with page_table := pt1 }
      let s2 : State :=
        if cfg.page_replacement_scheme = REPLACE_LRU then
          { s1 with
            page_table := s1.page_table.set frame.toNat
              { entry s1.page_table frame.toNat with modified := s1.lru_mod }
            lru_mod := wrap_int (s1.lru_mod + 1) }
        else s1
      let s3 : State :=
        if cfg.page_replacement_scheme = REPLACE_CLOCK then
          { s2 with
            page_table := s2.page_table.set frame.toNat
              { entry s2.page_table frame.toNat with dirty := 1 } }
        else s2
      (Int.lor (shl_long frame cfg.size_of_frame) offset, s3)
    else if cfg.page_replacement_scheme = REPLACE_FIFO then
      let frame : Int := (s0.fifo_index : Int)
      let s1 : State := { s0 with fifo_index := advance cfg.size_of_memory s0.fifo_index }
      let s2 : State :=
        { s1 with
          page_table := s1.page_table.set frame.toNat
            { entry s1.page_table frame.toNat with page_num := page, free := FALSE }
          swap_outs := wrap_int (s1.swap_outs + 1)
          swap_ins := wrap_int (s1.swap_ins + 1) }
      (Int.lor (shl_long frame cfg.size_of_frame) offset, s2)
    else if cfg.page_replacement_scheme = REPLACE_LRU then
      let frame := lru_scan s0.page_table 0 cfg.size_of_memory 0 (entry s0.page_table 0).modified
      let s1 : State :=
        { s0 with
          page_table := s0.page_table.set frame.toNat
            { entry s0.page_table frame.toNat with
              page_num := page, free := FALSE, modified := s0.lru_mod }
          lru_mod := wrap_int (s0.lru_mod + 1)
          swap_outs := wrap_int (s0.swap_outs + 1)
          swap_ins := wrap_int (s0.swap_ins + 1) }
      (Int.lor (shl_long frame cfg.size_of_frame) offset, s1)
    else if cfg.page_replacement_scheme = REPLACE_CLOCK then
      let r := clock_loop_machine cfg.size_of_memory s0.page_table s0.clock_hand s0.swap_ins
      let frame := r.1
      let s1 : State :=
        { s0 with
          page_table := r.2.1.set frame.toNat
            { entry r.2.1 frame.toNat with page_num := page, free := FALSE, dirty := 1 }
          clock_hand := r.2.2.1
          swap_outs := wrap_int (s0.swap_outs + 1)
          swap_ins := wrap_int (r.2.2.2 + 1) }
      (Int.lor (shl_long frame cfg.size_of_frame) offset, s1)
    else (-1, s0)

/-- One pass of the loop of `main` of the compiled program over a decoded line on
which `resolve_address` does not return `-1`: the call, then `mem_refs++`. -/
def main_step_machine (cfg : Config) (s : State) (line : Int × Int) : State :=
  let r := resolve_address_machine cfg s line.1 line.2
  { r.2 with mem_refs := wrap_int (r.2.mem_refs + 1) }

/-- The passes of the loop of `main` of the compiled program over a list of decoded
lines, the test of the returned value apart. -/
def run_machine (cfg : Config) (s : State) (trace : List (Int × Int)) : State :=
  trace.foldl (main_step_machine cfg) s

/-- The loop of `main` of the compiled program with its way out: `none` when a call
returns `-1` and `error_resolve_address` ends the process. -/
def main_loop_machine (cfg : Config) : State → List (Int × Int) → Option State
  | s, [] => some s
  | s, line :: rest =>
    if (resolve_address_machine cfg s line.1 line.2).1 = -1 then none
    else main_loop_machine cfg (main_step_machine cfg s line) rest

/-- The page of a decoded line in the compiled program. -/
def page_of_machine (cfg : Config) (line : Int × Int) : Int := shr_long line.1 cfg.size_of_frame

/-- The number of lines of the trace whose page is not resident when the loop of
`main` of the compiled program reaches them. -/
def miss_count_machine (cfg : Config) : State → List (Int × Int) → Nat
  | _, [] => 0
  | s, line :: rest =>
    (if resident cfg s (page_of_machine cfg line) then 0 else 1)
      + miss_count_machine cfg (main_step_machine cfg s line) rest

/-- The number of lines of the trace whose page is resident when the loop of `main`
of the compiled program reaches them. -/
def hit_count_machine (cfg : Config) : State → List (Int × Int) → Nat
  | _, [] => 0
  | s, line :: rest =>
    (if resident cfg s (page_of_machine cfg line) then 1 else 0)
      + hit_count_machine cfg (main_step_machine cfg s line) rest

/-- The configuration with the shift count that the compiled program uses. -/
def shift_cfg (cfg : Config) : Config := { cfg with size_of_frame := cfg.size_of_frame % 64 }

/-- Whether an integer is the value of a C `int`. -/
def int_range (x : Int) : Prop := -2147483648 ≤ x ∧ x ≤ 2147483647

instance (x : Int) : Decidable (int_range x) := by
  unfold int_range; infer_instance

/-- Whether the five `int` counters of a state are values of a C `int`. -/
def counters_fit (s : State) : Prop :=
  int_range s.page_faults ∧ int_range s.mem_refs ∧ int_range s.swap_outs ∧
  int_range s.swap_ins ∧ int_range s.lru_mod

instance (s : State) : Decidable (counters_fit s) := by
  unfold counters_fit; infer_instance

/-- The state with the counters that `resolve_address` increments read as C `int`s. -/
def wrap_counters (s : State) : State :=
  { s with
    page_faults := wrap_int s.page_faults
    swap_outs := wrap_int s.swap_outs
    swap_ins := wrap_int s.swap_ins
    lru_mod := wrap_int s.lru_mod }

/-- Whether no counter of `t` is below the same counter of `s`. -/
def counters_le (s t : State) : Prop :=
  s.page_faults ≤ t.page_faults ∧ s.mem_refs ≤ t.mem_refs ∧ s.swap_outs ≤ t.swap_outs ∧
  s.swap_ins ≤ t.swap_ins ∧ s.lru_mod ≤ t.lru_mod

/-- Whether no `int` counter overflows while the loop of `main` processes the trace
from the state that `setup` builds: the numbers of references, faults, swap-outs
and swap-ins counted over the trace and the number of LRU stamps given, kept as
unbounded integers by `run` with the shift count of the compiled program, are at
most `INT_MAX`. -/
def no_counter_overflow (cfg : Config) (raw : List page_table_entry)
    (trace : List (Int × Int)) : Prop :=
  counters_fit (run (shift_cfg cfg) (setup cfg raw) trace)

instance (cfg : Config) (raw : List page_table_entry) (trace : List (Int × Int)) :
    Decidable (no_counter_overflow cfg raw trace) := by
  unfold no_counter_overflow; infer_instance

/-! ## Sample inputs for the compiled program -/

/-- A state under LRU with two occupied frames holding pages 0 and 1 and the stamp
counter `lru_mod` at `INT_MAX`. -/
def sample_lru_state_max : State :=
  { page_table := [⟨0, 3, 2147483645, 0⟩, ⟨1, 5, 2147483646, 0⟩]
    page_faults := 2
    mem_refs := 2147483647
    swap_outs := 0
    swap_ins := 2147483645
    fifo_index := 0
    lru_mod := 2147483647
    clock_hand := 0 }

/-- The configuration `--replace=fifo --framesize=63 --numframes=2`. -/
def sample_cfg_wide : Config := ⟨63, 2, REPLACE_FIFO⟩

/-- Whether every occupied entry holds a page number from 0 to `bound - 1`. -/
def pages_bounded (cfg : Config) (s : State) (bound : Nat) : Prop :=
  ∀ j, j < cfg.size_of_memory → (entry s.page_table j).free = 0 →
    0 ≤ (entry s.page_table j).page_num ∧ (entry s.page_table j).page_num < (bound : Int)

/-- Whether a decoded address is a non-negative `long`. -/
def nonneg_long (x : Int) : Prop := 0 ≤ x ∧ x ≤ 9223372036854775807

instance (x : Int) : Decidable (nonneg_long x) := by
  unfold nonneg_long; infer_instance
/-! ## Array reads and writes -/

theorem entry_nil (i : Nat) : entry [] i = default := by
  simp [entry]

theorem entry_cons_zero (a : page_table_entry) (t : List page_table_entry) :
    entry (a :: t) 0 = a := by
  simp [entry]

theorem entry_cons_succ (a : page_table_entry) (t : List page_table_entry) (i : Nat) :
    entry (a :: t) (i + 1) = entry t i := by
  simp [entry]

theorem entry_of_length_le (pt : List page_table_entry) (i : Nat) (h : pt.length ≤ i) :
    entry pt i = default := by
  induction pt generalizing i with
  | nil => exact entry_nil i
  | cons a t ih =>
    cases i with
    | zero => simp at h
    | succ i => rw [entry_cons_succ]; exact ih i (by simpa using h)

theorem entry_set_self (pt : List page_table_entry) (i : Nat) (e : page_table_entry)
    (h : i < pt.length) : entry (pt.set i e) i = e := by
  induction pt generalizing i with
  | nil => simp at h
  | cons a t ih =>
    cases i with
    | zero => simp [entry]
    | succ i =>
      rw [List.set_cons_succ, entry_cons_succ]
      exact ih i (by simpa using h)

theorem entry_set_other (pt : List page_table_entry) (i j : Nat) (e : page_table_entry)
    (h : i ≠ j) : entry (pt.set i e) j = entry pt j := by
  induction pt generalizing i j with
  | nil => simp
  | cons a t ih =>
    cases i with
    | zero =>
      cases j with
      | zero => exact absurd rfl h
      | succ j => simp [entry]
    | succ i =>
      cases j with
      | zero => simp [entry]
      | succ j =>
        rw [List.set_cons_succ, entry_cons_succ, entry_cons_succ]
        exact ih i j (fun hij => h (by rw [hij]))

theorem entry_set (pt : List page_table_entry) (i j : Nat) (e : page_table_entry) :
    entry (pt.set i e) j = if i = j ∧ i < pt.length then e else entry pt j := by
  by_cases hij : i = j
  · subst hij
    by_cases hl : i < pt.length
    · simp [hl, entry_set_self pt i e hl]
    · have : pt.set i e = pt := by
        apply List.set_eq_of_length_le; omega
      simp [hl, this]
  · simp [hij, entry_set_other pt i j e hij]

/-- Two tables of the same length with the same entries are equal. -/
theorem table_ext (p q : List page_table_entry) (hl : p.length = q.length)
    (h : ∀ i, i < p.length → entry p i = entry q i) : p = q := by
  induction p generalizing q with
  | nil =>
    cases q with
    | nil => rfl
    | cons b u => simp at hl
  | cons a t ih =>
    cases q with
    | nil => simp at hl
    | cons b u =>
      have h0 := h 0 (by simp)
      rw [entry_cons_zero, entry_cons_zero] at h0
      have ht : t = u := by
        apply ih u (by simpa using hl)
        intro i hi
        have := h (i + 1) (by simpa using hi)
        rwa [entry_cons_succ, entry_cons_succ] at this
      rw [h0, ht]

/-- A frame whose `free` or `dirty` is non-zero lies inside the table. -/
theorem lt_length_of_free_ne (pt : List page_table_entry) (i : Nat)
    (h : (entry pt i).free ≠ 0) : i < pt.length := by
  by_contra hc
  rw [entry_of_length_le pt i (by omega)] at h
  exact h rfl

theorem lt_length_of_dirty_ne (pt : List page_table_entry) (i : Nat)
    (h : (entry pt i).dirty ≠ 0) : i < pt.length := by
  by_contra hc
  rw [entry_of_length_le pt i (by omega)] at h
  exact h rfl

/-! ## The two search loops -/

theorem find_page_neg_one_iff (pt : List page_table_entry) (page : Int) (i k : Nat) :
    find_page pt page i k = -1 ↔
      ∀ j, i ≤ j → j < i + k → ¬((entry pt j).free = 0 ∧ (entry pt j).page_num = page) := by
  induction k generalizing i with
  | zero => simp [find_page]; intro j h1 h2; omega
  | succ k ih =>
    rw [find_page]
    by_cases hc : (entry pt i).free = 0 ∧ (entry pt i).page_num = page
    · rw [if_pos hc]
      constructor
      · intro h; omega
      · intro h; exact absurd hc (h i (le_refl i) (by omega))
    · rw [if_neg hc, ih]
      constructor
      · intro h j h1 h2
        by_cases hj : j = i
        · rw [hj]; exact hc
        · exact h j (by omega) (by omega)
      · intro h j h1 h2
        exact h j (by omega) (by omega)

theorem find_page_found (pt : List page_table_entry) (page : Int) (i k : Nat)
    (h : find_page pt page i k ≠ -1) :
    ∃ f : Nat, find_page pt page i k = (f : Int) ∧ i ≤ f ∧ f < i + k ∧
      (entry pt f).free = 0 ∧ (entry pt f).page_num = page ∧
      ∀ j, i ≤ j → j < f → ¬((entry pt j).free = 0 ∧ (entry pt j).page_num = page) := by
  induction k generalizing i with
  | zero => simp [find_page] at h
  | succ k ih =>
    rw [find_page] at h ⊢
    by_cases hc : (entry pt i).free = 0 ∧ (entry pt i).page_num = page
    · rw [if_pos hc]
      exact ⟨i, rfl, le_refl i, by omega, hc.1, hc.2, fun j h1 h2 => by omega⟩
    · rw [if_neg hc] at h ⊢
      obtain ⟨f, h1, h2, h3, h4, h5, h6⟩ := ih (i + 1) h
      refine ⟨f, h1, by omega, by omega, h4, h5, ?_⟩
      intro j hj1 hj2
      by_cases hj : j = i
      · rw [hj]; exact hc
      · exact h6 j (by omega) hj2

theorem find_free_neg_one_iff (pt : List page_table_entry) (i k : Nat) :
    find_free pt i k = -1 ↔ ∀ j, i ≤ j → j < i + k → (entry pt j).free = 0 := by
  induction k generalizing i with
  | zero => simp [find_free]; intro j h1 h2; omega
  | succ k ih =>
    rw [find_free]
    by_cases hc : (entry pt i).free ≠ 0
    · rw [if_pos hc]
      constructor
      · intro h; omega
      · intro h; exact absurd (h i (le_refl i) (by omega)) hc
    · rw [if_neg hc, ih]
      have hc0 : (entry pt i).free = 0 := by simpa using hc
      constructor
      · intro h j h1 h2
        by_cases hj : j = i
        · rw [hj]; exact hc0
        · exact h j (by omega) (by omega)
      · intro h j h1 h2
        exact h j (by omega) (by omega)

theorem find_free_found (pt : List page_table_entry) (i k : Nat)
    (h : find_free pt i k ≠ -1) :
    ∃ f : Nat, find_free pt i k = (f : Int) ∧ i ≤ f ∧ f < i + k ∧
      (entry pt f).free ≠ 0 ∧ ∀ j, i ≤ j → j < f → (entry pt j).free = 0 := by
  induction k generalizing i with
  | zero => simp [find_free] at h
  | succ k ih =>
    rw [find_free] at h ⊢
    by_cases hc : (entry pt i).free ≠ 0
    · rw [if_pos hc]
      exact ⟨i, rfl, le_refl i, by omega, hc, fun j h1 h2 => by omega⟩
    · rw [if_neg hc] at h ⊢
      have hc0 : (entry pt i).free = 0 := by simpa using hc
      obtain ⟨f, h1, h2, h3, h4, h5⟩ := ih (i + 1) h
      refine ⟨f, h1, by omega, by omega, h4, ?_⟩
      intro j hj1 hj2
      by_cases hj : j = i
      · rw [hj]; exact hc0
      · exact h5 j (by omega) hj2


/-! ## The LRU scan -/

theorem lru_scan_spec (pt : List page_table_entry) (i k f : Nat)
    (hf : f ≤ i)
    (h1 : ∀ j, j < i → (entry pt f).modified ≤ (entry pt j).modified)
    (h2 : ∀ j, j < f → (entry pt f).modified < (entry pt j).modified) :
    ∃ g : Nat, lru_scan pt i k (f : Int) (entry pt f).modified = (g : Int) ∧
      (g < i + k ∨ g = f) ∧
      (∀ j, j < i + k → (entry pt g).modified ≤ (entry pt j).modified) ∧
      (∀ j, j < g → (entry pt g).modified < (entry pt j).modified) := by
  induction k generalizing i f with
  | zero => exact ⟨f, rfl, Or.inr rfl, h1, h2⟩
  | succ k ih =>
    rw [lru_scan]
    by_cases hc : (entry pt f).modified > (entry pt i).modified
    · rw [if_pos hc]
      obtain ⟨g, e1, e2, e3, e4⟩ := ih (i + 1) i (by omega)
        (fun j hj => by
          by_cases hji : j = i
          · rw [hji]
          · have := h1 j (by omega); omega)
        (fun j hj => by have := h1 j hj; omega)
      refine ⟨g, e1, ?_, ?_, e4⟩
      · rcases e2 with e2 | e2 <;> left <;> omega
      · intro j hj; exact e3 j (by omega)
    · rw [if_neg hc]
      obtain ⟨g, e1, e2, e3, e4⟩ := ih (i + 1) f (by omega)
        (fun j hj => by
          by_cases hji : j = i
          · rw [hji]; omega
          · exact h1 j (by omega))
        h2
      refine ⟨g, e1, ?_, ?_, e4⟩
      · rcases e2 with e2 | e2
        · left; omega
        · right; exact e2
      · intro j hj; exact e3 j (by omega)

/-- The scan as `resolve_address` starts it: the frame it yields has the least
`modified` of the first `n` entries and is the first such frame. -/
theorem lru_scan_min (pt : List page_table_entry) (n : Nat) (hn : 0 < n) :
    ∃ g : Nat, lru_scan pt 0 n 0 (entry pt 0).modified = (g : Int) ∧ g < n ∧
      (∀ j, j < n → (entry pt g).modified ≤ (entry pt j).modified) ∧
      (∀ j, j < g → (entry pt g).modified < (entry pt j).modified) := by
  obtain ⟨g, e1, e2, e3, e4⟩ := lru_scan_spec pt 0 n 0 (le_refl 0)
    (fun j hj => by omega) (fun j hj => by omega)
  refine ⟨g, by simpa using e1, ?_, ?_, e4⟩
  · rcases e2 with e2 | e2 <;> omega
  · intro j hj; exact e3 j (by omega)

/-! ## The CLOCK loop -/

theorem advance_lt (n c : Nat) (hn : 0 < n) : advance n c < n := by
  unfold advance; split <;> omega

theorem advance_eq_mod (n c : Nat) (hc : c < n) : advance n c = (c + 1) % n := by
  unfold advance
  split
  · have : c + 1 = n := by omega
    rw [this, Nat.mod_self]
  · rw [Nat.mod_eq_of_lt (by omega)]

theorem clock_loop_length (n : Nat) (pt : List page_table_entry) (h : Nat) (si : Int) :
    (clock_loop n pt h si).2.1.length = pt.length := by
  induction pt, h, si using clock_loop.induct n with
  | case1 pt h si hd => rw [clock_loop, if_pos hd]
  | case2 pt h si hd ih => rw [clock_loop, if_neg hd, ih]; simp

/-- The loop only touches `dirty`. -/
theorem clock_loop_fields (n : Nat) (pt : List page_table_entry) (h : Nat) (si : Int) (j : Nat) :
    (entry (clock_loop n pt h si).2.1 j).page_num = (entry pt j).page_num ∧
    (entry (clock_loop n pt h si).2.1 j).free = (entry pt j).free ∧
    (entry (clock_loop n pt h si).2.1 j).modified = (entry pt j).modified := by
  induction pt, h, si using clock_loop.induct n with
  | case1 pt h si hd => rw [clock_loop, if_pos hd]; exact ⟨rfl, rfl, rfl⟩
  | case2 pt h si hd ih =>
    rw [clock_loop, if_neg hd]
    obtain ⟨a, b, c⟩ := ih
    rw [a, b, c, entry_set]
    split
    · rename_i hh; rw [hh.1]; exact ⟨rfl, rfl, rfl⟩
    · exact ⟨rfl, rfl, rfl⟩

theorem clock_loop_swap_ins_le (n : Nat) (pt : List page_table_entry) (h : Nat) (si : Int) :
    si ≤ (clock_loop n pt h si).2.2.2 := by
  induction pt, h, si using clock_loop.induct n with
  | case1 pt h si hd => rw [clock_loop, if_pos hd]
  | case2 pt h si hd ih => rw [clock_loop, if_neg hd]; omega

/-- The loop, when the first `d` frames from the hand have a non-zero `dirty` and
the next one (if the hand has not come round) has `dirty == 0`. -/
theorem clock_loop_sweep (n : Nat) (d : Nat) (pt : List page_table_entry) (h : Nat) (si : Int)
    (hlen : pt.length = n) (hh : h < n) (hd : d ≤ n)
    (hset : ∀ i, i < d → (entry pt (hand_after n h i)).dirty ≠ 0)
    (hstop : d < n → (entry pt (hand_after n h d)).dirty = 0) :
    (clock_loop n pt h si).1 = (hand_after n h d : Int) ∧
    (clock_loop n pt h si).2.2.1 = advance n (hand_after n h d) ∧
    (clock_loop n pt h si).2.2.2 = si + d ∧
    (clock_loop n pt h si).2.1.length = n ∧
    (∀ j, entry (clock_loop n pt h si).2.1 j =
      if swept n h d j then { entry pt j with dirty := 0 } else entry pt j) := by
  induction d generalizing pt h si with
  | zero =>
    have h0 : (entry pt h).dirty = 0 := by
      have := hstop (by omega)
      simpa [hand_after, show ¬ (h ≥ n) by omega] using this
    rw [clock_loop, if_pos h0]
    refine ⟨by simp [hand_after, show ¬ (h ≥ n) by omega],
      by simp [hand_after, show ¬ (h ≥ n) by omega], by simp, hlen, ?_⟩
    intro j
    have : ¬ swept n h 0 j := by unfold swept; omega
    rw [if_neg this]
  | succ d ih =>
    have h0 : (entry pt h).dirty ≠ 0 := by
      have := hset 0 (by omega)
      simpa [hand_after, show ¬ (h ≥ n) by omega] using this
    rw [clock_loop, if_neg h0]
    have hadv : advance n h < n := advance_lt n h (by omega)
    have hha : ∀ i, i ≤ d → hand_after n (advance n h) i = hand_after n h (i + 1) := by
      intro i hi
      unfold hand_after advance
      split_ifs <;> omega
    have hne : ∀ i, i < d → hand_after n (advance n h) i ≠ h := by
      intro i hi
      unfold hand_after advance
      split_ifs <;> omega
    obtain ⟨r1, r2, r3, r4, r5⟩ := ih (pt.set h { entry pt h with dirty := 0 }) (advance n h)
      (si + 1) (by simpa using hlen) hadv (by omega)
      (fun i hi => by
        rw [entry_set_other _ _ _ _ (fun e => hne i hi e.symm), hha i (by omega)]
        exact hset (i + 1) (by omega))
      (fun hdn => by
        by_cases hlast : d + 1 < n
        · have hne2 : hand_after n (advance n h) d ≠ h := by
            unfold hand_after advance
            split_ifs <;> omega
          rw [entry_set_other _ _ _ _ (fun e => hne2 e.symm), hha d (le_refl d)]
          exact hstop hlast
        · have heq : hand_after n (advance n h) d = h := by
            unfold hand_after advance
            split_ifs <;> omega
          rw [heq, entry_set_self _ _ _ (by omega)])
    refine ⟨by rw [r1, hha d (le_refl d)], by rw [r2, hha d (le_refl d)],
      by rw [r3]; push_cast; ring, r4, ?_⟩
    intro j
    rw [r5 j, entry_set]
    by_cases hj : h = j
    · subst hj
      have hs : swept n h (d + 1) h := by unfold swept; omega
      rw [if_pos hs]
      simp [show h < pt.length by omega]
    · have hs : swept n (advance n h) d j ↔ swept n h (d + 1) j := by
        unfold swept advance
        split_ifs <;> constructor <;> intro hx <;> omega
      simp only [hj, false_and, if_false]
      by_cases hsw : swept n h (d + 1) j
      · rw [if_pos (hs.mpr hsw), if_pos hsw]
      · rw [if_neg (fun x => hsw (hs.mp x)), if_neg hsw]


/-! ## Address arithmetic -/

theorem lor_natCast (a b : Nat) : Int.lor (a : Int) (b : Int) = ((a ||| b : Nat) : Int) := rfl

theorem land_natCast (a b : Nat) : Int.land (a : Int) (b : Int) = ((a &&& b : Nat) : Int) := rfl

theorem land_natCast_nonneg (x : Int) (m : Nat) : 0 ≤ Int.land x (m : Int) := by
  cases x with
  | ofNat a => exact Int.ofNat_nonneg _
  | negSucc a => exact Int.ofNat_nonneg _

theorem shl_natCast (a b : Nat) : shl (a : Int) b = ((a * 2 ^ b : Nat) : Int) := by
  unfold shl; push_cast; ring

theorem mask_loop_natCast (k m : Nat) :
    mask_loop k (m : Int) = ((m * 2 ^ k + (2 ^ k - 1) : Nat) : Int) := by
  induction k generalizing m with
  | zero => simp [mask_loop]
  | succ k ih =>
    rw [mask_loop, shl_natCast]
    have h1 : Int.lor ((m * 2 ^ 1 : Nat) : Int) 1 = ((2 * m + 1 : Nat) : Int) := by
      have := Nat.mul_add_lt_is_or (show 1 < 2 ^ 1 by norm_num) m
      rw [show (1 : Int) = ((1 : Nat) : Int) from rfl, lor_natCast]
      congr 1
      rw [Nat.mul_comm m (2 ^ 1), ← this]
    rw [h1, ih]
    congr 1
    have hp : 0 < 2 ^ k := Nat.pow_pos (by norm_num)
    rw [pow_succ]
    have : (2 * m + 1) * 2 ^ k = m * (2 ^ k * 2) + 2 ^ k := by ring
    omega

/-- The mask that the loop builds is `(1 << size_of_frame) - 1`. -/
theorem mask_loop_eq (b : Nat) : mask_loop b 0 = shl 1 b - 1 := by
  have := mask_loop_natCast b 0
  rw [show ((0 : Nat) : Int) = 0 from rfl] at this
  rw [this]
  have hp : 0 < 2 ^ b := Nat.pow_pos (by norm_num)
  unfold shl
  rw [Nat.zero_mul, Nat.zero_add, Nat.cast_sub hp]
  push_cast; ring

theorem mask_loop_cast (b : Nat) : mask_loop b 0 = ((2 ^ b - 1 : Nat) : Int) := by
  have := mask_loop_natCast b 0
  rw [show ((0 : Nat) : Int) = 0 from rfl] at this
  rw [this, Nat.zero_mul, Nat.zero_add]

theorem offset_nonneg (logical : Int) (b : Nat) : 0 ≤ Int.land logical (mask_loop b 0) := by
  rw [mask_loop_cast]; exact land_natCast_nonneg _ _

theorem offset_natCast (l b : Nat) :
    Int.land (l : Int) (mask_loop b 0) = ((l % 2 ^ b : Nat) : Int) := by
  rw [mask_loop_cast, land_natCast, Nat.and_pow_two_sub_one_eq_mod]

theorem page_natCast (l b : Nat) : (l : Int) >>> b = ((l / 2 ^ b : Nat) : Int) := by
  rw [Int.shiftRight_eq_div_pow]; norm_cast

/-- The value `(frame << size_of_frame) | offset` is never negative for a frame
index, whatever the logical address. -/
theorem effective_nonneg (f : Nat) (logical : Int) (b : Nat) :
    0 ≤ Int.lor (shl (f : Int) b) (Int.land logical (mask_loop b 0)) := by
  rw [shl_natCast]
  obtain ⟨o, ho⟩ := Int.eq_ofNat_of_zero_le (offset_nonneg logical b)
  rw [ho, lor_natCast]
  exact Int.ofNat_nonneg _

theorem effective_natCast (f l b : Nat) :
    Int.lor (shl (f : Int) b) (Int.land (l : Int) (mask_loop b 0))
      = ((f * 2 ^ b + l % 2 ^ b : Nat) : Int) := by
  rw [shl_natCast, offset_natCast, lor_natCast]
  congr 1
  have hlt : l % 2 ^ b < 2 ^ b := Nat.mod_lt _ (Nat.pow_pos (by norm_num))
  rw [Nat.mul_comm f (2 ^ b), Nat.mul_add_lt_is_or hlt f]


/-! ## The branches of `resolve_address` -/

/-- The hit branch. -/
theorem resolve_address_hit (cfg : Config) (s : State) (logical memwrite : Int) (f : Nat)
    (h : find_page s.page_table (logical >>> cfg.size_of_frame) 0 cfg.size_of_memory = (f : Int)) :
    resolve_address cfg s logical memwrite =
      (Int.lor (shl (f : Int) cfg.size_of_frame)
          (Int.land logical (mask_loop cfg.size_of_frame 0)),
        if cfg.page_replacement_scheme = REPLACE_LRU then
          { s with
            page_table := s.page_table.set f { entry s.page_table f with modified := s.lru_mod }
            lru_mod := s.lru_mod + 1
            swap_ins := s.swap_ins + 1 }
        else if cfg.page_replacement_scheme = REPLACE_CLOCK then
          if (entry s.page_table f).dirty = 0 then
            { s with
              page_table := s.page_table.set f { entry s.page_table f with dirty := 1 }
              swap_ins := s.swap_ins + 1 }
          else s
        else s) := by
  have hne : ((f : Int) ≠ -1) := by omega
  unfold resolve_address
  simp only [h, hne, if_true, Int.toNat_ofNat, ne_eq, not_false_eq_true]
  by_cases h2 : cfg.page_replacement_scheme = REPLACE_LRU
  · have h3 : ¬ REPLACE_LRU = REPLACE_CLOCK := by decide
    simp only [h2, h3, if_true, if_false]
  · simp only [h2, if_false]

/-- The branch that loads into a free frame. -/
theorem resolve_address_load (cfg : Config) (s : State) (logical memwrite : Int) (f : Nat)
    (hmiss : find_page s.page_table (logical >>> cfg.size_of_frame) 0 cfg.size_of_memory = -1)
    (h : find_free s.page_table 0 cfg.size_of_memory = (f : Int)) :
    resolve_address cfg s logical memwrite =
      (Int.lor (shl (f : Int) cfg.size_of_frame)
          (Int.land logical (mask_loop cfg.size_of_frame 0)),
        { s with
          page_faults := s.page_faults + 1
          page_table := s.page_table.set f
            { page_num := logical >>> cfg.size_of_frame
              free := FALSE
              modified :=
                if cfg.page_replacement_scheme = REPLACE_LRU then s.lru_mod
                else (entry s.page_table f).modified
              dirty :=
                if cfg.page_replacement_scheme = REPLACE_CLOCK then 1
                else (entry s.page_table f).dirty }
          lru_mod :=
            if cfg.page_replacement_scheme = REPLACE_LRU then s.lru_mod + 1 else s.lru_mod }) := by
  have hne : ((f : Int) ≠ -1) := by omega
  have hfree : (entry s.page_table f).free ≠ 0 := by
    obtain ⟨g, e1, _, _, e4, _⟩ := find_free_found s.page_table 0 cfg.size_of_memory (by rw [h]; exact hne)
    have : g = f := by rw [h] at e1; exact_mod_cast e1.symm
    rw [← this]; exact e4
  have hlt : f < s.page_table.length := lt_length_of_free_ne _ _ hfree
  unfold resolve_address
  simp only [hmiss, h, hne, if_true, if_false, Int.toNat_ofNat, ne_eq, not_false_eq_true,
    not_true_eq_false]
  by_cases h2 : cfg.page_replacement_scheme = REPLACE_LRU
  · have h3 : ¬ REPLACE_LRU = REPLACE_CLOCK := by decide
    simp only [h2, h3, if_true, if_false, entry_set_self _ _ _ hlt, List.set_set]
  · by_cases h3 : cfg.page_replacement_scheme = REPLACE_CLOCK
    · have h4 : ¬ REPLACE_CLOCK = REPLACE_LRU := by decide
      simp only [h3, h4, if_true, if_false, entry_set_self _ _ _ hlt, List.set_set]
    · simp only [h2, h3, if_false]

/-- The FIFO replacement branch. -/
theorem resolve_address_fifo (cfg : Config) (s : State) (logical memwrite : Int)
    (hs : cfg.page_replacement_scheme = REPLACE_FIFO)
    (hmiss : find_page s.page_table (logical >>> cfg.size_of_frame) 0 cfg.size_of_memory = -1)
    (hfull : find_free s.page_table 0 cfg.size_of_memory = -1) :
    resolve_address cfg s logical memwrite =
      (Int.lor (shl (s.fifo_index : Int) cfg.size_of_frame)
          (Int.land logical (mask_loop cfg.size_of_frame 0)),
        { s with
          page_faults := s.page_faults + 1
          fifo_index := advance cfg.size_of_memory s.fifo_index
          page_table := s.page_table.set s.fifo_index
            { entry s.page_table s.fifo_index with
              page_num := logical >>> cfg.size_of_frame, free := FALSE }
          swap_outs := s.swap_outs + 1
          swap_ins := s.swap_ins + 1 }) := by
  unfold resolve_address
  simp only [hmiss, hfull, hs, if_true, if_false, Int.toNat_ofNat, ne_eq, not_false_eq_true,
    not_true_eq_false]

/-- The LRU replacement branch. -/
theorem resolve_address_lru (cfg : Config) (s : State) (logical memwrite : Int) (f : Nat)
    (hs : cfg.page_replacement_scheme = REPLACE_LRU)
    (hmiss : find_page s.page_table (logical >>> cfg.size_of_frame) 0 cfg.size_of_memory = -1)
    (hfull : find_free s.page_table 0 cfg.size_of_memory = -1)
    (h : lru_scan s.page_table 0 cfg.size_of_memory 0 (entry s.page_table 0).modified = (f : Int)) :
    resolve_address cfg s logical memwrite =
      (Int.lor (shl (f : Int) cfg.size_of_frame)
          (Int.land logical (mask_loop cfg.size_of_frame 0)),
        { s with
          page_faults := s.page_faults + 1
          page_table := s.page_table.set f
            { entry s.page_table f with
              page_num := logical >>> cfg.size_of_frame, free := FALSE, modified := s.lru_mod }
          lru_mod := s.lru_mod + 1
          swap_outs := s.swap_outs + 1
          swap_ins := s.swap_ins + 1 }) := by
  have h1 : ¬ REPLACE_LRU = REPLACE_FIFO := by decide
  unfold resolve_address
  simp only [hmiss, hfull, hs, h, h1, if_true, if_false, Int.toNat_ofNat, ne_eq,
    not_false_eq_true, not_true_eq_false]

/-- The CLOCK replacement branch. -/
theorem resolve_address_clock (cfg : Config) (s : State) (logical memwrite : Int) (f : Nat)
    (hs : cfg.page_replacement_scheme = REPLACE_CLOCK)
    (hmiss : find_page s.page_table (logical >>> cfg.size_of_frame) 0 cfg.size_of_memory = -1)
    (hfull : find_free s.page_table 0 cfg.size_of_memory = -1)
    (h : (clock_loop cfg.size_of_memory s.page_table s.clock_hand s.swap_ins).1 = (f : Int)) :
    resolve_address cfg s logical memwrite =
      (Int.lor (shl (f : Int) cfg.size_of_frame)
          (Int.land logical (mask_loop cfg.size_of_frame 0)),
        { s with
          page_faults := s.page_faults + 1
          page_table :=
            (clock_loop cfg.size_of_memory s.page_table s.clock_hand s.swap_ins).2.1.set f
              { entry (clock_loop cfg.size_of_memory s.page_table s.clock_hand s.swap_ins).2.1 f
                with page_num := logical >>> cfg.size_of_frame, free := FALSE, dirty := 1 }
          clock_hand := (clock_loop cfg.size_of_memory s.page_table s.clock_hand s.swap_ins).2.2.1
          swap_outs := s.swap_outs + 1
          swap_ins :=
            (clock_loop cfg.size_of_memory s.page_table s.clock_hand s.swap_ins).2.2.2 + 1 }) := by
  have h1 : ¬ REPLACE_CLOCK = REPLACE_FIFO := by decide
  have h2 : ¬ REPLACE_CLOCK = REPLACE_LRU := by decide
  unfold resolve_address
  simp only [hmiss, hfull, hs, h, h1, h2, if_true, if_false, Int.toNat_ofNat, ne_eq,
    not_false_eq_true, not_true_eq_false]

/-- The branch without a replacement scheme that `resolve_address` knows. -/
theorem resolve_address_none (cfg : Config) (s : State) (logical memwrite : Int)
    (h1 : cfg.page_replacement_scheme ≠ REPLACE_FIFO)
    (h2 : cfg.page_replacement_scheme ≠ REPLACE_LRU)
    (h3 : cfg.page_replacement_scheme ≠ REPLACE_CLOCK)
    (hmiss : find_page s.page_table (logical >>> cfg.size_of_frame) 0 cfg.size_of_memory = -1)
    (hfull : find_free s.page_table 0 cfg.size_of_memory = -1) :
    resolve_address cfg s logical memwrite =
      (-1, { s with page_faults := s.page_faults + 1 }) := by
  unfold resolve_address
  simp only [hmiss, hfull, h1, h2, h3, if_true, if_false, ne_eq, not_false_eq_true,
    not_true_eq_false]


theorem clock_loop_frame (n : Nat) (pt : List page_table_entry) (h : Nat) (si : Int) :
    ∃ f : Nat, (clock_loop n pt h si).1 = (f : Int) := by
  induction pt, h, si using clock_loop.induct n with
  | case1 pt h si hd => rw [clock_loop, if_pos hd]; exact ⟨h, rfl⟩
  | case2 pt h si hd ih => rw [clock_loop, if_neg hd]; exact ih

/-- Case analysis on the branch that a call of `resolve_address` takes. -/
theorem resolve_address_cases (cfg : Config) (s : State) (logical memwrite : Int)
    (P : Int × State → Prop)
    (hit : ∀ f : Nat, f < cfg.size_of_memory →
      find_page s.page_table (logical >>> cfg.size_of_frame) 0 cfg.size_of_memory = (f : Int) →
      (entry s.page_table f).free = 0 →
      (entry s.page_table f).page_num = logical >>> cfg.size_of_frame →
      P (Int.lor (shl (f : Int) cfg.size_of_frame)
          (Int.land logical (mask_loop cfg.size_of_frame 0)),
        if cfg.page_replacement_scheme = REPLACE_LRU then
          { s with
            page_table := s.page_table.set f { entry s.page_table f with modified := s.lru_mod }
            lru_mod := s.lru_mod + 1
            swap_ins := s.swap_ins + 1 }
        else if cfg.page_replacement_scheme = REPLACE_CLOCK then
          if (entry s.page_table f).dirty = 0 then
            { s with
              page_table := s.page_table.set f { entry s.page_table f with dirty := 1 }
              swap_ins := s.swap_ins + 1 }
          else s
        else s))
    (load : ∀ f : Nat, f < cfg.size_of_memory → f < s.page_table.length →
      find_page s.page_table (logical >>> cfg.size_of_frame) 0 cfg.size_of_memory = -1 →
      find_free s.page_table 0 cfg.size_of_memory = (f : Int) →
      (entry s.page_table f).free ≠ 0 →
      (∀ j, j < f → (entry s.page_table j).free = 0) →
      P (Int.lor (shl (f : Int) cfg.size_of_frame)
          (Int.land logical (mask_loop cfg.size_of_frame 0)),
        { s with
          page_faults := s.page_faults + 1
          page_table := s.page_table.set f
            { page_num := logical >>> cfg.size_of_frame
              free := FALSE
              modified :=
                if cfg.page_replacement_scheme = REPLACE_LRU then s.lru_mod
                else (entry s.page_table f).modified
              dirty :=
                if cfg.page_replacement_scheme = REPLACE_CLOCK then 1
                else (entry s.page_table f).dirty }
          lru_mod :=
            if cfg.page_replacement_scheme = REPLACE_LRU then s.lru_mod + 1 else s.lru_mod }))
    (fifo : cfg.page_replacement_scheme = REPLACE_FIFO →
      find_page s.page_table (logical >>> cfg.size_of_frame) 0 cfg.size_of_memory = -1 →
      find_free s.page_table 0 cfg.size_of_memory = -1 →
      P (Int.lor (shl (s.fifo_index : Int) cfg.size_of_frame)
          (Int.land logical (mask_loop cfg.size_of_frame 0)),
        { s with
          page_faults := s.page_faults + 1
          fifo_index := advance cfg.size_of_memory s.fifo_index
          page_table := s.page_table.set s.fifo_index
            { entry s.page_table s.fifo_index with
              page_num := logical >>> cfg.size_of_frame, free := FALSE }
          swap_outs := s.swap_outs + 1
          swap_ins := s.swap_ins + 1 }))
    (lru : ∀ f : Nat, cfg.page_replacement_scheme = REPLACE_LRU →
      find_page s.page_table (logical >>> cfg.size_of_frame) 0 cfg.size_of_memory = -1 →
      find_free s.page_table 0 cfg.size_of_memory = -1 →
      lru_scan s.page_table 0 cfg.size_of_memory 0 (entry s.page_table 0).modified = (f : Int) →
      P (Int.lor (shl (f : Int) cfg.size_of_frame)
          (Int.land logical (mask_loop cfg.size_of_frame 0)),
        { s with
          page_faults := s.page_faults + 1
          page_table := s.page_table.set f
            { entry s.page_table f with
              page_num := logical >>> cfg.size_of_frame, free := FALSE, modified := s.lru_mod }
          lru_mod := s.lru_mod + 1
          swap_outs := s.swap_outs + 1
          swap_ins := s.swap_ins + 1 }))
    (clock : ∀ f : Nat, cfg.page_replacement_scheme = REPLACE_CLOCK →
      find_page s.page_table (logical >>> cfg.size_of_frame) 0 cfg.size_of_memory = -1 →
      find_free s.page_table 0 cfg.size_of_memory = -1 →
      (clock_loop cfg.size_of_memory s.page_table s.clock_hand s.swap_ins).1 = (f : Int) →
      P (Int.lor (shl (f : Int) cfg.size_of_frame)
          (Int.land logical (mask_loop cfg.size_of_frame 0)),
        { s with
          page_faults := s.page_faults + 1
          page_table :=
            (clock_loop cfg.size_of_memory s.page_table s.clock_hand s.swap_ins).2.1.set f
              { entry (clock_loop cfg.size_of_memory s.page_table s.clock_hand s.swap_ins).2.1 f
                with page_num := logical >>> cfg.size_of_frame, free := FALSE, dirty := 1 }
          clock_hand := (clock_loop cfg.size_of_memory s.page_table s.clock_hand s.swap_ins).2.2.1
          swap_outs := s.swap_outs + 1
          swap_ins :=
            (clock_loop cfg.size_of_memory s.page_table s.clock_hand s.swap_ins).2.2.2 + 1 }))
    (none : cfg.page_replacement_scheme ≠ REPLACE_FIFO →
      cfg.page_replacement_scheme ≠ REPLACE_LRU →
      cfg.page_replacement_scheme ≠ REPLACE_CLOCK →
      find_page s.page_table (logical >>> cfg.size_of_frame) 0 cfg.size_of_memory = -1 →
      find_free s.page_table 0 cfg.size_of_memory = -1 →
      P (-1, { s with page_faults := s.page_faults + 1 })) :
    P (resolve_address cfg s logical memwrite) := by
  by_cases hp : find_page s.page_table (logical >>> cfg.size_of_frame) 0 cfg.size_of_memory = -1
  · by_cases hf : find_free s.page_table 0 cfg.size_of_memory = -1
    · by_cases h1 : cfg.page_replacement_scheme = REPLACE_FIFO
      · rw [resolve_address_fifo cfg s logical memwrite h1 hp hf]
        exact fifo h1 hp hf
      · by_cases h2 : cfg.page_replacement_scheme = REPLACE_LRU
        · obtain ⟨g, e1, _⟩ := lru_scan_spec s.page_table 0 cfg.size_of_memory 0 (le_refl 0)
            (fun j hj => by omega) (fun j hj => by omega)
          have e1 : lru_scan s.page_table 0 cfg.size_of_memory 0 (entry s.page_table 0).modified
              = (g : Int) := by simpa using e1
          rw [resolve_address_lru cfg s logical memwrite g h2 hp hf e1]
          exact lru g h2 hp hf e1
        · by_cases h3 : cfg.page_replacement_scheme = REPLACE_CLOCK
          · obtain ⟨g, e1⟩ := clock_loop_frame cfg.size_of_memory s.page_table s.clock_hand
              s.swap_ins
            rw [resolve_address_clock cfg s logical memwrite g h3 hp hf e1]
            exact clock g h3 hp hf e1
          · rw [resolve_address_none cfg s logical memwrite h1 h2 h3 hp hf]
            exact none h1 h2 h3 hp hf
    · obtain ⟨f, e1, _, e3, e4, e5⟩ := find_free_found s.page_table 0 cfg.size_of_memory hf
      rw [resolve_address_load cfg s logical memwrite f hp e1]
      exact load f (by omega) (lt_length_of_free_ne _ _ e4) hp e1 e4
        (fun j hj => e5 j (by omega) hj)
  · obtain ⟨f, e1, _, e3, e4, e5, _⟩ :=
      find_page_found s.page_table (logical >>> cfg.size_of_frame) 0 cfg.size_of_memory hp
    rw [resolve_address_hit cfg s logical memwrite f e1]
    exact hit f (by omega) e1 e4 e5

/-! ## `setup` -/

theorem setup_loop_length (pt : List page_table_entry) (i k : Nat) :
    (setup_loop pt i k).length = pt.length := by
  induction k generalizing pt i with
  | zero => rfl
  | succ k ih => rw [setup_loop, ih]; simp

theorem setup_loop_entry (pt : List page_table_entry) (i k j : Nat) :
    entry (setup_loop pt i k) j =
      if i ≤ j ∧ j < i + k ∧ j < pt.length then { entry pt j with free := TRUE }
      else entry pt j := by
  induction k generalizing pt i with
  | zero =>
    rw [setup_loop, if_neg (by omega)]
  | succ k ih =>
    rw [setup_loop, ih, entry_set, List.length_set]
    by_cases hij : i = j
    · subst hij
      by_cases hl : i < pt.length
      · rw [if_neg (by omega), if_pos ⟨rfl, hl⟩, if_pos (by omega)]
      · rw [if_neg (by omega), if_neg (by omega), if_neg (by omega)]
    · by_cases hc : i + 1 ≤ j ∧ j < i + 1 + k ∧ j < pt.length
      · rw [if_pos hc, if_neg (by omega), if_pos (by omega)]
      · rw [if_neg hc, if_neg (by omega), if_neg (by omega)]

/-- After `setup` every one of the `size_of_memory` entries is free. -/
theorem setup_free (cfg : Config) (raw : List page_table_entry)
    (hraw : raw.length = cfg.size_of_memory) (j : Nat) (hj : j < cfg.size_of_memory) :
    (entry (setup cfg raw).page_table j).free = TRUE := by
  unfold setup
  simp only
  rw [setup_loop_entry, if_pos (by omega)]


/-! ## Invariants of the loop of `main` -/

theorem run_nil (cfg : Config) (s : State) : run cfg s [] = s := rfl

theorem run_cons (cfg : Config) (s : State) (c : Int × Int) (t : List (Int × Int)) :
    run cfg s (c :: t) = run cfg (main_step cfg s c) t := rfl

theorem run_append (cfg : Config) (s : State) (t u : List (Int × Int)) :
    run cfg s (t ++ u) = run cfg (run cfg s t) u := by
  unfold run; rw [List.foldl_append]

/-- A property of the globals that every call keeps and that does not read
`mem_refs` holds all along the loop of `main`. -/
theorem run_invariant (cfg : Config) (Inv : State → Prop)
    (hcall : ∀ s logical memwrite, Inv s → Inv (resolve_address cfg s logical memwrite).2)
    (hrefs : ∀ s, Inv s → Inv { s with mem_refs := s.mem_refs + 1 })
    (s : State) (hs : Inv s) (trace : List (Int × Int)) : Inv (run cfg s trace) := by
  induction trace generalizing s with
  | nil => exact hs
  | cons c t ih =>
    rw [run_cons]
    exact ih _ (hrefs _ (hcall s c.1 c.2 hs))

theorem clock_loop_hand_lt (n : Nat) (hn : 0 < n) (pt : List page_table_entry) (h : Nat)
    (si : Int) : (clock_loop n pt h si).2.2.1 < n := by
  induction pt, h, si using clock_loop.induct n with
  | case1 pt h si hd => rw [clock_loop, if_pos hd]; exact advance_lt n h hn
  | case2 pt h si hd ih => rw [clock_loop, if_neg hd]; exact ih

theorem in_range_setup (cfg : Config) (raw : List page_table_entry)
    (hN : 0 < cfg.size_of_memory) (hraw : raw.length = cfg.size_of_memory) :
    in_range cfg (setup cfg raw) := by
  refine ⟨?_, hN, hN⟩
  unfold setup
  simp only
  rw [setup_loop_length, hraw]

theorem in_range_resolve (cfg : Config) (hN : 0 < cfg.size_of_memory) (s : State)
    (logical memwrite : Int) (h : in_range cfg s) :
    in_range cfg (resolve_address cfg s logical memwrite).2 := by
  obtain ⟨h1, h2, h3⟩ := h
  apply resolve_address_cases cfg s logical memwrite (fun r => in_range cfg r.2)
  · intro f _ _ _ _
    unfold in_range
    split_ifs <;> simp [h1, h2, h3]
  · intro f _ _ _ _ _ _
    unfold in_range
    simp [h1, h2, h3]
  · intro _ _ _
    unfold in_range
    simp [h1, h3, advance_lt _ _ hN]
  · intro f _ _ _ _
    unfold in_range
    simp [h1, h2, h3]
  · intro f _ _ _ _
    unfold in_range
    simp [h1, h2, clock_loop_length, clock_loop_hand_lt _ hN]
  · intro _ _ _ _ _
    exact ⟨h1, h2, h3⟩

theorem in_range_run (cfg : Config) (hN : 0 < cfg.size_of_memory) (raw : List page_table_entry)
    (hraw : raw.length = cfg.size_of_memory) (trace : List (Int × Int)) :
    in_range cfg (run cfg (setup cfg raw) trace) :=
  run_invariant cfg (in_range cfg) (fun s l w h => in_range_resolve cfg hN s l w h)
    (fun s h => h) _ (in_range_setup cfg raw hN hraw) trace

/-! ## Occupancy and page numbers -/

theorem occupied_count_le (pt : List page_table_entry) : occupied_count pt ≤ pt.length :=
  List.length_filter_le _ _

theorem pages_distinct_congr (p q : List page_table_entry) (n : Nat)
    (hk : ∀ j, (entry q j).page_num = (entry p j).page_num ∧ (entry q j).free = (entry p j).free)
    (h : pages_distinct p n) : pages_distinct q n := by
  intro i j hi hj hij fi fj
  rw [(hk i).1, (hk j).1]
  rw [(hk i).2] at fi
  rw [(hk j).2] at fj
  exact h i j hi hj hij fi fj

theorem pages_distinct_set (pt : List page_table_entry) (n f : Nat) (e : page_table_entry)
    (page : Int) (he : e.page_num = page)
    (hmiss : ∀ j, j < n → ¬((entry pt j).free = 0 ∧ (entry pt j).page_num = page))
    (h : pages_distinct pt n) : pages_distinct (pt.set f e) n := by
  intro i j hi hj hij fi fj
  rw [entry_set] at fi fj ⊢
  rw [entry_set]
  by_cases c1 : f = i ∧ f < pt.length
  · have c2 : ¬ (f = j ∧ f < pt.length) := by omega
    rw [if_pos c1, if_neg c2, he]
    rw [if_neg c2] at fj
    exact fun hx => hmiss j hj ⟨fj, hx.symm⟩
  · rw [if_neg c1] at fi ⊢
    by_cases c2 : f = j ∧ f < pt.length
    · rw [if_pos c2, he]
      exact fun hx => hmiss i hi ⟨fi, hx⟩
    · rw [if_neg c2] at fj ⊢
      exact h i j hi hj hij fi fj

theorem find_page_miss (pt : List page_table_entry) (page : Int) (n : Nat)
    (h : find_page pt page 0 n = -1) :
    ∀ j, j < n → ¬((entry pt j).free = 0 ∧ (entry pt j).page_num = page) := by
  intro j hj
  exact (find_page_neg_one_iff pt page 0 n).mp h j (Nat.zero_le j) (by omega)

theorem pages_distinct_resolve (cfg : Config) (s : State) (logical memwrite : Int)
    (h : pages_distinct s.page_table cfg.size_of_memory) :
    pages_distinct (resolve_address cfg s logical memwrite).2.page_table cfg.size_of_memory := by
  apply resolve_address_cases cfg s logical memwrite
    (fun r => pages_distinct r.2.page_table cfg.size_of_memory)
  · intro f _ _ _ _
    have key : ∀ e : page_table_entry, e.page_num = (entry s.page_table f).page_num →
        e.free = (entry s.page_table f).free →
        pages_distinct (s.page_table.set f e) cfg.size_of_memory := by
      intro e e1 e2
      apply pages_distinct_congr s.page_table _ _ _ h
      intro j
      rw [entry_set]
      split
      · rename_i hh; rw [← hh.1]; exact ⟨e1, e2⟩
      · exact ⟨rfl, rfl⟩
    split_ifs
    · exact key _ rfl rfl
    · exact key _ rfl rfl
    · exact h
    · exact h
  · intro f _ _ hm _ _ _
    exact pages_distinct_set _ _ _ _ _ rfl (find_page_miss _ _ _ hm) h
  · intro _ hm _
    exact pages_distinct_set _ _ _ _ _ rfl (find_page_miss _ _ _ hm) h
  · intro f _ hm _ _
    exact pages_distinct_set _ _ _ _ _ rfl (find_page_miss _ _ _ hm) h
  · intro f _ hm _ _
    have hk := clock_loop_fields cfg.size_of_memory s.page_table s.clock_hand s.swap_ins
    apply pages_distinct_set _ _ _ _ _ rfl
    · intro j hj
      rw [(hk j).1, (hk j).2.1]
      exact find_page_miss _ _ _ hm j hj
    · exact pages_distinct_congr s.page_table _ _ (fun j => ⟨(hk j).1, (hk j).2.1⟩) h
  · intro _ _ _ _ _
    exact h

theorem pages_distinct_setup (cfg : Config) (raw : List page_table_entry)
    (hraw : raw.length = cfg.size_of_memory) :
    pages_distinct (setup cfg raw).page_table cfg.size_of_memory := by
  intro i j hi _ _ fi _
  rw [setup_free cfg raw hraw i hi] at fi
  exact absurd fi (by decide)


theorem pages_distinct_run (cfg : Config) (raw : List page_table_entry)
    (hraw : raw.length = cfg.size_of_memory) (trace : List (Int × Int)) :
    pages_distinct (run cfg (setup cfg raw) trace).page_table cfg.size_of_memory :=
  run_invariant cfg (fun s => pages_distinct s.page_table cfg.size_of_memory)
    (fun s l w h => pages_distinct_resolve cfg s l w h) (fun s h => h) _
    (pages_distinct_setup cfg raw hraw) trace

/-! ## C1 -/

/-- C1. For every capacity of at least 1 and each of FIFO, LRU and CLOCK, after any
run of calls of `resolve_address` from the state that `setup` builds, the state
after one more call has at most `size_of_memory` occupied entries and no two
occupied entries with the same page number. -/
theorem table_invariant (cfg : Config) (raw : List page_table_entry)
    (trace : List (Int × Int)) (logical memwrite : Int)
    (hN : 1 ≤ cfg.size_of_memory) (hs : scheme_implemented cfg)
    (hraw : raw.length = cfg.size_of_memory) :
    occupied_count
        (resolve_address cfg (run cfg (setup cfg raw) trace) logical memwrite).2.page_table
      ≤ cfg.size_of_memory ∧
    pages_distinct
      (resolve_address cfg (run cfg (setup cfg raw) trace) logical memwrite).2.page_table
      cfg.size_of_memory := by
  constructor
  · have h := in_range_resolve cfg hN _ logical memwrite (in_range_run cfg hN raw hraw trace)
    have h2 := occupied_count_le
      (resolve_address cfg (run cfg (setup cfg raw) trace) logical memwrite).2.page_table
    rw [h.1] at h2
    exact h2
  · exact pages_distinct_resolve cfg _ logical memwrite (pages_distinct_run cfg raw hraw trace)

/-- C1 on two frames under LRU, after the accesses 0x00, 0x10, 0x05 and then 0x20. -/
theorem table_invariant_witness :
    (1 ≤ (sample_cfg REPLACE_LRU).size_of_memory ∧
      scheme_implemented (sample_cfg REPLACE_LRU) ∧
      sample_raw.length = (sample_cfg REPLACE_LRU).size_of_memory) ∧
    (occupied_count
        (resolve_address (sample_cfg REPLACE_LRU)
          (run (sample_cfg REPLACE_LRU) (setup (sample_cfg REPLACE_LRU) sample_raw)
            [(0, 0), (16, 1), (5, 0)]) 32 1).2.page_table
      ≤ (sample_cfg REPLACE_LRU).size_of_memory ∧
    pages_distinct
      (resolve_address (sample_cfg REPLACE_LRU)
          (run (sample_cfg REPLACE_LRU) (setup (sample_cfg REPLACE_LRU) sample_raw)
            [(0, 0), (16, 1), (5, 0)]) 32 1).2.page_table
      (sample_cfg REPLACE_LRU).size_of_memory) :=
  ⟨⟨by decide, Or.inr (Or.inl rfl), rfl⟩,
    table_invariant (sample_cfg REPLACE_LRU) sample_raw [(0, 0), (16, 1), (5, 0)] 32 1
      (by decide) (Or.inr (Or.inl rfl)) rfl⟩


/-! ## The frame of a call -/

theorem clock_loop_frame_lt (n : Nat) (hn : 0 < n) (pt : List page_table_entry) (h : Nat)
    (si : Int) (hh : h < n) :
    ∃ f : Nat, f < n ∧ (clock_loop n pt h si).1 = (f : Int) := by
  induction pt, h, si using clock_loop.induct n with
  | case1 pt h si hd => rw [clock_loop, if_pos hd]; exact ⟨h, hh, rfl⟩
  | case2 pt h si hd ih => rw [clock_loop, if_neg hd]; exact ih (advance_lt n h hn)

/-- Under an implemented scheme, from globals in range, a call returns
`(f << size_of_frame) | offset` for a frame `f` of the table that holds the page
after the call. -/
theorem resolve_address_frame (cfg : Config) (s : State) (logical memwrite : Int)
    (hs : scheme_implemented cfg) (hN : 0 < cfg.size_of_memory) (hr : in_range cfg s) :
    ∃ f : Nat, f < cfg.size_of_memory ∧
      (resolve_address cfg s logical memwrite).1
        = Int.lor (shl (f : Int) cfg.size_of_frame)
            (Int.land logical (mask_loop cfg.size_of_frame 0)) ∧
      (entry (resolve_address cfg s logical memwrite).2.page_table f).free = 0 ∧
      (entry (resolve_address cfg s logical memwrite).2.page_table f).page_num
        = logical >>> cfg.size_of_frame := by
  obtain ⟨h1, h2, h3⟩ := hr
  apply resolve_address_cases cfg s logical memwrite
    (fun r => ∃ f : Nat, f < cfg.size_of_memory ∧
      r.1 = Int.lor (shl (f : Int) cfg.size_of_frame)
            (Int.land logical (mask_loop cfg.size_of_frame 0)) ∧
      (entry r.2.page_table f).free = 0 ∧
      (entry r.2.page_table f).page_num = logical >>> cfg.size_of_frame)
  · intro f hf _ e1 e2
    refine ⟨f, hf, rfl, ?_⟩
    have hl : f < s.page_table.length := by omega
    split_ifs
    · simp only [entry_set_self _ _ _ hl]; exact ⟨e1, e2⟩
    · simp only [entry_set_self _ _ _ hl]; exact ⟨e1, e2⟩
    · exact ⟨e1, e2⟩
    · exact ⟨e1, e2⟩
  · intro f hf hl _ _ _ _
    refine ⟨f, hf, rfl, ?_⟩
    simp only [entry_set_self _ _ _ hl]
    exact ⟨rfl, trivial⟩
  · intro _ _ _
    refine ⟨s.fifo_index, h2, rfl, ?_⟩
    simp only [entry_set_self _ _ _ (show s.fifo_index < s.page_table.length by omega)]
    exact ⟨rfl, trivial⟩
  · intro f _ _ _ e
    obtain ⟨g, e1, e2, _, _⟩ := lru_scan_min s.page_table cfg.size_of_memory hN
    have hfg : f = g := by rw [e] at e1; exact_mod_cast e1
    refine ⟨f, by omega, rfl, ?_⟩
    simp only [entry_set_self _ _ _ (show f < s.page_table.length by omega)]
    exact ⟨rfl, trivial⟩
  · intro f _ _ _ e
    obtain ⟨g, e1, e2⟩ := clock_loop_frame_lt cfg.size_of_memory hN s.page_table s.clock_hand
      s.swap_ins h3
    have hfg : f = g := by rw [e] at e2; exact_mod_cast e2
    have hl := clock_loop_length cfg.size_of_memory s.page_table s.clock_hand s.swap_ins
    refine ⟨f, by omega, rfl, ?_⟩
    simp only [entry_set_self _ _ _
      (show f < (clock_loop cfg.size_of_memory s.page_table s.clock_hand
        s.swap_ins).2.1.length by omega)]
    exact ⟨rfl, trivial⟩
  · intro n1 n2 n3 _ _
    rcases hs with hs | hs | hs
    · exact absurd hs n1
    · exact absurd hs n2
    · exact absurd hs n3

/-! ## C2 -/

/-- C2. For FIFO, LRU and CLOCK, `size_of_memory >= 1`, `size_of_frame >= 1`, any
state reached from `setup` and any logical address `L >= 0`, the call returns
`r = (f << b) | (L & ((1 << b) - 1))` for a frame `f < size_of_memory` which after
the call is occupied and holds page `L >> b`; `r mod 2^b = L mod 2^b`, `r >> b = f`,
and the mask of the shift-or loop is `(1 << b) - 1`. -/
theorem physical_address (cfg : Config) (raw : List page_table_entry)
    (trace : List (Int × Int)) (logical memwrite : Int)
    (hs : scheme_implemented cfg) (hN : 1 ≤ cfg.size_of_memory) (hb : 1 ≤ cfg.size_of_frame)
    (hraw : raw.length = cfg.size_of_memory) (hL : 0 ≤ logical) :
    mask_loop cfg.size_of_frame 0 = shl 1 cfg.size_of_frame - 1 ∧
    ∃ f : Nat, f < cfg.size_of_memory ∧
      (resolve_address cfg (run cfg (setup cfg raw) trace) logical memwrite).1
        = Int.lor (shl (f : Int) cfg.size_of_frame)
            (Int.land logical (shl 1 cfg.size_of_frame - 1)) ∧
      (entry (resolve_address cfg (run cfg (setup cfg raw) trace) logical memwrite).2.page_table
        f).free = 0 ∧
      (entry (resolve_address cfg (run cfg (setup cfg raw) trace) logical memwrite).2.page_table
        f).page_num = logical >>> cfg.size_of_frame ∧
      (resolve_address cfg (run cfg (setup cfg raw) trace) logical memwrite).1
          % 2 ^ cfg.size_of_frame = logical % 2 ^ cfg.size_of_frame ∧
      (resolve_address cfg (run cfg (setup cfg raw) trace) logical memwrite).1
          >>> cfg.size_of_frame = (f : Int) := by
  refine ⟨mask_loop_eq _, ?_⟩
  obtain ⟨f, e1, e2, e3, e4⟩ := resolve_address_frame cfg (run cfg (setup cfg raw) trace)
    logical memwrite hs hN (in_range_run cfg hN raw hraw trace)
  obtain ⟨l, hl⟩ := Int.eq_ofNat_of_zero_le hL
  have hpos : 0 < 2 ^ cfg.size_of_frame := Nat.pow_pos (by norm_num)
  refine ⟨f, e1, by rw [e2, mask_loop_eq], e3, e4, ?_, ?_⟩
  · rw [e2, hl, effective_natCast]
    norm_cast
    rw [Nat.add_comm, Nat.add_mul_mod_self_right, Nat.mod_mod]
  · rw [e2, hl, effective_natCast, page_natCast]
    norm_cast
    rw [Nat.add_comm, Nat.add_mul_div_right _ _ hpos,
      Nat.div_eq_of_lt (Nat.mod_lt _ hpos), Nat.zero_add]

/-- C2 on two frames of 16 bytes under CLOCK, for the address 0x1a after 0x05 and 0x1f. -/
theorem physical_address_witness :
    ((scheme_implemented (sample_cfg REPLACE_CLOCK)) ∧
      (1 ≤ (sample_cfg REPLACE_CLOCK).size_of_memory) ∧
      (1 ≤ (sample_cfg REPLACE_CLOCK).size_of_frame) ∧
      (sample_raw.length = (sample_cfg REPLACE_CLOCK).size_of_memory) ∧
      (0 ≤ ((0x1a : Int)))) ∧
    (mask_loop (sample_cfg REPLACE_CLOCK).size_of_frame 0 = shl 1 (sample_cfg REPLACE_CLOCK).size_of_frame - 1 ∧
    ∃ f : Nat, f < (sample_cfg REPLACE_CLOCK).size_of_memory ∧
      (resolve_address (sample_cfg REPLACE_CLOCK) (run (sample_cfg REPLACE_CLOCK) (setup (sample_cfg REPLACE_CLOCK) sample_raw) ([(0x05, 0), (0x1f, 1)])) ((0x1a : Int)) 0).1
        = Int.lor (shl (f : Int) (sample_cfg REPLACE_CLOCK).size_of_frame)
            (Int.land ((0x1a : Int)) (shl 1 (sample_cfg REPLACE_CLOCK).size_of_frame - 1)) ∧
      (entry (resolve_address (sample_cfg REPLACE_CLOCK) (run (sample_cfg REPLACE_CLOCK) (setup (sample_cfg REPLACE_CLOCK) sample_raw) ([(0x05, 0), (0x1f, 1)])) ((0x1a : Int)) 0).2.page_table
        f).free = 0 ∧
      (entry (resolve_address (sample_cfg REPLACE_CLOCK) (run (sample_cfg REPLACE_CLOCK) (setup (sample_cfg REPLACE_CLOCK) sample_raw) ([(0x05, 0), (0x1f, 1)])) ((0x1a : Int)) 0).2.page_table
        f).page_num = ((0x1a : Int)) >>> (sample_cfg REPLACE_CLOCK).size_of_frame ∧
      (resolve_address (sample_cfg REPLACE_CLOCK) (run (sample_cfg REPLACE_CLOCK) (setup (sample_cfg REPLACE_CLOCK) sample_raw) ([(0x05, 0), (0x1f, 1)])) ((0x1a : Int)) 0).1
          % 2 ^ (sample_cfg REPLACE_CLOCK).size_of_frame = ((0x1a : Int)) % 2 ^ (sample_cfg REPLACE_CLOCK).size_of_frame ∧
      (resolve_address (sample_cfg REPLACE_CLOCK) (run (sample_cfg REPLACE_CLOCK) (setup (sample_cfg REPLACE_CLOCK) sample_raw) ([(0x05, 0), (0x1f, 1)])) ((0x1a : Int)) 0).1
          >>> (sample_cfg REPLACE_CLOCK).size_of_frame = (f : Int)) :=
  ⟨⟨Or.inr (Or.inr rfl), by decide, by decide, rfl, by decide⟩,
    physical_address (sample_cfg REPLACE_CLOCK) sample_raw ([(0x05, 0), (0x1f, 1)]) ((0x1a : Int)) 0
      (Or.inr (Or.inr rfl)) (by decide) (by decide) (rfl) (by decide)⟩


/-! ## C3 -/

/-- C3, as stated, fails: `main` accepts `--replace=optimal` (`REPLACE_OPTIMAL` is
not `REPLACE_NONE`), yet with one frame the second of two accesses to distinct pages
returns `-1`. -/
theorem optimal_scheme_accepted_and_unresolved :
    config_rejected (sample_cfg_one REPLACE_OPTIMAL) = false ∧
    (sample_cfg_one REPLACE_OPTIMAL).page_replacement_scheme ≠ REPLACE_NONE ∧
    (resolve_address (sample_cfg_one REPLACE_OPTIMAL)
      (setup (sample_cfg_one REPLACE_OPTIMAL) sample_raw_one) 0x05 0).1 = 0x05 ∧
    (resolve_address (sample_cfg_one REPLACE_OPTIMAL)
      (run (sample_cfg_one REPLACE_OPTIMAL)
        (setup (sample_cfg_one REPLACE_OPTIMAL) sample_raw_one) [(0x05, 0)]) 0x15 0).1 = -1 := by
  decide

/-- C3, amended. For every configuration whose scheme is FIFO, LRU or CLOCK, with
`size_of_frame > 0` and `size_of_memory > 0`, and every trace of non-negative
logical addresses processed from the state that `setup` builds, no call of
`resolve_address` returns `-1`. -/
theorem implemented_scheme_never_fails (cfg : Config) (raw : List page_table_entry)
    (trace : List (Int × Int)) (logical memwrite : Int)
    (hs : scheme_implemented cfg) (hb : 0 < cfg.size_of_frame) (hN : 0 < cfg.size_of_memory)
    (hraw : raw.length = cfg.size_of_memory)
    (htrace : ∀ c ∈ trace, 0 ≤ c.1) (hL : 0 ≤ logical) :
    (resolve_address cfg (run cfg (setup cfg raw) trace) logical memwrite).1 ≠ -1 := by
  obtain ⟨f, _, e2, _, _⟩ := resolve_address_frame cfg (run cfg (setup cfg raw) trace)
    logical memwrite hs hN (in_range_run cfg hN raw hraw trace)
  have := effective_nonneg f logical cfg.size_of_frame
  rw [e2]
  omega

/-- C3 as amended, on one frame under FIFO: the second of two accesses to distinct pages. -/
theorem implemented_scheme_never_fails_witness :
    ((scheme_implemented (sample_cfg_one REPLACE_FIFO)) ∧
      (0 < (sample_cfg_one REPLACE_FIFO).size_of_frame) ∧
      (0 < (sample_cfg_one REPLACE_FIFO).size_of_memory) ∧
      (sample_raw_one.length = (sample_cfg_one REPLACE_FIFO).size_of_memory) ∧
      (∀ c ∈ ([(0x05, 0)]), 0 ≤ c.1) ∧
      (0 ≤ ((0x15 : Int)))) ∧
    ((resolve_address (sample_cfg_one REPLACE_FIFO) (run (sample_cfg_one REPLACE_FIFO) (setup (sample_cfg_one REPLACE_FIFO) sample_raw_one) ([(0x05, 0)])) ((0x15 : Int)) 0).1 ≠ -1) :=
  ⟨⟨Or.inl rfl, by decide, by decide, rfl, by decide, by decide⟩,
    implemented_scheme_never_fails (sample_cfg_one REPLACE_FIFO) sample_raw_one ([(0x05, 0)]) ((0x15 : Int)) 0
      (Or.inl rfl) (by decide) (by decide) (rfl) (by decide) (by decide)⟩


/-! ## C5 -/

/-- C5. Under LRU, on a miss with a full table of `size_of_memory >= 1` entries, the
call overwrites exactly one frame `f`; `modified` of `f` is minimal over all the
entries, and every frame before `f` has a strictly larger `modified`, so `f` is the
lowest index among the entries of minimal `modified`. -/
theorem lru_victim_is_first_minimum (cfg : Config) (s : State) (logical memwrite : Int)
    (hs : cfg.page_replacement_scheme = REPLACE_LRU)
    (hN : 1 ≤ cfg.size_of_memory)
    (hlen : s.page_table.length = cfg.size_of_memory)
    (hmiss : ∀ j, j < cfg.size_of_memory →
      ¬((entry s.page_table j).free = 0 ∧
        (entry s.page_table j).page_num = logical >>> cfg.size_of_frame))
    (hfull : ∀ j, j < cfg.size_of_memory → (entry s.page_table j).free = 0) :
    ∃ f : Nat, f < cfg.size_of_memory ∧
      (∀ j, j < cfg.size_of_memory →
        (entry s.page_table f).modified ≤ (entry s.page_table j).modified) ∧
      (∀ j, j < f → (entry s.page_table f).modified < (entry s.page_table j).modified) ∧
      (resolve_address cfg s logical memwrite).1
        = Int.lor (shl (f : Int) cfg.size_of_frame)
            (Int.land logical (mask_loop cfg.size_of_frame 0)) ∧
      (resolve_address cfg s logical memwrite).2.page_table
        = s.page_table.set f
            { entry s.page_table f with
              page_num := logical >>> cfg.size_of_frame, free := FALSE, modified := s.lru_mod } ∧
      (entry (resolve_address cfg s logical memwrite).2.page_table f).page_num
        = logical >>> cfg.size_of_frame ∧
      (∀ j, j ≠ f → entry (resolve_address cfg s logical memwrite).2.page_table j
        = entry s.page_table j) := by
  have hp : find_page s.page_table (logical >>> cfg.size_of_frame) 0 cfg.size_of_memory = -1 :=
    (find_page_neg_one_iff _ _ _ _).mpr (fun j _ h2 => hmiss j (by omega))
  have hf : find_free s.page_table 0 cfg.size_of_memory = -1 :=
    (find_free_neg_one_iff _ _ _).mpr (fun j _ h2 => hfull j (by omega))
  obtain ⟨g, e1, e2, e3, e4⟩ := lru_scan_min s.page_table cfg.size_of_memory (by omega)
  rw [resolve_address_lru cfg s logical memwrite g hs hp hf e1]
  refine ⟨g, e2, e3, e4, rfl, rfl, ?_, ?_⟩
  · simp only [entry_set_self _ _ _ (show g < s.page_table.length by omega)]
  · intro j hj
    simp only [entry_set_other _ _ _ _ (fun h => hj h.symm)]

/-- C5 on two frames, both occupied after the accesses 0x00, 0x10, 0x05, at a miss on page 2. -/
theorem lru_victim_is_first_minimum_witness :
    (((sample_cfg REPLACE_LRU).page_replacement_scheme = REPLACE_LRU) ∧
      (1 ≤ (sample_cfg REPLACE_LRU).size_of_memory) ∧
      ((run (sample_cfg REPLACE_LRU) (setup (sample_cfg REPLACE_LRU) sample_raw) [(0, 0), (16, 1), (5, 0)]).page_table.length = (sample_cfg REPLACE_LRU).size_of_memory) ∧
      (∀ j, j < (sample_cfg REPLACE_LRU).size_of_memory →
      ¬((entry (run (sample_cfg REPLACE_LRU) (setup (sample_cfg REPLACE_LRU) sample_raw) [(0, 0), (16, 1), (5, 0)]).page_table j).free = 0 ∧
        (entry (run (sample_cfg REPLACE_LRU) (setup (sample_cfg REPLACE_LRU) sample_raw) [(0, 0), (16, 1), (5, 0)]).page_table j).page_num = ((32 : Int)) >>> (sample_cfg REPLACE_LRU).size_of_frame)) ∧
      (∀ j, j < (sample_cfg REPLACE_LRU).size_of_memory → (entry (run (sample_cfg REPLACE_LRU) (setup (sample_cfg REPLACE_LRU) sample_raw) [(0, 0), (16, 1), (5, 0)]).page_table j).free = 0)) ∧
    (∃ f : Nat, f < (sample_cfg REPLACE_LRU).size_of_memory ∧
      (∀ j, j < (sample_cfg REPLACE_LRU).size_of_memory →
        (entry (run (sample_cfg REPLACE_LRU) (setup (sample_cfg REPLACE_LRU) sample_raw) [(0, 0), (16, 1), (5, 0)]).page_table f).modified ≤ (entry (run (sample_cfg REPLACE_LRU) (setup (sample_cfg REPLACE_LRU) sample_raw) [(0, 0), (16, 1), (5, 0)]).page_table j).modified) ∧
      (∀ j, j < f → (entry (run (sample_cfg REPLACE_LRU) (setup (sample_cfg REPLACE_LRU) sample_raw) [(0, 0), (16, 1), (5, 0)]).page_table f).modified < (entry (run (sample_cfg REPLACE_LRU) (setup (sample_cfg REPLACE_LRU) sample_raw) [(0, 0), (16, 1), (5, 0)]).page_table j).modified) ∧
      (resolve_address (sample_cfg REPLACE_LRU) (run (sample_cfg REPLACE_LRU) (setup (sample_cfg REPLACE_LRU) sample_raw) [(0, 0), (16, 1), (5, 0)]) ((32 : Int)) 1).1
        = Int.lor (shl (f : Int) (sample_cfg REPLACE_LRU).size_of_frame)
            (Int.land ((32 : Int)) (mask_loop (sample_cfg REPLACE_LRU).size_of_frame 0)) ∧
      (resolve_address (sample_cfg REPLACE_LRU) (run (sample_cfg REPLACE_LRU) (setup (sample_cfg REPLACE_LRU) sample_raw) [(0, 0), (16, 1), (5, 0)]) ((32 : Int)) 1).2.page_table
        = (run (sample_cfg REPLACE_LRU) (setup (sample_cfg REPLACE_LRU) sample_raw) [(0, 0), (16, 1), (5, 0)]).page_table.set f
            { entry (run (sample_cfg REPLACE_LRU) (setup (sample_cfg REPLACE_LRU) sample_raw) [(0, 0), (16, 1), (5, 0)]).page_table f with
              page_num := ((32 : Int)) >>> (sample_cfg REPLACE_LRU).size_of_frame, free := FALSE, modified := (run (sample_cfg REPLACE_LRU) (setup (sample_cfg REPLACE_LRU) sample_raw) [(0, 0), (16, 1), (5, 0)]).lru_mod } ∧
      (entry (resolve_address (sample_cfg REPLACE_LRU) (run (sample_cfg REPLACE_LRU) (setup (sample_cfg REPLACE_LRU) sample_raw) [(0, 0), (16, 1), (5, 0)]) ((32 : Int)) 1).2.page_table f).page_num
        = ((32 : Int)) >>> (sample_cfg REPLACE_LRU).size_of_frame ∧
      (∀ j, j ≠ f → entry (resolve_address (sample_cfg REPLACE_LRU) (run (sample_cfg REPLACE_LRU) (setup (sample_cfg REPLACE_LRU) sample_raw) [(0, 0), (16, 1), (5, 0)]) ((32 : Int)) 1).2.page_table j
        = entry (run (sample_cfg REPLACE_LRU) (setup (sample_cfg REPLACE_LRU) sample_raw) [(0, 0), (16, 1), (5, 0)]).page_table j)) :=
  ⟨⟨rfl, by decide, by decide, by decide, by decide⟩,
    lru_victim_is_first_minimum (sample_cfg REPLACE_LRU) (run (sample_cfg REPLACE_LRU) (setup (sample_cfg REPLACE_LRU) sample_raw) [(0, 0), (16, 1), (5, 0)]) ((32 : Int)) 1
      (rfl) (by decide) (by decide) (by decide) (by decide)⟩


/-! ## LRU stamps -/

theorem run_snoc (cfg : Config) (s : State) (t : List (Int × Int)) (c : Int × Int) :
    run cfg s (t ++ [c]) = main_step cfg (run cfg s t) c := by
  rw [run_append]; rfl

theorem main_step_page_table (cfg : Config) (s : State) (c : Int × Int) :
    (main_step cfg s c).page_table = (resolve_address cfg s c.1 c.2).2.page_table := rfl

/-- Under LRU every call stores the old `lru_mod` into the frame of the page and
advances the counter. -/
theorem lru_resolve_shape (cfg : Config) (s : State) (logical memwrite : Int)
    (hs : cfg.page_replacement_scheme = REPLACE_LRU) (hN : 0 < cfg.size_of_memory)
    (hr : in_range cfg s) :
    ∃ (f : Nat) (e : page_table_entry), f < cfg.size_of_memory ∧
      (resolve_address cfg s logical memwrite).2.page_table = s.page_table.set f e ∧
      e.modified = s.lru_mod ∧ e.free = 0 ∧ e.page_num = logical >>> cfg.size_of_frame ∧
      (resolve_address cfg s logical memwrite).2.lru_mod = s.lru_mod + 1 := by
  have n1 : ¬ REPLACE_LRU = REPLACE_FIFO := by decide
  have n2 : ¬ REPLACE_LRU = REPLACE_CLOCK := by decide
  apply resolve_address_cases cfg s logical memwrite
    (fun r => ∃ (f : Nat) (e : page_table_entry), f < cfg.size_of_memory ∧
      r.2.page_table = s.page_table.set f e ∧
      e.modified = s.lru_mod ∧ e.free = 0 ∧ e.page_num = logical >>> cfg.size_of_frame ∧
      r.2.lru_mod = s.lru_mod + 1)
  · intro f hf _ e1 e2
    rw [if_pos hs]
    exact ⟨f, _, hf, rfl, rfl, e1, e2, rfl⟩
  · intro f hf _ _ _ _ _
    refine ⟨f, _, hf, rfl, ?_, rfl, rfl, ?_⟩
    · simp only [hs, if_true]
    · simp only [hs, if_true]
  · intro h; rw [hs] at h; exact absurd h n1
  · intro f _ _ _ e
    obtain ⟨g, e1, e2, _, _⟩ := lru_scan_min s.page_table cfg.size_of_memory hN
    have hfg : f = g := by rw [e] at e1; exact_mod_cast e1
    exact ⟨f, _, by omega, rfl, rfl, rfl, rfl, rfl⟩
  · intro _ h; rw [hs] at h; exact absurd h n2
  · intro _ h; exact absurd hs h

theorem lru_stamped_resolve (cfg : Config) (s : State) (logical memwrite : Int)
    (hs : cfg.page_replacement_scheme = REPLACE_LRU) (hN : 0 < cfg.size_of_memory)
    (hr : in_range cfg s) (h : lru_stamped cfg s) :
    lru_stamped cfg (resolve_address cfg s logical memwrite).2 := by
  obtain ⟨f, e, _, e1, e2, _, _, e5⟩ := lru_resolve_shape cfg s logical memwrite hs hN hr
  intro j hj
  rw [e1, e5, entry_set]
  split
  · intro _; omega
  · intro hfree
    have := h j hj hfree
    omega

theorem lru_stamped_run (cfg : Config) (raw : List page_table_entry)
    (hs : cfg.page_replacement_scheme = REPLACE_LRU) (hN : 0 < cfg.size_of_memory)
    (hraw : raw.length = cfg.size_of_memory) (trace : List (Int × Int)) :
    lru_stamped cfg (run cfg (setup cfg raw) trace) := by
  have key := run_invariant cfg (fun s => in_range cfg s ∧ lru_stamped cfg s)
    (fun s l w h => ⟨in_range_resolve cfg hN s l w h.1,
      lru_stamped_resolve cfg s l w hs hN h.1 h.2⟩)
    (fun s h => h) (setup cfg raw)
    ⟨in_range_setup cfg raw hN hraw, fun j hj hf => by
      rw [setup_free cfg raw hraw j hj] at hf
      exact absurd hf (by decide)⟩ trace
  exact key.2

/-- The LRU replacement branch on a full table puts the page into a frame whose
`modified` is minimal and leaves the other entries as they are. -/
theorem lru_replace_shape (cfg : Config) (s : State) (logical memwrite : Int)
    (hs : cfg.page_replacement_scheme = REPLACE_LRU) (hN : 0 < cfg.size_of_memory)
    (hmiss : ∀ j, j < cfg.size_of_memory →
      ¬((entry s.page_table j).free = 0 ∧
        (entry s.page_table j).page_num = logical >>> cfg.size_of_frame))
    (hfull : ∀ j, j < cfg.size_of_memory → (entry s.page_table j).free = 0) :
    ∃ v : Nat, v < cfg.size_of_memory ∧
      (∀ j, j < cfg.size_of_memory →
        (entry s.page_table v).modified ≤ (entry s.page_table j).modified) ∧
      (resolve_address cfg s logical memwrite).2.page_table
        = s.page_table.set v
            { entry s.page_table v with
              page_num := logical >>> cfg.size_of_frame, free := FALSE, modified := s.lru_mod } := by
  have hp : find_page s.page_table (logical >>> cfg.size_of_frame) 0 cfg.size_of_memory = -1 :=
    (find_page_neg_one_iff _ _ _ _).mpr (fun j _ h2 => hmiss j (by omega))
  have hf : find_free s.page_table 0 cfg.size_of_memory = -1 :=
    (find_free_neg_one_iff _ _ _).mpr (fun j _ h2 => hfull j (by omega))
  obtain ⟨g, e1, e2, e3, _⟩ := lru_scan_min s.page_table cfg.size_of_memory hN
  rw [resolve_address_lru cfg s logical memwrite g hs hp hf e1]
  exact ⟨g, e2, e3, rfl⟩

/-! ## C6 -/

/-- C6. Under LRU, with `s` a state reached from `setup` and `s1` the state after one
more access, to page `p`: some frame `f` holds `p` in `s1`; its `modified` is the
`lru_mod` of `s`, and `lru_mod` has grown by one; that `modified` is strictly above
the `modified` that `p` had in `s` if `p` was resident, strictly above the old
`modified` of `f` if `f` was occupied, and strictly above the `modified` of every
other occupied entry of `s1`. Hence, with at least two frames, a miss on a full
table right after that access leaves `p` in `f` and overwrites another frame. -/
theorem lru_access_is_most_recent (cfg : Config) (raw : List page_table_entry)
    (trace : List (Int × Int)) (logical memwrite : Int)
    (hs : cfg.page_replacement_scheme = REPLACE_LRU) (hN : 1 ≤ cfg.size_of_memory)
    (hraw : raw.length = cfg.size_of_memory) :
    ∃ f : Nat, f < cfg.size_of_memory ∧
      (entry (run cfg (setup cfg raw) (trace ++ [(logical, memwrite)])).page_table f).free = 0 ∧
      (entry (run cfg (setup cfg raw) (trace ++ [(logical, memwrite)])).page_table f).page_num
        = logical >>> cfg.size_of_frame ∧
      (entry (run cfg (setup cfg raw) (trace ++ [(logical, memwrite)])).page_table f).modified
        = (run cfg (setup cfg raw) trace).lru_mod ∧
      (run cfg (setup cfg raw) (trace ++ [(logical, memwrite)])).lru_mod
        = (run cfg (setup cfg raw) trace).lru_mod + 1 ∧
      (∀ j, j < cfg.size_of_memory →
        (entry (run cfg (setup cfg raw) trace).page_table j).free = 0 →
        (entry (run cfg (setup cfg raw) trace).page_table j).page_num
          = logical >>> cfg.size_of_frame →
        (entry (run cfg (setup cfg raw) trace).page_table j).modified
          < (entry (run cfg (setup cfg raw) (trace ++ [(logical, memwrite)])).page_table
              f).modified) ∧
      ((entry (run cfg (setup cfg raw) trace).page_table f).free = 0 →
        (entry (run cfg (setup cfg raw) trace).page_table f).modified
          < (entry (run cfg (setup cfg raw) (trace ++ [(logical, memwrite)])).page_table
              f).modified) ∧
      (∀ j, j < cfg.size_of_memory → j ≠ f →
        (entry (run cfg (setup cfg raw) (trace ++ [(logical, memwrite)])).page_table j).free
          = 0 →
        (entry (run cfg (setup cfg raw) (trace ++ [(logical, memwrite)])).page_table j).modified
          < (entry (run cfg (setup cfg raw) (trace ++ [(logical, memwrite)])).page_table
              f).modified) ∧
      (2 ≤ cfg.size_of_memory → ∀ next nextwrite : Int,
        (∀ j, j < cfg.size_of_memory →
          ¬((entry (run cfg (setup cfg raw) (trace ++ [(logical, memwrite)])).page_table
                j).free = 0 ∧
            (entry (run cfg (setup cfg raw) (trace ++ [(logical, memwrite)])).page_table
                j).page_num = next >>> cfg.size_of_frame)) →
        (∀ j, j < cfg.size_of_memory →
          (entry (run cfg (setup cfg raw) (trace ++ [(logical, memwrite)])).page_table j).free
            = 0) →
        (entry (resolve_address cfg (run cfg (setup cfg raw) (trace ++ [(logical, memwrite)]))
            next nextwrite).2.page_table f).free = 0 ∧
        (entry (resolve_address cfg (run cfg (setup cfg raw) (trace ++ [(logical, memwrite)]))
            next nextwrite).2.page_table f).page_num = logical >>> cfg.size_of_frame ∧
        ∃ v : Nat, v < cfg.size_of_memory ∧ v ≠ f ∧
          (entry (resolve_address cfg (run cfg (setup cfg raw) (trace ++ [(logical, memwrite)]))
            next nextwrite).2.page_table v).page_num = next >>> cfg.size_of_frame) := by
  have hr := in_range_run cfg hN raw hraw trace
  have hst := lru_stamped_run cfg raw hs hN hraw trace
  obtain ⟨f, e, hf, e1, e2, e3, e4, e5⟩ :=
    lru_resolve_shape cfg (run cfg (setup cfg raw) trace) logical memwrite hs hN hr
  have hpt : (run cfg (setup cfg raw) (trace ++ [(logical, memwrite)])).page_table
      = (run cfg (setup cfg raw) trace).page_table.set f e := by
    rw [run_snoc, main_step_page_table]; exact e1
  have hlen : f < (run cfg (setup cfg raw) trace).page_table.length := by
    rw [hr.1]; exact hf
  have hfe : entry (run cfg (setup cfg raw) (trace ++ [(logical, memwrite)])).page_table f
      = e := by
    rw [hpt]; exact entry_set_self _ _ _ hlen
  have hother : ∀ j, j ≠ f →
      entry (run cfg (setup cfg raw) (trace ++ [(logical, memwrite)])).page_table j
        = entry (run cfg (setup cfg raw) trace).page_table j := by
    intro j hj
    rw [hpt]; exact entry_set_other _ _ _ _ (fun h => hj h.symm)
  have hrecent : ∀ j, j < cfg.size_of_memory → j ≠ f →
      (entry (run cfg (setup cfg raw) (trace ++ [(logical, memwrite)])).page_table j).free
        = 0 →
      (entry (run cfg (setup cfg raw) (trace ++ [(logical, memwrite)])).page_table j).modified
        < (entry (run cfg (setup cfg raw) (trace ++ [(logical, memwrite)])).page_table
            f).modified := by
    intro j hj hjf hfree
    rw [hfe, e2]
    rw [hother j hjf] at hfree ⊢
    exact hst j hj hfree
  refine ⟨f, hf, by rw [hfe]; exact e3, by rw [hfe]; exact e4, by rw [hfe]; exact e2,
    by rw [run_snoc]; exact e5, ?_, ?_, hrecent, ?_⟩
  · intro j hj hfree _
    rw [hfe, e2]
    exact hst j hj hfree
  · intro hfree
    rw [hfe, e2]
    exact hst f hf hfree
  · intro h2 next nextwrite hmiss hfull
    obtain ⟨v, hv, hmin, hres⟩ := lru_replace_shape cfg
      (run cfg (setup cfg raw) (trace ++ [(logical, memwrite)])) next nextwrite hs hN hmiss hfull
    have hvf : v ≠ f := by
      intro hvf
      obtain ⟨j, hj, hjf⟩ : ∃ j, j < cfg.size_of_memory ∧ j ≠ f := by
        by_cases h0 : f = 0
        · exact ⟨1, by omega, by omega⟩
        · exact ⟨0, by omega, fun h => h0 h.symm⟩
      have a := hrecent j hj hjf (hfull j hj)
      have b := hmin j hj
      rw [hvf] at b
      omega
    have hlen1 : v < (run cfg (setup cfg raw) (trace ++ [(logical, memwrite)])).page_table.length := by
      rw [hpt, List.length_set, hr.1]; exact hv
    rw [hres]
    refine ⟨?_, ?_, v, hv, hvf, ?_⟩
    · rw [entry_set_other _ _ _ _ hvf, hfe]; exact e3
    · rw [entry_set_other _ _ _ _ hvf, hfe]; exact e4
    · rw [entry_set_self _ _ _ hlen1]

/-- C6 on two frames for the page accesses 0, 1, 0 and then 2: page 1 is the one replaced and
the pages 0 and 2 stay. -/
theorem lru_access_is_most_recent_witness :
    (((sample_cfg REPLACE_LRU).page_replacement_scheme = REPLACE_LRU) ∧
      (1 ≤ (sample_cfg REPLACE_LRU).size_of_memory) ∧
      (sample_raw.length = (sample_cfg REPLACE_LRU).size_of_memory)) ∧
    (∃ f : Nat, f < (sample_cfg REPLACE_LRU).size_of_memory ∧
      (entry (run (sample_cfg REPLACE_LRU) (setup (sample_cfg REPLACE_LRU) sample_raw) ((([(0x00, 0), (0x10, 0)] : List (Int × Int))) ++ [(((0x05 : Int)), 0)])).page_table f).free = 0 ∧
      (entry (run (sample_cfg REPLACE_LRU) (setup (sample_cfg REPLACE_LRU) sample_raw) ((([(0x00, 0), (0x10, 0)] : List (Int × Int))) ++ [(((0x05 : Int)), 0)])).page_table f).page_num
        = ((0x05 : Int)) >>> (sample_cfg REPLACE_LRU).size_of_frame ∧
      (entry (run (sample_cfg REPLACE_LRU) (setup (sample_cfg REPLACE_LRU) sample_raw) ((([(0x00, 0), (0x10, 0)] : List (Int × Int))) ++ [(((0x05 : Int)), 0)])).page_table f).modified
        = (run (sample_cfg REPLACE_LRU) (setup (sample_cfg REPLACE_LRU) sample_raw) (([(0x00, 0), (0x10, 0)] : List (Int × Int)))).lru_mod ∧
      (run (sample_cfg REPLACE_LRU) (setup (sample_cfg REPLACE_LRU) sample_raw) ((([(0x00, 0), (0x10, 0)] : List (Int × Int))) ++ [(((0x05 : Int)), 0)])).lru_mod
        = (run (sample_cfg REPLACE_LRU) (setup (sample_cfg REPLACE_LRU) sample_raw) (([(0x00, 0), (0x10, 0)] : List (Int × Int)))).lru_mod + 1 ∧
      (∀ j, j < (sample_cfg REPLACE_LRU).size_of_memory →
        (entry (run (sample_cfg REPLACE_LRU) (setup (sample_cfg REPLACE_LRU) sample_raw) (([(0x00, 0), (0x10, 0)] : List (Int × Int)))).page_table j).free = 0 →
        (entry (run (sample_cfg REPLACE_LRU) (setup (sample_cfg REPLACE_LRU) sample_raw) (([(0x00, 0), (0x10, 0)] : List (Int × Int)))).page_table j).page_num
          = ((0x05 : Int)) >>> (sample_cfg REPLACE_LRU).size_of_frame →
        (entry (run (sample_cfg REPLACE_LRU) (setup (sample_cfg REPLACE_LRU) sample_raw) (([(0x00, 0), (0x10, 0)] : List (Int × Int)))).page_table j).modified
          < (entry (run (sample_cfg REPLACE_LRU) (setup (sample_cfg REPLACE_LRU) sample_raw) ((([(0x00, 0), (0x10, 0)] : List (Int × Int))) ++ [(((0x05 : Int)), 0)])).page_table
              f).modified) ∧
      ((entry (run (sample_cfg REPLACE_LRU) (setup (sample_cfg REPLACE_LRU) sample_raw) (([(0x00, 0), (0x10, 0)] : List (Int × Int)))).page_table f).free = 0 →
        (entry (run (sample_cfg REPLACE_LRU) (setup (sample_cfg REPLACE_LRU) sample_raw) (([(0x00, 0), (0x10, 0)] : List (Int × Int)))).page_table f).modified
          < (entry (run (sample_cfg REPLACE_LRU) (setup (sample_cfg REPLACE_LRU) sample_raw) ((([(0x00, 0), (0x10, 0)] : List (Int × Int))) ++ [(((0x05 : Int)), 0)])).page_table
              f).modified) ∧
      (∀ j, j < (sample_cfg REPLACE_LRU).size_of_memory → j ≠ f →
        (entry (run (sample_cfg REPLACE_LRU) (setup (sample_cfg REPLACE_LRU) sample_raw) ((([(0x00, 0), (0x10, 0)] : List (Int × Int))) ++ [(((0x05 : Int)), 0)])).page_table j).free
          = 0 →
        (entry (run (sample_cfg REPLACE_LRU) (setup (sample_cfg REPLACE_LRU) sample_raw) ((([(0x00, 0), (0x10, 0)] : List (Int × Int))) ++ [(((0x05 : Int)), 0)])).page_table j).modified
          < (entry (run (sample_cfg REPLACE_LRU) (setup (sample_cfg REPLACE_LRU) sample_raw) ((([(0x00, 0), (0x10, 0)] : List (Int × Int))) ++ [(((0x05 : Int)), 0)])).page_table
              f).modified) ∧
      (2 ≤ (sample_cfg REPLACE_LRU).size_of_memory → ∀ next nextwrite : Int,
        (∀ j, j < (sample_cfg REPLACE_LRU).size_of_memory →
          ¬((entry (run (sample_cfg REPLACE_LRU) (setup (sample_cfg REPLACE_LRU) sample_raw) ((([(0x00, 0), (0x10, 0)] : List (Int × Int))) ++ [(((0x05 : Int)), 0)])).page_table
                j).free = 0 ∧
            (entry (run (sample_cfg REPLACE_LRU) (setup (sample_cfg REPLACE_LRU) sample_raw) ((([(0x00, 0), (0x10, 0)] : List (Int × Int))) ++ [(((0x05 : Int)), 0)])).page_table
                j).page_num = next >>> (sample_cfg REPLACE_LRU).size_of_frame)) →
        (∀ j, j < (sample_cfg REPLACE_LRU).size_of_memory →
          (entry (run (sample_cfg REPLACE_LRU) (setup (sample_cfg REPLACE_LRU) sample_raw) ((([(0x00, 0), (0x10, 0)] : List (Int × Int))) ++ [(((0x05 : Int)), 0)])).page_table j).free
            = 0) →
        (entry (resolve_address (sample_cfg REPLACE_LRU) (run (sample_cfg REPLACE_LRU) (setup (sample_cfg REPLACE_LRU) sample_raw) ((([(0x00, 0), (0x10, 0)] : List (Int × Int))) ++ [(((0x05 : Int)), 0)]))
            next nextwrite).2.page_table f).free = 0 ∧
        (entry (resolve_address (sample_cfg REPLACE_LRU) (run (sample_cfg REPLACE_LRU) (setup (sample_cfg REPLACE_LRU) sample_raw) ((([(0x00, 0), (0x10, 0)] : List (Int × Int))) ++ [(((0x05 : Int)), 0)]))
            next nextwrite).2.page_table f).page_num = ((0x05 : Int)) >>> (sample_cfg REPLACE_LRU).size_of_frame ∧
        ∃ v : Nat, v < (sample_cfg REPLACE_LRU).size_of_memory ∧ v ≠ f ∧
          (entry (resolve_address (sample_cfg REPLACE_LRU) (run (sample_cfg REPLACE_LRU) (setup (sample_cfg REPLACE_LRU) sample_raw) ((([(0x00, 0), (0x10, 0)] : List (Int × Int))) ++ [(((0x05 : Int)), 0)]))
            next nextwrite).2.page_table v).page_num = next >>> (sample_cfg REPLACE_LRU).size_of_frame)) ∧
    ((run (sample_cfg REPLACE_LRU) (setup (sample_cfg REPLACE_LRU) sample_raw)
        [(0x00, 0), (0x10, 0), (0x05, 0)]).page_table.map (fun e => (e.page_num, e.free))
      = [(0, 0), (1, 0)]) ∧
    ((run (sample_cfg REPLACE_LRU) (setup (sample_cfg REPLACE_LRU) sample_raw)
        [(0x00, 0), (0x10, 0), (0x05, 0), (0x20, 1)]).page_table.map
          (fun e => (e.page_num, e.free))
      = [(0, 0), (2, 0)]) ∧
    ((run (sample_cfg REPLACE_LRU) (setup (sample_cfg REPLACE_LRU) sample_raw)
        [(0x00, 0), (0x10, 0), (0x05, 0), (0x20, 1)]).swap_outs = 1) :=
  ⟨⟨rfl, by decide, rfl⟩,
    lru_access_is_most_recent (sample_cfg REPLACE_LRU) sample_raw (([(0x00, 0), (0x10, 0)] : List (Int × Int))) ((0x05 : Int)) 0
      (rfl) (by decide) (rfl),
    by decide,
    by decide,
    by decide⟩


/-! ## FIFO on traces without hits -/

/-- The lookup finds a frame as soon as some occupied entry holds the page. -/
theorem find_page_of_resident (pt : List page_table_entry) (page : Int) (n : Nat)
    (h : ∃ j, j < n ∧ (entry pt j).free = 0 ∧ (entry pt j).page_num = page) :
    find_page pt page 0 n ≠ -1 := by
  intro hx
  obtain ⟨j, hj, h1, h2⟩ := h
  exact find_page_miss pt page n hx j hj ⟨h1, h2⟩

/-! ## Occupancy as a prefix of the table -/

theorem occupied_below_congr (p q : List page_table_entry) (n k : Nat)
    (hk : ∀ j, (entry q j).free = (entry p j).free) (h : occupied_below p n k) :
    occupied_below q n k :=
  ⟨h.1, fun j hj => by rw [hk j]; exact h.2 j hj⟩

/-- The first free frame of a table occupied below `k` is frame `k`. -/
theorem first_free_of_below (pt : List page_table_entry) (n k f : Nat)
    (h : occupied_below pt n k) (hf : f < n) (hfree : (entry pt f).free ≠ 0)
    (hbefore : ∀ j, j < f → (entry pt j).free = 0) : f = k := by
  have h1 : ¬ f < k := fun hx => hfree ((h.2 f hf).mpr hx)
  have h2 : ¬ k < f := fun hx => by
    have := (h.2 k (by omega)).mp (hbefore k hx)
    omega
  omega

theorem occupied_below_load (pt : List page_table_entry) (n k : Nat) (e : page_table_entry)
    (h : occupied_below pt n k) (hk : k < n) (hl : k < pt.length) (he : e.free = 0) :
    occupied_below (pt.set k e) n (k + 1) := by
  refine ⟨by omega, fun j hj => ?_⟩
  rw [entry_set]
  split
  · rename_i hh
    constructor
    · intro _; omega
    · intro _; exact he
  · rename_i hh
    have hne : k ≠ j := fun e => hh ⟨e, hl⟩
    rw [h.2 j hj]
    omega

theorem occupied_below_full (pt : List page_table_entry) (n k : Nat)
    (h : occupied_below pt n k) (hfull : ∀ j, j < n → (entry pt j).free = 0) : k = n := by
  by_contra hne
  have hk : k < n := by have := h.1; omega
  have := (h.2 k hk).mp (hfull k hk)
  omega

theorem occupied_below_replace (pt : List page_table_entry) (n v : Nat) (e : page_table_entry)
    (hfull : ∀ j, j < n → (entry pt j).free = 0) (he : e.free = 0) :
    occupied_below (pt.set v e) n n := by
  refine ⟨le_refl n, fun j hj => ?_⟩
  rw [entry_set]
  split
  · exact ⟨fun _ => hj, fun _ => he⟩
  · exact ⟨fun _ => hj, fun _ => hfull j hj⟩

/-! ## Counting the flags that the CLOCK loop clears -/

theorem filter_range_length_succ (p q : Nat → Bool) (n h : Nat) (hh : h < n)
    (hp : p h = true) (hq : q h = false) (hpq : ∀ j, j ≠ h → p j = q j) :
    ((List.range n).filter p).length = ((List.range n).filter q).length + 1 := by
  induction n with
  | zero => omega
  | succ n ih =>
    rw [List.range_succ, List.filter_append, List.filter_append, List.length_append,
      List.length_append]
    by_cases hn : h = n
    · subst hn
      have hsame : (List.range h).filter p = (List.range h).filter q := by
        apply List.filter_congr
        intro j hj
        exact hpq j (by have := List.mem_range.mp hj; omega)
      rw [hsame]
      simp [List.filter_cons, hp, hq]
    · have := ih (by omega)
      have hpn : p n = q n := hpq n (fun e => hn e.symm)
      simp only [List.filter_cons, hpn, List.filter_nil]
      omega

theorem clock_loop_zero_stays (n : Nat) (pt : List page_table_entry) (h : Nat) (si : Int)
    (j : Nat) (hz : (entry pt j).dirty = 0) :
    (entry (clock_loop n pt h si).2.1 j).dirty = 0 := by
  induction pt, h, si using clock_loop.induct n with
  | case1 pt h si hd => rw [clock_loop, if_pos hd]; exact hz
  | case2 pt h si hd ih =>
    rw [clock_loop, if_neg hd]
    apply ih
    rw [entry_set]
    split
    · rfl
    · exact hz

/-- The loop adds to `swap_ins` the number of flags that it clears. -/
theorem clock_loop_swap_ins_count (n : Nat) (pt : List page_table_entry) (h : Nat) (si : Int)
    (hlen : pt.length = n) :
    (clock_loop n pt h si).2.2.2 = si + flags_cleared pt (clock_loop n pt h si).2.1 n := by
  induction pt, h, si using clock_loop.induct n with
  | case1 pt h si hd =>
    rw [clock_loop, if_pos hd]
    have : flags_cleared pt pt n = 0 := by
      unfold flags_cleared
      rw [List.length_eq_zero, List.filter_eq_nil_iff]
      intro j _
      simp only [decide_eq_true_eq, not_and]
      intro a b; exact a b
    simp only [this]; simp
  | case2 pt h si hd ih =>
    have hin : h < pt.length := lt_length_of_dirty_ne pt h hd
    rw [clock_loop, if_neg hd, ih (by simpa using hlen)]
    have hz : (entry (clock_loop n (pt.set h { entry pt h with dirty := 0 }) (advance n h)
        (si + 1)).2.1 h).dirty = 0 := by
      apply clock_loop_zero_stays
      rw [entry_set_self _ _ _ hin]
    have hcount := filter_range_length_succ
      (fun j => decide ((entry pt j).dirty ≠ 0 ∧
        (entry (clock_loop n (pt.set h { entry pt h with dirty := 0 }) (advance n h)
          (si + 1)).2.1 j).dirty = 0))
      (fun j => decide ((entry (pt.set h { entry pt h with dirty := 0 }) j).dirty ≠ 0 ∧
        (entry (clock_loop n (pt.set h { entry pt h with dirty := 0 }) (advance n h)
          (si + 1)).2.1 j).dirty = 0))
      n h (by omega)
      (by simp only [decide_eq_true_eq]; exact ⟨hd, hz⟩)
      (by beta_reduce; rw [entry_set_self _ _ _ hin]; simp)
      (fun j hj => by beta_reduce; rw [entry_set_other _ _ _ _ (fun e => hj e.symm)])
    unfold flags_cleared
    rw [hcount]
    push_cast
    ring

/-! ## C11 -/

theorem resident_iff (cfg : Config) (s : State) (page : Int) :
    resident cfg s page = true ↔
      ∃ j, j < cfg.size_of_memory ∧ (entry s.page_table j).free = 0 ∧
        (entry s.page_table j).page_num = page := by
  unfold resident
  rw [List.any_eq_true]
  constructor
  · rintro ⟨j, hj, hx⟩
    exact ⟨j, List.mem_range.mp hj, (decide_eq_true_eq.mp hx).1, (decide_eq_true_eq.mp hx).2⟩
  · rintro ⟨j, hj, h1, h2⟩
    exact ⟨j, List.mem_range.mpr hj, decide_eq_true_eq.mpr ⟨h1, h2⟩⟩

theorem resident_iff_found (cfg : Config) (s : State) (page : Int) :
    resident cfg s page = true ↔ find_page s.page_table page 0 cfg.size_of_memory ≠ -1 := by
  rw [resident_iff]
  constructor
  · exact find_page_of_resident _ _ _
  · intro h
    obtain ⟨f, _, _, e3, e4, e5, _⟩ := find_page_found _ _ 0 _ h
    exact ⟨f, by omega, e4, e5⟩

/-- A call leaves `mem_refs` alone and adds one to `page_faults` exactly when the
page is not resident. -/
theorem resolve_address_counts (cfg : Config) (s : State) (logical memwrite : Int) :
    (resolve_address cfg s logical memwrite).2.mem_refs = s.mem_refs ∧
    (resolve_address cfg s logical memwrite).2.page_faults
      = s.page_faults + (if resident cfg s (logical >>> cfg.size_of_frame) then 0 else 1) := by
  apply resolve_address_cases cfg s logical memwrite
    (fun r => r.2.mem_refs = s.mem_refs ∧
      r.2.page_faults
        = s.page_faults + (if resident cfg s (logical >>> cfg.size_of_frame) then 0 else 1))
  · intro f _ e _ _
    have hres : resident cfg s (logical >>> cfg.size_of_frame) = true :=
      (resident_iff_found _ _ _).mpr (by rw [e]; omega)
    rw [hres]
    simp only [if_true, add_zero]
    split_ifs <;> exact ⟨rfl, rfl⟩
  · intro f _ _ e _ _ _
    have hres : ¬ resident cfg s (logical >>> cfg.size_of_frame) = true :=
      fun h => (resident_iff_found _ _ _).mp h e
    simp [hres]
  · intro _ e _
    have hres : ¬ resident cfg s (logical >>> cfg.size_of_frame) = true :=
      fun h => (resident_iff_found _ _ _).mp h e
    simp [hres]
  · intro f _ e _ _
    have hres : ¬ resident cfg s (logical >>> cfg.size_of_frame) = true :=
      fun h => (resident_iff_found _ _ _).mp h e
    simp [hres]
  · intro f _ e _ _
    have hres : ¬ resident cfg s (logical >>> cfg.size_of_frame) = true :=
      fun h => (resident_iff_found _ _ _).mp h e
    simp [hres]
  · intro _ _ _ e _
    have hres : ¬ resident cfg s (logical >>> cfg.size_of_frame) = true :=
      fun h => (resident_iff_found _ _ _).mp h e
    simp [hres]

theorem in_range_main_step (cfg : Config) (hN : 0 < cfg.size_of_memory) (s : State)
    (c : Int × Int) (h : in_range cfg s) : in_range cfg (main_step cfg s c) :=
  in_range_resolve cfg hN s c.1 c.2 h

/-- The loop of `main` from any state in range: it never takes the way out, and its
counters are the counts of lines, of misses and of hits. -/
theorem main_loop_counts (cfg : Config) (hs : scheme_implemented cfg)
    (hN : 0 < cfg.size_of_memory) (s : State) (hr : in_range cfg s)
    (trace : List (Int × Int)) :
    main_loop cfg s trace = some (run cfg s trace) ∧
    (run cfg s trace).mem_refs = s.mem_refs + trace.length ∧
    (run cfg s trace).page_faults = s.page_faults + miss_count cfg s trace ∧
    hit_count cfg s trace + miss_count cfg s trace = trace.length := by
  induction trace generalizing s with
  | nil => exact ⟨rfl, by simp [run_nil], by simp [run_nil, miss_count], rfl⟩
  | cons c t ih =>
    obtain ⟨i1, i2, i3, i4⟩ := ih (main_step cfg s c) (in_range_main_step cfg hN s c hr)
    obtain ⟨c1, c2⟩ := resolve_address_counts cfg s c.1 c.2
    have hne : (resolve_address cfg s c.1 c.2).1 ≠ -1 := by
      obtain ⟨f, _, e, _, _⟩ := resolve_address_frame cfg s c.1 c.2 hs hN hr
      have := effective_nonneg f c.1 cfg.size_of_frame
      rw [e]; omega
    have hm : (main_step cfg s c).mem_refs = s.mem_refs + 1 := by
      unfold main_step; simp only; rw [c1]
    have hp : (main_step cfg s c).page_faults
        = s.page_faults + (if resident cfg s (page_of cfg c) then 0 else 1) := by
      unfold main_step page_of; simp only; rw [c2]
    refine ⟨?_, ?_, ?_, ?_⟩
    · rw [main_loop, if_neg hne, run_cons]; exact i1
    · rw [run_cons, i2, hm, List.length_cons]; push_cast; ring
    · rw [run_cons, i3, hp, miss_count]
      split_ifs <;> push_cast <;> ring
    · rw [hit_count, miss_count, List.length_cons]
      split_ifs <;> omega


/-! ## The first frame with a clear flag -/

theorem hand_after_eq_mod (n h d : Nat) (hh : h < n) (hd : d ≤ n) :
    hand_after n h d = (h + d) % n := by
  unfold hand_after
  split
  · rw [Nat.mod_eq_sub_mod (by omega), Nat.mod_eq_of_lt (by omega)]
  · rw [Nat.mod_eq_of_lt (by omega)]

theorem hand_after_lt (n h d : Nat) (hh : h < n) (hd : d ≤ n) : hand_after n h d < n := by
  unfold hand_after; split <;> omega

theorem swept_iff (n h d j : Nat) (hh : h < n) (hd : d ≤ n) :
    swept n h d j ↔ j < n ∧ ∃ i, i < d ∧ j = hand_after n h i := by
  unfold swept
  constructor
  · rintro ⟨hj, hx⟩
    refine ⟨hj, ?_⟩
    rcases hx with hx | hx
    · exact ⟨j - h, by omega, by unfold hand_after; split <;> omega⟩
    · exact ⟨j + n - h, by omega, by unfold hand_after; split <;> omega⟩
  · rintro ⟨hj, i, hi, hji⟩
    refine ⟨hj, ?_⟩
    unfold hand_after at hji
    split at hji <;> omega

/-- From the hand on, some frame with `dirty == 0` comes first when there is one. -/
theorem first_clear (n : Nat) (pt : List page_table_entry) (h : Nat) (hh : h < n)
    (hz : ∃ j, j < n ∧ (entry pt j).dirty = 0) :
    ∃ d, d < n ∧ (entry pt (hand_after n h d)).dirty = 0 ∧
      ∀ i, i < d → (entry pt (hand_after n h i)).dirty ≠ 0 := by
  obtain ⟨j, hj, hj0⟩ := hz
  have hex : ∃ d, d < n ∧ (entry pt (hand_after n h d)).dirty = 0 := by
    by_cases hjh : h ≤ j
    · refine ⟨j - h, by omega, ?_⟩
      have : hand_after n h (j - h) = j := by unfold hand_after; split <;> omega
      rw [this]; exact hj0
    · refine ⟨j + n - h, by omega, ?_⟩
      have : hand_after n h (j + n - h) = j := by unfold hand_after; split <;> omega
      rw [this]; exact hj0
  classical
  refine ⟨Nat.find hex, (Nat.find_spec hex).1, (Nat.find_spec hex).2, ?_⟩
  intro i hi hx
  exact Nat.find_min hex hi ⟨by have := (Nat.find_spec hex).1; omega, hx⟩

/-! ## C15 -/

/-- C15. Under CLOCK with a full table of `N = size_of_memory >= 1` entries and
`clock_hand = h < N`, on a miss while some `dirty` is 0: the victim `v` is the first
frame in the order `h, h+1, ...` (mod `N`) whose `dirty` is 0, at distance `d < N`;
the frames passed before it, `(h + i) mod N` for `i < d`, end with `dirty = 0`,
every other frame but `v` keeps its `dirty`, `v` ends with `dirty = 1` and the new
page, `clock_hand` ends at `(v + 1) mod N`, and `swap_ins` has grown by `d + 1`. -/
theorem clock_victim_is_first_clear (cfg : Config) (s : State) (logical memwrite : Int)
    (hs : cfg.page_replacement_scheme = REPLACE_CLOCK)
    (hN : 1 ≤ cfg.size_of_memory)
    (hlen : s.page_table.length = cfg.size_of_memory)
    (hhand : s.clock_hand < cfg.size_of_memory)
    (hmiss : ∀ j, j < cfg.size_of_memory →
      ¬((entry s.page_table j).free = 0 ∧
        (entry s.page_table j).page_num = logical >>> cfg.size_of_frame))
    (hfull : ∀ j, j < cfg.size_of_memory → (entry s.page_table j).free = 0)
    (hzero : ∃ j, j < cfg.size_of_memory ∧ (entry s.page_table j).dirty = 0) :
    ∃ d v : Nat, d < cfg.size_of_memory ∧ v = (s.clock_hand + d) % cfg.size_of_memory ∧
      v < cfg.size_of_memory ∧
      (entry s.page_table v).dirty = 0 ∧
      (∀ i, i < d → (entry s.page_table ((s.clock_hand + i) % cfg.size_of_memory)).dirty ≠ 0) ∧
      (resolve_address cfg s logical memwrite).1
        = Int.lor (shl (v : Int) cfg.size_of_frame)
            (Int.land logical (mask_loop cfg.size_of_frame 0)) ∧
      (entry (resolve_address cfg s logical memwrite).2.page_table v).page_num
        = logical >>> cfg.size_of_frame ∧
      (entry (resolve_address cfg s logical memwrite).2.page_table v).dirty = 1 ∧
      (entry (resolve_address cfg s logical memwrite).2.page_table v).free = 0 ∧
      (∀ j, j < cfg.size_of_memory → j ≠ v →
        ((∃ i, i < d ∧ j = (s.clock_hand + i) % cfg.size_of_memory) →
          (entry (resolve_address cfg s logical memwrite).2.page_table j).dirty = 0) ∧
        ((¬ ∃ i, i < d ∧ j = (s.clock_hand + i) % cfg.size_of_memory) →
          (entry (resolve_address cfg s logical memwrite).2.page_table j).dirty
            = (entry s.page_table j).dirty)) ∧
      (resolve_address cfg s logical memwrite).2.clock_hand = (v + 1) % cfg.size_of_memory ∧
      (resolve_address cfg s logical memwrite).2.swap_ins = s.swap_ins + d + 1 := by
  have hp : find_page s.page_table (logical >>> cfg.size_of_frame) 0 cfg.size_of_memory = -1 :=
    (find_page_neg_one_iff _ _ _ _).mpr (fun j _ hj => hmiss j (by omega))
  have hf : find_free s.page_table 0 cfg.size_of_memory = -1 :=
    (find_free_neg_one_iff _ _ _).mpr (fun j _ hj => hfull j (by omega))
  obtain ⟨d, hd, hstop, hset⟩ := first_clear cfg.size_of_memory s.page_table s.clock_hand
    hhand hzero
  obtain ⟨r1, r2, r3, r4, r5⟩ := clock_loop_sweep cfg.size_of_memory d s.page_table
    s.clock_hand s.swap_ins hlen hhand (by omega) hset (fun _ => hstop)
  have hv : hand_after cfg.size_of_memory s.clock_hand d < cfg.size_of_memory :=
    hand_after_lt _ _ _ hhand (by omega)
  have hmod : ∀ i, i ≤ d → hand_after cfg.size_of_memory s.clock_hand i
      = (s.clock_hand + i) % cfg.size_of_memory :=
    fun i hi => hand_after_eq_mod _ _ _ hhand (by omega)
  have hin : hand_after cfg.size_of_memory s.clock_hand d
      < (clock_loop cfg.size_of_memory s.page_table s.clock_hand s.swap_ins).2.1.length := by
    omega
  rw [resolve_address_clock cfg s logical memwrite _ hs hp hf r1]
  refine ⟨d, hand_after cfg.size_of_memory s.clock_hand d, hd, hmod d (le_refl d), hv, hstop,
    fun i hi => by rw [← hmod i (by omega)]; exact hset i hi, rfl, ?_, ?_, ?_, ?_, ?_, ?_⟩
  · simp only [entry_set_self _ _ _ hin]
  · simp only [entry_set_self _ _ _ hin]
  · simp only [entry_set_self _ _ _ hin]; rfl
  · intro j hj hjv
    simp only [entry_set_other _ _ _ _ (fun e => hjv e.symm), r5 j]
    constructor
    · rintro ⟨i, hi, hji⟩
      have hsw : swept cfg.size_of_memory s.clock_hand d j :=
        (swept_iff _ _ _ _ hhand (by omega)).mpr ⟨hj, i, hi, by rw [hmod i (by omega)]; exact hji⟩
      rw [if_pos hsw]
    · intro hno
      have hsw : ¬ swept cfg.size_of_memory s.clock_hand d j := by
        intro hx
        obtain ⟨_, i, hi, hji⟩ := (swept_iff _ _ _ _ hhand (by omega)).mp hx
        exact hno ⟨i, hi, by rw [← hmod i (by omega)]; exact hji⟩
      rw [if_neg hsw]
  · simp only [r2]
    exact advance_eq_mod _ _ hv
  · simp only [r3]

/-- C15 on two frames: the hand on frame 1, whose flag is set, passes it and takes frame 0. -/
theorem clock_victim_is_first_clear_witness :
    (((sample_cfg REPLACE_CLOCK).page_replacement_scheme = REPLACE_CLOCK) ∧
      (1 ≤ (sample_cfg REPLACE_CLOCK).size_of_memory) ∧
      (sample_clock_state.page_table.length = (sample_cfg REPLACE_CLOCK).size_of_memory) ∧
      (sample_clock_state.clock_hand < (sample_cfg REPLACE_CLOCK).size_of_memory) ∧
      (∀ j, j < (sample_cfg REPLACE_CLOCK).size_of_memory →
      ¬((entry sample_clock_state.page_table j).free = 0 ∧
        (entry sample_clock_state.page_table j).page_num = ((0x25 : Int)) >>> (sample_cfg REPLACE_CLOCK).size_of_frame)) ∧
      (∀ j, j < (sample_cfg REPLACE_CLOCK).size_of_memory → (entry sample_clock_state.page_table j).free = 0) ∧
      (∃ j, j < (sample_cfg REPLACE_CLOCK).size_of_memory ∧ (entry sample_clock_state.page_table j).dirty = 0)) ∧
    (∃ d v : Nat, d < (sample_cfg REPLACE_CLOCK).size_of_memory ∧ v = (sample_clock_state.clock_hand + d) % (sample_cfg REPLACE_CLOCK).size_of_memory ∧
      v < (sample_cfg REPLACE_CLOCK).size_of_memory ∧
      (entry sample_clock_state.page_table v).dirty = 0 ∧
      (∀ i, i < d → (entry sample_clock_state.page_table ((sample_clock_state.clock_hand + i) % (sample_cfg REPLACE_CLOCK).size_of_memory)).dirty ≠ 0) ∧
      (resolve_address (sample_cfg REPLACE_CLOCK) sample_clock_state ((0x25 : Int)) 1).1
        = Int.lor (shl (v : Int) (sample_cfg REPLACE_CLOCK).size_of_frame)
            (Int.land ((0x25 : Int)) (mask_loop (sample_cfg REPLACE_CLOCK).size_of_frame 0)) ∧
      (entry (resolve_address (sample_cfg REPLACE_CLOCK) sample_clock_state ((0x25 : Int)) 1).2.page_table v).page_num
        = ((0x25 : Int)) >>> (sample_cfg REPLACE_CLOCK).size_of_frame ∧
      (entry (resolve_address (sample_cfg REPLACE_CLOCK) sample_clock_state ((0x25 : Int)) 1).2.page_table v).dirty = 1 ∧
      (entry (resolve_address (sample_cfg REPLACE_CLOCK) sample_clock_state ((0x25 : Int)) 1).2.page_table v).free = 0 ∧
      (∀ j, j < (sample_cfg REPLACE_CLOCK).size_of_memory → j ≠ v →
        ((∃ i, i < d ∧ j = (sample_clock_state.clock_hand + i) % (sample_cfg REPLACE_CLOCK).size_of_memory) →
          (entry (resolve_address (sample_cfg REPLACE_CLOCK) sample_clock_state ((0x25 : Int)) 1).2.page_table j).dirty = 0) ∧
        ((¬ ∃ i, i < d ∧ j = (sample_clock_state.clock_hand + i) % (sample_cfg REPLACE_CLOCK).size_of_memory) →
          (entry (resolve_address (sample_cfg REPLACE_CLOCK) sample_clock_state ((0x25 : Int)) 1).2.page_table j).dirty
            = (entry sample_clock_state.page_table j).dirty)) ∧
      (resolve_address (sample_cfg REPLACE_CLOCK) sample_clock_state ((0x25 : Int)) 1).2.clock_hand = (v + 1) % (sample_cfg REPLACE_CLOCK).size_of_memory ∧
      (resolve_address (sample_cfg REPLACE_CLOCK) sample_clock_state ((0x25 : Int)) 1).2.swap_ins = sample_clock_state.swap_ins + d + 1) :=
  ⟨⟨rfl, by decide, rfl, by decide, by decide, by decide, ⟨0, by decide, by decide⟩⟩,
    clock_victim_is_first_clear (sample_cfg REPLACE_CLOCK) sample_clock_state ((0x25 : Int)) 1
      (rfl) (by decide) (rfl) (by decide) (by decide) (by decide) (⟨0, by decide, by decide⟩)⟩


/-! ## Bounds of victim selection -/

theorem dirty_count_set_lt (l : List page_table_entry) (h : Nat) (e : page_table_entry)
    (h1 : (entry l h).dirty ≠ 0) (h2 : e.dirty = 0) :
    ((l.set h e).filter (fun e => !decide (e.dirty = 0))).length
      < (l.filter (fun e => !decide (e.dirty = 0))).length := by
  induction l generalizing h with
  | nil => rw [entry_nil] at h1; exact absurd rfl h1
  | cons a t ih =>
    cases h with
    | zero =>
      rw [entry_cons_zero] at h1
      simp [List.filter_cons, h1, h2]
    | succ h =>
      rw [entry_cons_succ] at h1
      have := ih h h1
      by_cases ha : a.dirty = 0 <;> simp [List.filter_cons, ha] <;> omega

/-- With more fuel than set flags, and the hand inside the table, the checked loop
is the loop. -/
theorem clock_loop_checked_eq (n : Nat) (hn : 0 < n) (pt : List page_table_entry) (h : Nat)
    (si : Int) (fuel : Nat) (hlen : pt.length = n) (hh : h < n)
    (hfuel : (pt.filter (fun e => !decide (e.dirty = 0))).length < fuel) :
    clock_loop_checked n fuel pt h si = some (clock_loop n pt h si) := by
  induction pt, h, si using clock_loop.induct n generalizing fuel with
  | case1 pt h si hd =>
    cases fuel with
    | zero => omega
    | succ fuel =>
      rw [clock_loop_checked, if_pos (by omega), if_pos hd, clock_loop, if_pos hd]
  | case2 pt h si hd ih =>
    cases fuel with
    | zero => omega
    | succ fuel =>
      rw [clock_loop_checked, if_pos (by omega), if_neg hd, clock_loop, if_neg hd]
      apply ih
      · simpa using hlen
      · exact advance_lt n h hn
      · have := dirty_count_set_lt pt h { entry pt h with dirty := 0 } hd rfl
        omega

theorem clock_loop_checked_some (n : Nat) (hn : 0 < n) (pt : List page_table_entry) (h : Nat)
    (si : Int) (hlen : pt.length = n) (hh : h < n) :
    clock_loop_checked n (n + 1) pt h si = some (clock_loop n pt h si) := by
  apply clock_loop_checked_eq n hn pt h si (n + 1) hlen hh
  have := List.length_filter_le (fun e => !decide (e.dirty = 0)) pt
  omega

theorem accesses_in_bounds_of_in_range (cfg : Config) (s : State) (logical : Int)
    (hN : 0 < cfg.size_of_memory) (hr : in_range cfg s) :
    accesses_in_bounds cfg s logical = true := by
  obtain ⟨h1, h2, h3⟩ := hr
  unfold accesses_in_bounds
  simp only [Bool.and_eq_true, decide_eq_true_eq]
  refine ⟨by omega, ?_⟩
  by_cases hp : find_page s.page_table (logical >>> cfg.size_of_frame) 0 cfg.size_of_memory = -1
  · rw [if_neg (by simpa using hp)]
    by_cases hf : find_free s.page_table 0 cfg.size_of_memory = -1
    · simp only [hf, ne_eq, not_true_eq_false, if_false]
      split_ifs
      · simp only [decide_eq_true_eq]; omega
      · obtain ⟨g, e1, e2, _, _⟩ := lru_scan_min s.page_table cfg.size_of_memory hN
        rw [e1]
        simp only [Bool.and_eq_true, decide_eq_true_eq, Int.toNat_ofNat]
        omega
      · obtain ⟨g, e2, e1⟩ := clock_loop_frame_lt cfg.size_of_memory hN s.page_table
          s.clock_hand s.swap_ins h3
        rw [e1, clock_loop_checked_some _ hN _ _ _ h1 h3]
        simp only [Option.isSome_some, Bool.and_eq_true, decide_eq_true_eq, Int.toNat_ofNat,
          true_and]
        omega
      · rfl
    · obtain ⟨f, e1, _, e3, _, _⟩ := find_free_found _ 0 _ hf
      rw [if_pos hf, e1]
      simp only [decide_eq_true_eq, Int.toNat_ofNat]
      omega
  · obtain ⟨f, e1, _, e3, _, _, _⟩ := find_page_found _ _ 0 _ hp
    rw [if_pos hp, e1]
    simp only [decide_eq_true_eq, Int.toNat_ofNat]
    omega

/-! ## C16 -/

/-- C16. With `N = size_of_memory >= 1`: for any flags and any `clock_hand < N` the
CLOCK loop ends within `N + 1` inspections, none outside the table, on a victim
below `N` and with `clock_hand` below `N`; a FIFO replacement takes the frame
`fifo_index < N` and leaves `fifo_index < N`; the LRU scan yields a frame below `N`;
and in every state reached from `setup` the table has `N` entries, both cursors are
below `N`, and every subscript that a call applies to `page_table` is inside it. -/
theorem victim_selection_in_range (cfg : Config) (hN : 1 ≤ cfg.size_of_memory) :
    (∀ (pt : List page_table_entry) (h : Nat) (si : Int),
      pt.length = cfg.size_of_memory → h < cfg.size_of_memory →
      clock_loop_checked cfg.size_of_memory (cfg.size_of_memory + 1) pt h si
        = some (clock_loop cfg.size_of_memory pt h si) ∧
      (∃ v : Nat, v < cfg.size_of_memory ∧
        (clock_loop cfg.size_of_memory pt h si).1 = (v : Int)) ∧
      (clock_loop cfg.size_of_memory pt h si).2.2.1 < cfg.size_of_memory ∧
      (clock_loop cfg.size_of_memory pt h si).2.1.length = cfg.size_of_memory) ∧
    (∀ (s : State) (logical memwrite : Int),
      cfg.page_replacement_scheme = REPLACE_FIFO →
      s.fifo_index < cfg.size_of_memory →
      find_page s.page_table (logical >>> cfg.size_of_frame) 0 cfg.size_of_memory = -1 →
      find_free s.page_table 0 cfg.size_of_memory = -1 →
      (resolve_address cfg s logical memwrite).1
        = Int.lor (shl (s.fifo_index : Int) cfg.size_of_frame)
            (Int.land logical (mask_loop cfg.size_of_frame 0)) ∧
      (resolve_address cfg s logical memwrite).2.fifo_index < cfg.size_of_memory) ∧
    (∀ pt : List page_table_entry, ∃ g : Nat, g < cfg.size_of_memory ∧
      lru_scan pt 0 cfg.size_of_memory 0 (entry pt 0).modified = (g : Int)) ∧
    (∀ (raw : List page_table_entry) (trace : List (Int × Int)) (logical : Int),
      raw.length = cfg.size_of_memory →
      (run cfg (setup cfg raw) trace).page_table.length = cfg.size_of_memory ∧
      (run cfg (setup cfg raw) trace).fifo_index < cfg.size_of_memory ∧
      (run cfg (setup cfg raw) trace).clock_hand < cfg.size_of_memory ∧
      accesses_in_bounds cfg (run cfg (setup cfg raw) trace) logical = true) := by
  refine ⟨?_, ?_, ?_, ?_⟩
  · intro pt h si hlen hh
    exact ⟨clock_loop_checked_some _ hN pt h si hlen hh,
      clock_loop_frame_lt _ hN pt h si hh, clock_loop_hand_lt _ hN pt h si,
      by rw [clock_loop_length, hlen]⟩
  · intro s logical memwrite hs hidx hp hf
    rw [resolve_address_fifo cfg s logical memwrite hs hp hf]
    exact ⟨rfl, advance_lt _ _ hN⟩
  · intro pt
    obtain ⟨g, e1, e2, _, _⟩ := lru_scan_min pt cfg.size_of_memory hN
    exact ⟨g, e2, e1⟩
  · intro raw trace logical hraw
    have hr := in_range_run cfg hN raw hraw trace
    exact ⟨hr.1, hr.2.1, hr.2.2, accesses_in_bounds_of_in_range cfg _ logical hN hr⟩

/-- C16 for two frames; with both flags set the loop needs its three inspections. -/
theorem victim_selection_in_range_witness :
    (1 ≤ (sample_cfg REPLACE_CLOCK).size_of_memory) ∧
    ((∀ (pt : List page_table_entry) (h : Nat) (si : Int),
      pt.length = (sample_cfg REPLACE_CLOCK).size_of_memory → h < (sample_cfg REPLACE_CLOCK).size_of_memory →
      clock_loop_checked (sample_cfg REPLACE_CLOCK).size_of_memory ((sample_cfg REPLACE_CLOCK).size_of_memory + 1) pt h si
        = some (clock_loop (sample_cfg REPLACE_CLOCK).size_of_memory pt h si) ∧
      (∃ v : Nat, v < (sample_cfg REPLACE_CLOCK).size_of_memory ∧
        (clock_loop (sample_cfg REPLACE_CLOCK).size_of_memory pt h si).1 = (v : Int)) ∧
      (clock_loop (sample_cfg REPLACE_CLOCK).size_of_memory pt h si).2.2.1 < (sample_cfg REPLACE_CLOCK).size_of_memory ∧
      (clock_loop (sample_cfg REPLACE_CLOCK).size_of_memory pt h si).2.1.length = (sample_cfg REPLACE_CLOCK).size_of_memory) ∧
    (∀ (s : State) (logical memwrite : Int),
      (sample_cfg REPLACE_CLOCK).page_replacement_scheme = REPLACE_FIFO →
      s.fifo_index < (sample_cfg REPLACE_CLOCK).size_of_memory →
      find_page s.page_table (logical >>> (sample_cfg REPLACE_CLOCK).size_of_frame) 0 (sample_cfg REPLACE_CLOCK).size_of_memory = -1 →
      find_free s.page_table 0 (sample_cfg REPLACE_CLOCK).size_of_memory = -1 →
      (resolve_address (sample_cfg REPLACE_CLOCK) s logical memwrite).1
        = Int.lor (shl (s.fifo_index : Int) (sample_cfg REPLACE_CLOCK).size_of_frame)
            (Int.land logical (mask_loop (sample_cfg REPLACE_CLOCK).size_of_frame 0)) ∧
      (resolve_address (sample_cfg REPLACE_CLOCK) s logical memwrite).2.fifo_index < (sample_cfg REPLACE_CLOCK).size_of_memory) ∧
    (∀ pt : List page_table_entry, ∃ g : Nat, g < (sample_cfg REPLACE_CLOCK).size_of_memory ∧
      lru_scan pt 0 (sample_cfg REPLACE_CLOCK).size_of_memory 0 (entry pt 0).modified = (g : Int)) ∧
    (∀ (raw : List page_table_entry) (trace : List (Int × Int)) (logical : Int),
      raw.length = (sample_cfg REPLACE_CLOCK).size_of_memory →
      (run (sample_cfg REPLACE_CLOCK) (setup (sample_cfg REPLACE_CLOCK) raw) trace).page_table.length = (sample_cfg REPLACE_CLOCK).size_of_memory ∧
      (run (sample_cfg REPLACE_CLOCK) (setup (sample_cfg REPLACE_CLOCK) raw) trace).fifo_index < (sample_cfg REPLACE_CLOCK).size_of_memory ∧
      (run (sample_cfg REPLACE_CLOCK) (setup (sample_cfg REPLACE_CLOCK) raw) trace).clock_hand < (sample_cfg REPLACE_CLOCK).size_of_memory ∧
      accesses_in_bounds (sample_cfg REPLACE_CLOCK) (run (sample_cfg REPLACE_CLOCK) (setup (sample_cfg REPLACE_CLOCK) raw) trace) logical = true)) ∧
    (clock_loop_checked 2 3 [⟨0, 1, 9, 0⟩, ⟨1, 1, -2, 0⟩] 1 0
      = some (1, [⟨0, 0, 9, 0⟩, ⟨1, 0, -2, 0⟩], 0, 2)) ∧
    (clock_loop_checked 2 2 [⟨0, 1, 9, 0⟩, ⟨1, 1, -2, 0⟩] 1 0 = none) :=
  ⟨by decide,
    victim_selection_in_range (sample_cfg REPLACE_CLOCK)
      (by decide),
    by decide,
    by decide⟩


/-! ## FIFO against the reference queue -/

theorem pages_distinct_main_step (cfg : Config) (s : State) (c : Int × Int)
    (h : pages_distinct s.page_table cfg.size_of_memory) :
    pages_distinct (main_step cfg s c).page_table cfg.size_of_memory :=
  pages_distinct_resolve cfg s c.1 c.2 h

theorem lru_stamped_main_step (cfg : Config) (s : State) (c : Int × Int)
    (hs : cfg.page_replacement_scheme = REPLACE_LRU) (hN : 0 < cfg.size_of_memory)
    (hr : in_range cfg s) (h : lru_stamped cfg s) : lru_stamped cfg (main_step cfg s c) :=
  lru_stamped_resolve cfg s c.1 c.2 hs hN hr h

/-- One call under LRU appends the page to the sequence and keeps the stamps the
positions of the last accesses. -/
theorem stamps_step (cfg : Config) (hs : cfg.page_replacement_scheme = REPLACE_LRU)
    (hN : 0 < cfg.size_of_memory) (s : State) (pages : List Int) (logical memwrite : Int)
    (hr : in_range cfg s) (hd : pages_distinct s.page_table cfg.size_of_memory)
    (h : stamps_are_last_accesses cfg s pages) :
    stamps_are_last_accesses cfg (resolve_address cfg s logical memwrite).2
      (pages ++ [logical >>> cfg.size_of_frame]) := by
  obtain ⟨h1, h2⟩ := h
  have hd2 := pages_distinct_resolve cfg s logical memwrite hd
  obtain ⟨f, e, hf, e1, e2, e3, e4, e5⟩ := lru_resolve_shape cfg s logical memwrite hs hN hr
  have hfl : f < s.page_table.length := by rw [hr.1]; exact hf
  have hfe : entry (resolve_address cfg s logical memwrite).2.page_table f = e := by
    rw [e1]; exact entry_set_self _ _ _ hfl
  refine ⟨by rw [e5, h1]; simp, ?_⟩
  intro j hj hfree
  by_cases hjf : j = f
  · subst hjf
    rw [hfe]
    refine ⟨pages.length, by rw [e2, h1], by rw [List.getElem?_concat_length, e4], ?_⟩
    intro i hi
    rw [List.getElem?_eq_none (by simp; omega)]
    exact fun hx => by cases hx
  · have hsame : entry (resolve_address cfg s logical memwrite).2.page_table j
        = entry s.page_table j := by
      rw [e1]; exact entry_set_other _ _ _ _ (fun e => hjf e.symm)
    have hne : (entry s.page_table j).page_num ≠ logical >>> cfg.size_of_frame := by
      have := hd2 j f hj hf hjf hfree (by rw [hfe]; exact e3)
      rw [hfe, e4, hsame] at this
      exact this
    rw [hsame] at hfree ⊢
    obtain ⟨m, m1, m2, m3⟩ := h2 j hj hfree
    have hm : m < pages.length := (List.getElem?_eq_some.mp m2).1
    refine ⟨m, m1, by rw [List.getElem?_append_left hm]; exact m2, ?_⟩
    intro i hi
    by_cases hil : i < pages.length
    · rw [List.getElem?_append_left hil]; exact m3 i hi
    · by_cases hie : i = pages.length
      · rw [hie, List.getElem?_concat_length]
        exact fun hx => hne (Option.some.inj hx).symm
      · rw [List.getElem?_eq_none (by simp; omega)]
        exact fun hx => by cases hx

theorem stamps_run (cfg : Config) (hs : cfg.page_replacement_scheme = REPLACE_LRU)
    (hN : 0 < cfg.size_of_memory) (trace : List (Int × Int)) (s : State) (pages : List Int)
    (hr : in_range cfg s) (hd : pages_distinct s.page_table cfg.size_of_memory)
    (h : stamps_are_last_accesses cfg s pages) :
    stamps_are_last_accesses cfg (run cfg s trace) (pages ++ trace.map (page_of cfg)) := by
  induction trace generalizing s pages with
  | nil => simpa [run_nil] using h
  | cons c t ih =>
    have hstep := stamps_step cfg hs hN s pages c.1 c.2 hr hd h
    have := ih (main_step cfg s c) (pages ++ [page_of cfg c])
      (in_range_main_step cfg hN s c hr) (pages_distinct_main_step cfg s c hd) hstep
    rw [run_cons, List.map_cons]
    simpa [List.append_assoc] using this

/-! ## LRU against the reference list -/

/-- After a table write that stamps frame `f` with the old `lru_mod` and puts page
`p` there, the order of two other pages is as before. -/
theorem older_kept (cfg : Config) (s t : State) (f : Nat) (e : page_table_entry) (p a b : Int)
    (ht : t.page_table = s.page_table.set f e) (hfl : f < s.page_table.length)
    (hep : e.page_num = p) (ha : a ≠ p) (hb : b ≠ p)
    (h : older cfg s a b) : older cfg t a b := by
  intro i j hi hj fi fj pi pj
  rw [ht] at fi fj pi pj ⊢
  have hif : f ≠ i := by
    intro hx; subst hx
    rw [entry_set_self _ _ _ hfl] at pi
    exact ha (by rw [← pi, hep])
  have hjf : f ≠ j := by
    intro hx; subst hx
    rw [entry_set_self _ _ _ hfl] at pj
    exact hb (by rw [← pj, hep])
  rw [entry_set_other _ _ _ _ hif] at fi pi ⊢
  rw [entry_set_other _ _ _ _ hjf] at fj pj ⊢
  exact h i j hi hj fi fj pi pj

/-- After such a write every other page is older than `p`. -/
theorem older_than_new (cfg : Config) (s t : State) (f : Nat) (e : page_table_entry) (p a : Int)
    (ht : t.page_table = s.page_table.set f e) (hfl : f < s.page_table.length)
    (hfN : f < cfg.size_of_memory)
    (hep : e.page_num = p) (hef : e.free = 0) (hem : e.modified = s.lru_mod) (ha : a ≠ p)
    (hst : lru_stamped cfg s) (hd : pages_distinct t.page_table cfg.size_of_memory) :
    older cfg t a p := by
  intro i j hi hj fi fj pi pj
  have hfe : entry t.page_table f = e := by rw [ht]; exact entry_set_self _ _ _ hfl
  have hjf : j = f := by
    by_contra hne
    exact hd j f hj hfN hne fj (by rw [hfe]; exact hef) (by rw [hfe, pj, hep])
  have hif : f ≠ i := by
    intro hx; subst hx
    rw [hfe] at pi
    exact ha (by rw [← pi, hep])
  subst hjf
  rw [hfe, hem]
  rw [ht, entry_set_other _ _ _ _ hif] at fi ⊢
  exact hst i hi fi

/-- The list of the other pages, in stamp order, followed by the page just
accessed, is the list of the table after the write. -/
theorem lru_rel_append (cfg : Config) (s t : State) (f : Nat) (e : page_table_entry) (p : Int)
    (m : List Int)
    (ht : t.page_table = s.page_table.set f e) (hfl : f < s.page_table.length)
    (hfN : f < cfg.size_of_memory)
    (hep : e.page_num = p) (hef : e.free = 0) (hem : e.modified = s.lru_mod)
    (hst : lru_stamped cfg s) (hd : pages_distinct t.page_table cfg.size_of_memory)
    (hm : m.Nodup) (hpm : p ∉ m) (hpw : m.Pairwise (older cfg s))
    (hocc : occupied_below t.page_table cfg.size_of_memory (m.length + 1))
    (hmem : ∀ q, q ∈ m ↔ ∃ j, j < cfg.size_of_memory ∧ j ≠ f ∧
      (entry s.page_table j).free = 0 ∧ (entry s.page_table j).page_num = q) :
    lru_rel cfg t (m ++ [p]) := by
  have hfe : entry t.page_table f = e := by rw [ht]; exact entry_set_self _ _ _ hfl
  have hother : ∀ j, j ≠ f → entry t.page_table j = entry s.page_table j := by
    intro j hj
    rw [ht]; exact entry_set_other _ _ _ _ (fun e => hj e.symm)
  refine ⟨?_, ?_, ?_, ?_⟩
  · exact List.nodup_append.mpr ⟨hm, List.nodup_singleton p, List.disjoint_singleton.mpr hpm⟩
  · rw [List.length_append, List.length_singleton]; exact hocc
  · intro q
    rw [List.mem_append, List.mem_singleton, hmem q]
    constructor
    · rintro (⟨j, hj, hjf, h1, h2⟩ | hq)
      · exact ⟨j, hj, by rw [hother j hjf]; exact h1, by rw [hother j hjf]; exact h2⟩
      · exact ⟨f, hfN, by rw [hfe]; exact hef, by rw [hfe, hq]; exact hep⟩
    · rintro ⟨j, hj, h1, h2⟩
      by_cases hjf : j = f
      · right
        rw [hjf, hfe] at h2
        rw [← h2, hep]
      · left
        rw [hother j hjf] at h1 h2
        exact ⟨j, hj, hjf, h1, h2⟩
  · rw [List.pairwise_append]
    refine ⟨?_, List.pairwise_singleton _ _, ?_⟩
    · refine List.Pairwise.imp_of_mem ?_ hpw
      intro a b ha hb hab
      exact older_kept cfg s t f e p a b ht hfl hep (fun hx => hpm (hx ▸ ha))
        (fun hx => hpm (hx ▸ hb)) hab
    · intro a ha b hb
      rw [List.mem_singleton] at hb
      rw [hb]
      exact older_than_new cfg s t f e p a ht hfl hfN hep hef hem (fun hx => hpm (hx ▸ ha)) hst hd

/-- The pages of the frames other than an occupied frame `f` are the list without
the page of `f`. -/
theorem mem_erase_frame (cfg : Config) (s : State) (l : List Int) (f : Nat)
    (hd : pages_distinct s.page_table cfg.size_of_memory) (h : lru_rel cfg s l)
    (hfN : f < cfg.size_of_memory) (hfo : (entry s.page_table f).free = 0) (q : Int) :
    q ∈ l.erase (entry s.page_table f).page_num ↔
      ∃ j, j < cfg.size_of_memory ∧ j ≠ f ∧
        (entry s.page_table j).free = 0 ∧ (entry s.page_table j).page_num = q := by
  obtain ⟨n1, _, n3, _⟩ := h
  rw [n1.mem_erase_iff, n3 q]
  constructor
  · rintro ⟨hne, j, hj, h1, h2⟩
    exact ⟨j, hj, fun hx => hne (by rw [← h2, hx]), h1, h2⟩
  · rintro ⟨j, hj, hjf, h1, h2⟩
    exact ⟨fun hx => hd j f hj hfN hjf h1 hfo (by rw [h2, hx]), j, hj, h1, h2⟩

/-- A write that restamps an occupied frame `f` and puts page `p` there, `p` being
the page of `f` or a page that is not resident. -/
theorem lru_rel_touch (cfg : Config) (s t : State) (l : List Int) (f : Nat)
    (e : page_table_entry) (p : Int)
    (ht : t.page_table = s.page_table.set f e) (hfl : f < s.page_table.length)
    (hfN : f < cfg.size_of_memory) (hfo : (entry s.page_table f).free = 0)
    (hep : e.page_num = p) (hef : e.free = 0) (hem : e.modified = s.lru_mod)
    (hst : lru_stamped cfg s) (hds : pages_distinct s.page_table cfg.size_of_memory)
    (hd : pages_distinct t.page_table cfg.size_of_memory) (h : lru_rel cfg s l)
    (hp : p = (entry s.page_table f).page_num ∨ p ∉ l) :
    lru_rel cfg t (l.erase (entry s.page_table f).page_num ++ [p]) := by
  have hmemf : (entry s.page_table f).page_num ∈ l := (h.2.2.1 _).mpr ⟨f, hfN, hfo, rfl⟩
  have hlen : (l.erase (entry s.page_table f).page_num).length + 1 = l.length := by
    rw [List.length_erase_of_mem hmemf]
    have : 0 < l.length := List.length_pos_of_mem hmemf
    omega
  apply lru_rel_append cfg s t f e p _ ht hfl hfN hep hef hem hst hd
  · exact h.1.erase _
  · rcases hp with hp | hp
    · rw [hp]; exact h.1.not_mem_erase
    · exact fun hx => hp (List.mem_of_mem_erase hx)
  · exact h.2.2.2.sublist (List.erase_sublist _ _)
  · rw [hlen]
    refine occupied_below_congr s.page_table _ _ _ (fun j => ?_) h.2.1
    rw [ht, entry_set]
    split
    · rename_i hh; rw [← hh.1, hef, hfo]
    · rfl
  · exact mem_erase_frame cfg s l f hds h hfN hfo

/-- On a full table a frame of minimal `modified` holds the page at the front of the
list, and every other frame has a strictly larger `modified`. -/
theorem lru_victim_is_front (cfg : Config) (s : State) (l : List Int) (g : Nat)
    (hd : pages_distinct s.page_table cfg.size_of_memory) (h : lru_rel cfg s l)
    (hfull : ∀ j, j < cfg.size_of_memory → (entry s.page_table j).free = 0)
    (hg : g < cfg.size_of_memory)
    (hmin : ∀ j, j < cfg.size_of_memory →
      (entry s.page_table g).modified ≤ (entry s.page_table j).modified) :
    l = (entry s.page_table g).page_num :: l.drop 1 ∧
    ∀ j, j < cfg.size_of_memory → j ≠ g →
      (entry s.page_table g).modified < (entry s.page_table j).modified := by
  obtain ⟨n1, _, n3, n4⟩ := h
  have hmem : (entry s.page_table g).page_num ∈ l := (n3 _).mpr ⟨g, hg, hfull g hg, rfl⟩
  cases l with
  | nil => simp at hmem
  | cons a tl =>
    rw [List.pairwise_cons] at n4
    have hhead : (entry s.page_table g).page_num = a := by
      rcases List.mem_cons.mp hmem with hx | hx
      · exact hx
      · obtain ⟨i, hi, fi, pi⟩ := (n3 a).mp (List.mem_cons_self a tl)
        have := n4.1 _ hx i g hi hg fi (hfull g hg) pi rfl
        have := hmin i hi
        omega
    refine ⟨by rw [hhead]; rfl, ?_⟩
    intro j hj hjg
    have hne : (entry s.page_table j).page_num ≠ a := by
      rw [← hhead]
      exact hd j g hj hg hjg (hfull j hj) (hfull g hg)
    have hjm : (entry s.page_table j).page_num ∈ a :: tl :=
      (n3 _).mpr ⟨j, hj, hfull j hj, rfl⟩
    rcases List.mem_cons.mp hjm with hx | hx
    · exact absurd hx hne
    · exact n4.1 _ hx g j hg hj (hfull g hg) (hfull j hj) hhead rfl

/-- One call under LRU against one access of the reference simulator. -/
theorem lru_rel_step (cfg : Config) (hs : cfg.page_replacement_scheme = REPLACE_LRU)
    (hN : 0 < cfg.size_of_memory) (s : State) (st : List Int × Nat) (logical memwrite : Int)
    (hr : in_range cfg s) (hd : pages_distinct s.page_table cfg.size_of_memory)
    (hst : lru_stamped cfg s) (h : lru_rel cfg s st.1)
    (hfaults : s.page_faults = (st.2 : Int)) :
    lru_rel cfg (resolve_address cfg s logical memwrite).2
      (reference_lru_step cfg.size_of_memory st (logical >>> cfg.size_of_frame)).1 ∧
    (resolve_address cfg s logical memwrite).2.page_faults
      = ((reference_lru_step cfg.size_of_memory st (logical >>> cfg.size_of_frame)).2 : Int) := by
  have hd2 := pages_distinct_resolve cfg s logical memwrite hd
  have hlen := hr.1
  by_cases hp : find_page s.page_table (logical >>> cfg.size_of_frame) 0 cfg.size_of_memory = -1
  · have hnot : ¬ (logical >>> cfg.size_of_frame) ∈ st.1 := by
      intro hx
      exact find_page_of_resident _ _ _ ((h.2.2.1 _).mp hx) hp
    by_cases hf : find_free s.page_table 0 cfg.size_of_memory = -1
    · have hfull : ∀ j, j < cfg.size_of_memory → (entry s.page_table j).free = 0 :=
        fun j hj => (find_free_neg_one_iff _ _ _).mp hf j (Nat.zero_le j) (by omega)
      have hk : st.1.length = cfg.size_of_memory := occupied_below_full _ _ _ h.2.1 hfull
      obtain ⟨g, e1, e2, e3, _⟩ := lru_scan_min s.page_table cfg.size_of_memory hN
      obtain ⟨hfront, _⟩ := lru_victim_is_front cfg s st.1 g hd h hfull e2 e3
      have hdrop : st.1.drop 1 = st.1.erase (entry s.page_table g).page_num := by
        conv_rhs => rw [hfront]
        rw [List.erase_cons_head]
      rw [resolve_address_lru cfg s logical memwrite g hs hp hf e1] at hd2 ⊢
      unfold reference_lru_step
      rw [if_neg hnot, if_neg (by omega), hdrop]
      refine ⟨?_, by simp only; rw [hfaults]; push_cast; ring⟩
      exact lru_rel_touch cfg s _ st.1 g _ (logical >>> cfg.size_of_frame) rfl (by omega) e2
        (hfull g e2) rfl rfl rfl hst hd hd2 h (Or.inr hnot)
    · obtain ⟨f, e1, _, e3, e4, e5⟩ := find_free_found _ 0 _ hf
      have hfk : f = st.1.length :=
        first_free_of_below _ _ _ _ h.2.1 (by omega) e4 (fun j hj => e5 j (Nat.zero_le j) hj)
      have hlt : st.1.length < cfg.size_of_memory := by omega
      rw [resolve_address_load cfg s logical memwrite f hp e1] at hd2 ⊢
      unfold reference_lru_step
      rw [if_neg hnot, if_pos hlt]
      refine ⟨?_, by simp only; rw [hfaults]; push_cast; ring⟩
      apply lru_rel_append cfg s _ f _ (logical >>> cfg.size_of_frame) st.1 rfl (by omega)
        (by omega) rfl rfl (by simp only [hs, if_true]) hst hd2 h.1 hnot h.2.2.2
      · rw [← hfk]
        refine occupied_below_load _ _ _ _ ?_ (by omega) (by omega) rfl
        rw [hfk]; exact h.2.1
      · intro q
        rw [h.2.2.1 q]
        constructor
        · rintro ⟨j, hj, h1, h2⟩
          exact ⟨j, hj, fun hx => e4 (hx ▸ h1), h1, h2⟩
        · rintro ⟨j, hj, _, h1, h2⟩
          exact ⟨j, hj, h1, h2⟩
  · obtain ⟨f, e1, _, e3, e4, e5, _⟩ := find_page_found _ _ 0 _ hp
    have hin : (logical >>> cfg.size_of_frame) ∈ st.1 := (h.2.2.1 _).mpr ⟨f, by omega, e4, e5⟩
    rw [resolve_address_hit cfg s logical memwrite f e1] at hd2 ⊢
    unfold reference_lru_step
    rw [if_pos hin]
    simp only [hs, if_true] at hd2 ⊢
    refine ⟨?_, hfaults⟩
    have := lru_rel_touch cfg s
      { s with
        page_table := s.page_table.set f { entry s.page_table f with modified := s.lru_mod }
        lru_mod := s.lru_mod + 1
        swap_ins := s.swap_ins + 1 }
      st.1 f { entry s.page_table f with modified := s.lru_mod }
      (logical >>> cfg.size_of_frame) rfl (by omega) (by omega) e4 e5 e4 rfl hst hd hd2 h
      (Or.inl e5.symm)
    rw [e5] at this
    exact this

theorem lru_rel_run (cfg : Config) (hs : cfg.page_replacement_scheme = REPLACE_LRU)
    (hN : 0 < cfg.size_of_memory) (trace : List (Int × Int)) (s : State) (st : List Int × Nat)
    (hr : in_range cfg s) (hd : pages_distinct s.page_table cfg.size_of_memory)
    (hst : lru_stamped cfg s) (h : lru_rel cfg s st.1)
    (hfaults : s.page_faults = (st.2 : Int)) :
    lru_rel cfg (run cfg s trace)
      ((trace.map (page_of cfg)).foldl (reference_lru_step cfg.size_of_memory) st).1 ∧
    (run cfg s trace).page_faults
      = (((trace.map (page_of cfg)).foldl (reference_lru_step cfg.size_of_memory) st).2 : Int) := by
  induction trace generalizing s st with
  | nil => exact ⟨h, hfaults⟩
  | cons c t ih =>
    obtain ⟨g1, g2⟩ := lru_rel_step cfg hs hN s st c.1 c.2 hr hd hst h hfaults
    rw [run_cons, List.map_cons, List.foldl_cons]
    exact ih (main_step cfg s c) _ (in_range_main_step cfg hN s c hr)
      (pages_distinct_main_step cfg s c hd) (lru_stamped_main_step cfg s c hs hN hr hst) g1 g2

theorem lru_rel_setup (cfg : Config) (raw : List page_table_entry)
    (hraw : raw.length = cfg.size_of_memory) : lru_rel cfg (setup cfg raw) [] := by
  have hfree : ∀ j, j < cfg.size_of_memory →
      ¬ (entry (setup cfg raw).page_table j).free = 0 := by
    intro j hj hx
    rw [setup_free cfg raw hraw j hj] at hx
    exact absurd hx (by decide)
  refine ⟨List.nodup_nil, ⟨Nat.zero_le _, fun j hj => ?_⟩, fun p => ?_, List.Pairwise.nil⟩
  · constructor
    · intro hx; exact absurd hx (hfree j hj)
    · intro hx; simp at hx
  · constructor
    · intro hx; simp at hx
    · rintro ⟨j, hj, hx, _⟩; exact absurd hx (hfree j hj)

/-! ## C18 -/

/-- C18. Under LRU, in every state reached from `setup` by a trace: the `modified`
stamps of the occupied entries are pairwise distinct and below `lru_mod`; `lru_mod`
is the number of accesses and the stamp of an occupied entry is the position in the
trace of the last access to its page; the list of the reference LRU simulator run on
the pages of the trace has no repetition, holds exactly the resident pages, is in
the order of the stamps, and its fault count is `page_faults`; and a miss on a full
table overwrites the one frame of least stamp, every other stamp being strictly
larger, whose page is the front of the reference list. -/
theorem lru_refines_reference_list (cfg : Config) (raw : List page_table_entry)
    (trace : List (Int × Int))
    (hs : cfg.page_replacement_scheme = REPLACE_LRU) (hN : 1 ≤ cfg.size_of_memory)
    (hraw : raw.length = cfg.size_of_memory) :
    (∀ i j, i < cfg.size_of_memory → j < cfg.size_of_memory → i ≠ j →
      (entry (run cfg (setup cfg raw) trace).page_table i).free = 0 →
      (entry (run cfg (setup cfg raw) trace).page_table j).free = 0 →
      (entry (run cfg (setup cfg raw) trace).page_table i).modified
        ≠ (entry (run cfg (setup cfg raw) trace).page_table j).modified) ∧
    (∀ j, j < cfg.size_of_memory →
      (entry (run cfg (setup cfg raw) trace).page_table j).free = 0 →
      (entry (run cfg (setup cfg raw) trace).page_table j).modified
        < (run cfg (setup cfg raw) trace).lru_mod) ∧
    (run cfg (setup cfg raw) trace).lru_mod = (trace.length : Int) ∧
    (∀ j, j < cfg.size_of_memory →
      (entry (run cfg (setup cfg raw) trace).page_table j).free = 0 →
      ∃ m : Nat, (entry (run cfg (setup cfg raw) trace).page_table j).modified = (m : Int) ∧
        (trace.map (page_of cfg))[m]?
          = some (entry (run cfg (setup cfg raw) trace).page_table j).page_num ∧
        ∀ i, m < i → (trace.map (page_of cfg))[i]?
          ≠ some (entry (run cfg (setup cfg raw) trace).page_table j).page_num) ∧
    (reference_lru cfg.size_of_memory (trace.map (page_of cfg))).1.Nodup ∧
    (∀ page : Int, resident cfg (run cfg (setup cfg raw) trace) page = true ↔
      page ∈ (reference_lru cfg.size_of_memory (trace.map (page_of cfg))).1) ∧
    (reference_lru cfg.size_of_memory (trace.map (page_of cfg))).1.Pairwise
      (older cfg (run cfg (setup cfg raw) trace)) ∧
    (run cfg (setup cfg raw) trace).page_faults
      = ((reference_lru cfg.size_of_memory (trace.map (page_of cfg))).2 : Int) ∧
    (∀ logical memwrite : Int,
      (∀ j, j < cfg.size_of_memory →
        ¬((entry (run cfg (setup cfg raw) trace).page_table j).free = 0 ∧
          (entry (run cfg (setup cfg raw) trace).page_table j).page_num
            = logical >>> cfg.size_of_frame)) →
      (∀ j, j < cfg.size_of_memory →
        (entry (run cfg (setup cfg raw) trace).page_table j).free = 0) →
      ∃ v : Nat, v < cfg.size_of_memory ∧
        (∀ j, j < cfg.size_of_memory → j ≠ v →
          (entry (run cfg (setup cfg raw) trace).page_table v).modified
            < (entry (run cfg (setup cfg raw) trace).page_table j).modified) ∧
        (reference_lru cfg.size_of_memory (trace.map (page_of cfg))).1.head?
          = some (entry (run cfg (setup cfg raw) trace).page_table v).page_num ∧
        (resolve_address cfg (run cfg (setup cfg raw) trace) logical memwrite).2.page_table
          = (run cfg (setup cfg raw) trace).page_table.set v
              { entry (run cfg (setup cfg raw) trace).page_table v with
                page_num := logical >>> cfg.size_of_frame, free := FALSE,
                modified := (run cfg (setup cfg raw) trace).lru_mod }) := by
  have hr := in_range_run cfg hN raw hraw trace
  have hd := pages_distinct_run cfg raw hraw trace
  have hst := lru_stamped_run cfg raw hs hN hraw trace
  have hfree0 : ∀ j, j < cfg.size_of_memory →
      ¬ (entry (setup cfg raw).page_table j).free = 0 := by
    intro j hj hx
    rw [setup_free cfg raw hraw j hj] at hx
    exact absurd hx (by decide)
  have hpos := stamps_run cfg hs hN trace (setup cfg raw) []
    (in_range_setup cfg raw hN hraw) (pages_distinct_setup cfg raw hraw)
    ⟨rfl, fun j hj hx => absurd hx (hfree0 j hj)⟩
  rw [List.nil_append] at hpos
  obtain ⟨p1, p2⟩ := hpos
  obtain ⟨g1, g2⟩ := lru_rel_run cfg hs hN trace (setup cfg raw) ([], 0)
    (in_range_setup cfg raw hN hraw) (pages_distinct_setup cfg raw hraw)
    (fun j hj hx => absurd hx (hfree0 j hj)) (lru_rel_setup cfg raw hraw) rfl
  have hq : (List.map (page_of cfg) trace).foldl (reference_lru_step cfg.size_of_memory) ([], 0)
      = reference_lru cfg.size_of_memory (trace.map (page_of cfg)) := rfl
  rw [hq] at g1 g2
  refine ⟨?_, hst, by rw [p1]; simp, p2, g1.1, ?_, g1.2.2.2, g2, ?_⟩
  · intro i j hi hj hij fi fj heq
    obtain ⟨m, m1, m2, _⟩ := p2 i hi fi
    obtain ⟨k, k1, k2, _⟩ := p2 j hj fj
    have hmk : m = k := by
      have : (m : Int) = (k : Int) := by rw [← m1, ← k1, heq]
      exact_mod_cast this
    rw [hmk, k2] at m2
    exact hd i j hi hj hij fi fj (Option.some.inj m2).symm
  · intro page
    rw [resident_iff, g1.2.2.1 page]
  · intro logical memwrite hmiss hfull
    have hp : find_page (run cfg (setup cfg raw) trace).page_table
        (logical >>> cfg.size_of_frame) 0 cfg.size_of_memory = -1 :=
      (find_page_neg_one_iff _ _ _ _).mpr (fun j _ hj => hmiss j (by omega))
    have hf : find_free (run cfg (setup cfg raw) trace).page_table 0 cfg.size_of_memory = -1 :=
      (find_free_neg_one_iff _ _ _).mpr (fun j _ hj => hfull j (by omega))
    obtain ⟨g, e1, e2, e3, _⟩ := lru_scan_min (run cfg (setup cfg raw) trace).page_table
      cfg.size_of_memory hN
    obtain ⟨hfront, hstrict⟩ := lru_victim_is_front cfg _ _ g hd g1 hfull e2 e3
    refine ⟨g, e2, hstrict, by rw [hfront]; rfl, ?_⟩
    rw [resolve_address_lru cfg _ logical memwrite g hs hp hf e1]

/-- C18 on two frames for the pages 0, 1, 0, 2, 1, 3: one hit, five faults, pages 1 and 3 stay, stamped 4 and 5. -/
theorem lru_refines_reference_list_witness :
    (((sample_cfg REPLACE_LRU).page_replacement_scheme = REPLACE_LRU) ∧
      (1 ≤ (sample_cfg REPLACE_LRU).size_of_memory) ∧
      (sample_raw.length = (sample_cfg REPLACE_LRU).size_of_memory)) ∧
    ((∀ i j, i < (sample_cfg REPLACE_LRU).size_of_memory → j < (sample_cfg REPLACE_LRU).size_of_memory → i ≠ j →
      (entry (run (sample_cfg REPLACE_LRU) (setup (sample_cfg REPLACE_LRU) sample_raw) (([(0x00, 0), (0x1c, 1), (0x04, 0), (0x20, 1), (0x11, 0), (0x30, 0)] : List (Int × Int)))).page_table i).free = 0 →
      (entry (run (sample_cfg REPLACE_LRU) (setup (sample_cfg REPLACE_LRU) sample_raw) (([(0x00, 0), (0x1c, 1), (0x04, 0), (0x20, 1), (0x11, 0), (0x30, 0)] : List (Int × Int)))).page_table j).free = 0 →
      (entry (run (sample_cfg REPLACE_LRU) (setup (sample_cfg REPLACE_LRU) sample_raw) (([(0x00, 0), (0x1c, 1), (0x04, 0), (0x20, 1), (0x11, 0), (0x30, 0)] : List (Int × Int)))).page_table i).modified
        ≠ (entry (run (sample_cfg REPLACE_LRU) (setup (sample_cfg REPLACE_LRU) sample_raw) (([(0x00, 0), (0x1c, 1), (0x04, 0), (0x20, 1), (0x11, 0), (0x30, 0)] : List (Int × Int)))).page_table j).modified) ∧
    (∀ j, j < (sample_cfg REPLACE_LRU).size_of_memory →
      (entry (run (sample_cfg REPLACE_LRU) (setup (sample_cfg REPLACE_LRU) sample_raw) (([(0x00, 0), (0x1c, 1), (0x04, 0), (0x20, 1), (0x11, 0), (0x30, 0)] : List (Int × Int)))).page_table j).free = 0 →
      (entry (run (sample_cfg REPLACE_LRU) (setup (sample_cfg REPLACE_LRU) sample_raw) (([(0x00, 0), (0x1c, 1), (0x04, 0), (0x20, 1), (0x11, 0), (0x30, 0)] : List (Int × Int)))).page_table j).modified
        < (run (sample_cfg REPLACE_LRU) (setup (sample_cfg REPLACE_LRU) sample_raw) (([(0x00, 0), (0x1c, 1), (0x04, 0), (0x20, 1), (0x11, 0), (0x30, 0)] : List (Int × Int)))).lru_mod) ∧
    (run (sample_cfg REPLACE_LRU) (setup (sample_cfg REPLACE_LRU) sample_raw) (([(0x00, 0), (0x1c, 1), (0x04, 0), (0x20, 1), (0x11, 0), (0x30, 0)] : List (Int × Int)))).lru_mod = ((([(0x00, 0), (0x1c, 1), (0x04, 0), (0x20, 1), (0x11, 0), (0x30, 0)] : List (Int × Int))).length : Int) ∧
    (∀ j, j < (sample_cfg REPLACE_LRU).size_of_memory →
      (entry (run (sample_cfg REPLACE_LRU) (setup (sample_cfg REPLACE_LRU) sample_raw) (([(0x00, 0), (0x1c, 1), (0x04, 0), (0x20, 1), (0x11, 0), (0x30, 0)] : List (Int × Int)))).page_table j).free = 0 →
      ∃ m : Nat, (entry (run (sample_cfg REPLACE_LRU) (setup (sample_cfg REPLACE_LRU) sample_raw) (([(0x00, 0), (0x1c, 1), (0x04, 0), (0x20, 1), (0x11, 0), (0x30, 0)] : List (Int × Int)))).page_table j).modified = (m : Int) ∧
        ((([(0x00, 0), (0x1c, 1), (0x04, 0), (0x20, 1), (0x11, 0), (0x30, 0)] : List (Int × Int))).map (page_of (sample_cfg REPLACE_LRU)))[m]?
          = some (entry (run (sample_cfg REPLACE_LRU) (setup (sample_cfg REPLACE_LRU) sample_raw) (([(0x00, 0), (0x1c, 1), (0x04, 0), (0x20, 1), (0x11, 0), (0x30, 0)] : List (Int × Int)))).page_table j).page_num ∧
        ∀ i, m < i → ((([(0x00, 0), (0x1c, 1), (0x04, 0), (0x20, 1), (0x11, 0), (0x30, 0)] : List (Int × Int))).map (page_of (sample_cfg REPLACE_LRU)))[i]?
          ≠ some (entry (run (sample_cfg REPLACE_LRU) (setup (sample_cfg REPLACE_LRU) sample_raw) (([(0x00, 0), (0x1c, 1), (0x04, 0), (0x20, 1), (0x11, 0), (0x30, 0)] : List (Int × Int)))).page_table j).page_num) ∧
    (reference_lru (sample_cfg REPLACE_LRU).size_of_memory ((([(0x00, 0), (0x1c, 1), (0x04, 0), (0x20, 1), (0x11, 0), (0x30, 0)] : List (Int × Int))).map (page_of (sample_cfg REPLACE_LRU)))).1.Nodup ∧
    (∀ page : Int, resident (sample_cfg REPLACE_LRU) (run (sample_cfg REPLACE_LRU) (setup (sample_cfg REPLACE_LRU) sample_raw) (([(0x00, 0), (0x1c, 1), (0x04, 0), (0x20, 1), (0x11, 0), (0x30, 0)] : List (Int × Int)))) page = true ↔
      page ∈ (reference_lru (sample_cfg REPLACE_LRU).size_of_memory ((([(0x00, 0), (0x1c, 1), (0x04, 0), (0x20, 1), (0x11, 0), (0x30, 0)] : List (Int × Int))).map (page_of (sample_cfg REPLACE_LRU)))).1) ∧
    (reference_lru (sample_cfg REPLACE_LRU).size_of_memory ((([(0x00, 0), (0x1c, 1), (0x04, 0), (0x20, 1), (0x11, 0), (0x30, 0)] : List (Int × Int))).map (page_of (sample_cfg REPLACE_LRU)))).1.Pairwise
      (older (sample_cfg REPLACE_LRU) (run (sample_cfg REPLACE_LRU) (setup (sample_cfg REPLACE_LRU) sample_raw) (([(0x00, 0), (0x1c, 1), (0x04, 0), (0x20, 1), (0x11, 0), (0x30, 0)] : List (Int × Int))))) ∧
    (run (sample_cfg REPLACE_LRU) (setup (sample_cfg REPLACE_LRU) sample_raw) (([(0x00, 0), (0x1c, 1), (0x04, 0), (0x20, 1), (0x11, 0), (0x30, 0)] : List (Int × Int)))).page_faults
      = ((reference_lru (sample_cfg REPLACE_LRU).size_of_memory ((([(0x00, 0), (0x1c, 1), (0x04, 0), (0x20, 1), (0x11, 0), (0x30, 0)] : List (Int × Int))).map (page_of (sample_cfg REPLACE_LRU)))).2 : Int) ∧
    (∀ logical memwrite : Int,
      (∀ j, j < (sample_cfg REPLACE_LRU).size_of_memory →
        ¬((entry (run (sample_cfg REPLACE_LRU) (setup (sample_cfg REPLACE_LRU) sample_raw) (([(0x00, 0), (0x1c, 1), (0x04, 0), (0x20, 1), (0x11, 0), (0x30, 0)] : List (Int × Int)))).page_table j).free = 0 ∧
          (entry (run (sample_cfg REPLACE_LRU) (setup (sample_cfg REPLACE_LRU) sample_raw) (([(0x00, 0), (0x1c, 1), (0x04, 0), (0x20, 1), (0x11, 0), (0x30, 0)] : List (Int × Int)))).page_table j).page_num
            = logical >>> (sample_cfg REPLACE_LRU).size_of_frame)) →
      (∀ j, j < (sample_cfg REPLACE_LRU).size_of_memory →
        (entry (run (sample_cfg REPLACE_LRU) (setup (sample_cfg REPLACE_LRU) sample_raw) (([(0x00, 0), (0x1c, 1), (0x04, 0), (0x20, 1), (0x11, 0), (0x30, 0)] : List (Int × Int)))).page_table j).free = 0) →
      ∃ v : Nat, v < (sample_cfg REPLACE_LRU).size_of_memory ∧
        (∀ j, j < (sample_cfg REPLACE_LRU).size_of_memory → j ≠ v →
          (entry (run (sample_cfg REPLACE_LRU) (setup (sample_cfg REPLACE_LRU) sample_raw) (([(0x00, 0), (0x1c, 1), (0x04, 0), (0x20, 1), (0x11, 0), (0x30, 0)] : List (Int × Int)))).page_table v).modified
            < (entry (run (sample_cfg REPLACE_LRU) (setup (sample_cfg REPLACE_LRU) sample_raw) (([(0x00, 0), (0x1c, 1), (0x04, 0), (0x20, 1), (0x11, 0), (0x30, 0)] : List (Int × Int)))).page_table j).modified) ∧
        (reference_lru (sample_cfg REPLACE_LRU).size_of_memory ((([(0x00, 0), (0x1c, 1), (0x04, 0), (0x20, 1), (0x11, 0), (0x30, 0)] : List (Int × Int))).map (page_of (sample_cfg REPLACE_LRU)))).1.head?
          = some (entry (run (sample_cfg REPLACE_LRU) (setup (sample_cfg REPLACE_LRU) sample_raw) (([(0x00, 0), (0x1c, 1), (0x04, 0), (0x20, 1), (0x11, 0), (0x30, 0)] : List (Int × Int)))).page_table v).page_num ∧
        (resolve_address (sample_cfg REPLACE_LRU) (run (sample_cfg REPLACE_LRU) (setup (sample_cfg REPLACE_LRU) sample_raw) (([(0x00, 0), (0x1c, 1), (0x04, 0), (0x20, 1), (0x11, 0), (0x30, 0)] : List (Int × Int)))) logical memwrite).2.page_table
          = (run (sample_cfg REPLACE_LRU) (setup (sample_cfg REPLACE_LRU) sample_raw) (([(0x00, 0), (0x1c, 1), (0x04, 0), (0x20, 1), (0x11, 0), (0x30, 0)] : List (Int × Int)))).page_table.set v
              { entry (run (sample_cfg REPLACE_LRU) (setup (sample_cfg REPLACE_LRU) sample_raw) (([(0x00, 0), (0x1c, 1), (0x04, 0), (0x20, 1), (0x11, 0), (0x30, 0)] : List (Int × Int)))).page_table v with
                page_num := logical >>> (sample_cfg REPLACE_LRU).size_of_frame, free := FALSE,
                modified := (run (sample_cfg REPLACE_LRU) (setup (sample_cfg REPLACE_LRU) sample_raw) (([(0x00, 0), (0x1c, 1), (0x04, 0), (0x20, 1), (0x11, 0), (0x30, 0)] : List (Int × Int)))).lru_mod })) ∧
    (reference_lru 2 [0, 1, 0, 2, 1, 3] = ([1, 3], 5)) ∧
    ((run (sample_cfg REPLACE_LRU) (setup (sample_cfg REPLACE_LRU) sample_raw)
        [(0x00, 0), (0x1c, 1), (0x04, 0), (0x20, 1), (0x11, 0), (0x30, 0)]).page_table.map
          (fun e => (e.page_num, e.modified, e.free))
      = [(1, 4, 0), (3, 5, 0)]) ∧
    ((run (sample_cfg REPLACE_LRU) (setup (sample_cfg REPLACE_LRU) sample_raw)
        [(0x00, 0), (0x1c, 1), (0x04, 0), (0x20, 1), (0x11, 0), (0x30, 0)]).page_faults = 5) :=
  ⟨⟨rfl, by decide, rfl⟩,
    lru_refines_reference_list (sample_cfg REPLACE_LRU) sample_raw (([(0x00, 0), (0x1c, 1), (0x04, 0), (0x20, 1), (0x11, 0), (0x30, 0)] : List (Int × Int)))
      (rfl) (by decide) (rfl),
    by decide,
    by decide,
    by decide⟩


/-! ## The account of faults -/

/-- One call keeps the account of faults. -/
theorem fault_account_resolve (cfg : Config) (s : State) (logical memwrite : Int)
    (hs : scheme_implemented cfg) (k : Nat)
    (hb : occupied_below s.page_table cfg.size_of_memory k)
    (h1 : s.page_faults = k + s.swap_outs)
    (h2 : k < cfg.size_of_memory → s.swap_outs = 0)
    (h3 : cfg.page_replacement_scheme = REPLACE_FIFO → s.swap_ins = s.swap_outs) :
    ∃ k2 : Nat, k ≤ k2 ∧
      occupied_below (resolve_address cfg s logical memwrite).2.page_table cfg.size_of_memory k2 ∧
      (resolve_address cfg s logical memwrite).2.page_faults
        = k2 + (resolve_address cfg s logical memwrite).2.swap_outs ∧
      (k2 < cfg.size_of_memory → (resolve_address cfg s logical memwrite).2.swap_outs = 0) ∧
      (cfg.page_replacement_scheme = REPLACE_FIFO →
        (resolve_address cfg s logical memwrite).2.swap_ins
          = (resolve_address cfg s logical memwrite).2.swap_outs) := by
  have n12 : ¬ REPLACE_FIFO = REPLACE_LRU := by decide
  have n13 : ¬ REPLACE_FIFO = REPLACE_CLOCK := by decide
  have n21 : ¬ REPLACE_LRU = REPLACE_FIFO := by decide
  have n31 : ¬ REPLACE_CLOCK = REPLACE_FIFO := by decide
  apply resolve_address_cases cfg s logical memwrite
    (fun r => ∃ k2 : Nat, k ≤ k2 ∧
      occupied_below r.2.page_table cfg.size_of_memory k2 ∧
      r.2.page_faults = k2 + r.2.swap_outs ∧
      (k2 < cfg.size_of_memory → r.2.swap_outs = 0) ∧
      (cfg.page_replacement_scheme = REPLACE_FIFO → r.2.swap_ins = r.2.swap_outs))
  · intro f _ _ _ _
    refine ⟨k, le_refl k, ?_, ?_, ?_, ?_⟩
    · split_ifs
      · refine occupied_below_congr s.page_table _ _ _ (fun j => ?_) hb
        simp only [entry_set]; split
        · rename_i hh; rw [← hh.1]
        · rfl
      · refine occupied_below_congr s.page_table _ _ _ (fun j => ?_) hb
        simp only [entry_set]; split
        · rename_i hh; rw [← hh.1]
        · rfl
      · exact hb
      · exact hb
    · split_ifs <;> exact h1
    · split_ifs <;> exact h2
    · intro hf
      simp only [hf, n12, n13, if_false]
      exact h3 hf
  · intro f hf hl _ _ e4 e5
    have hfk : f = k := first_free_of_below _ _ _ _ hb hf e4 e5
    subst hfk
    refine ⟨f + 1, by omega, occupied_below_load _ _ _ _ hb hf hl rfl, ?_, ?_, ?_⟩
    · simp only; rw [h1]; push_cast; ring
    · intro hx; exact h2 (by omega)
    · exact h3
  · intro _ _ hf
    have hfull : ∀ j, j < cfg.size_of_memory → (entry s.page_table j).free = 0 :=
      fun j hj => (find_free_neg_one_iff _ _ _).mp hf j (Nat.zero_le j) (by omega)
    have hk := occupied_below_full _ _ _ hb hfull
    refine ⟨cfg.size_of_memory, by omega, occupied_below_replace _ _ _ _ hfull rfl, ?_, ?_, ?_⟩
    · simp only; rw [h1, hk]; ring
    · intro hx; omega
    · intro hx; simp only; rw [h3 hx]
  · intro f hlru _ hf _
    have hfull : ∀ j, j < cfg.size_of_memory → (entry s.page_table j).free = 0 :=
      fun j hj => (find_free_neg_one_iff _ _ _).mp hf j (Nat.zero_le j) (by omega)
    have hk := occupied_below_full _ _ _ hb hfull
    refine ⟨cfg.size_of_memory, by omega, occupied_below_replace _ _ _ _ hfull rfl, ?_, ?_, ?_⟩
    · simp only; rw [h1, hk]; ring
    · intro hx; omega
    · intro hx; exact absurd (hlru.symm.trans hx) n21
  · intro f hclock _ hf _
    have hfull : ∀ j, j < cfg.size_of_memory → (entry s.page_table j).free = 0 :=
      fun j hj => (find_free_neg_one_iff _ _ _).mp hf j (Nat.zero_le j) (by omega)
    have hk := occupied_below_full _ _ _ hb hfull
    have hfields := clock_loop_fields cfg.size_of_memory s.page_table s.clock_hand s.swap_ins
    refine ⟨cfg.size_of_memory, by omega,
      occupied_below_replace _ _ _ _
        (fun j hj => by rw [(hfields j).2.1]; exact hfull j hj) rfl, ?_, ?_, ?_⟩
    · simp only; rw [h1, hk]; ring
    · intro hx; omega
    · intro hx; exact absurd (hclock.symm.trans hx) n31
  · intro a b c _ _
    rcases hs with hs | hs | hs
    · exact absurd hs a
    · exact absurd hs b
    · exact absurd hs c

theorem fault_account_run (cfg : Config) (raw : List page_table_entry)
    (hs : scheme_implemented cfg) (hraw : raw.length = cfg.size_of_memory)
    (trace : List (Int × Int)) : fault_account cfg (run cfg (setup cfg raw) trace) := by
  apply run_invariant cfg (fault_account cfg)
  · intro s l w ⟨k, hb, h1, h2, h3⟩
    obtain ⟨k2, _, r⟩ := fault_account_resolve cfg s l w hs k hb h1 h2 h3
    exact ⟨k2, r⟩
  · intro s h; exact h
  · refine ⟨0, ⟨Nat.zero_le _, fun j hj => ?_⟩, rfl, fun _ => rfl, fun _ => rfl⟩
    rw [setup_free cfg raw hraw j hj]
    constructor
    · intro hx; exact absurd hx (by decide)
    · intro hx; omega

/-- C20. The write flag has no influence: for every configuration, state and
logical address, `resolve_address` returns the same value and leaves the same
globals whatever `memwrite` is, so two traces with the same addresses and different
R/W markers give the same physical addresses and the same final globals. -/
theorem write_flag_ignored (cfg : Config) (s : State) (logical w1 w2 : Int)
    (t1 t2 : List (Int × Int)) (hsame : t1.map Prod.fst = t2.map Prod.fst) :
    resolve_address cfg s logical 0 = resolve_address cfg s logical 1 ∧
    resolve_address cfg s logical w1 = resolve_address cfg s logical w2 ∧
    outputs cfg s t1 = outputs cfg s t2 ∧
    run cfg s t1 = run cfg s t2 := by
  have hcall : ∀ (s : State) (l a b : Int),
      resolve_address cfg s l a = resolve_address cfg s l b := fun _ _ _ _ => rfl
  refine ⟨hcall s logical 0 1, hcall s logical w1 w2, ?_, ?_⟩
  · induction t1 generalizing t2 s with
    | nil =>
      cases t2 with
      | nil => rfl
      | cons d u => simp at hsame
    | cons c t ih =>
      cases t2 with
      | nil => simp at hsame
      | cons d u =>
        simp only [List.map_cons, List.cons.injEq] at hsame
        obtain ⟨h1, h2⟩ := hsame
        have hstep : main_step cfg s c = main_step cfg s d := by
          unfold main_step; rw [h1, hcall s d.1 c.2 d.2]
        rw [outputs, outputs, h1, hcall s d.1 c.2 d.2, hstep, ih _ u h2]
  · induction t1 generalizing t2 s with
    | nil =>
      cases t2 with
      | nil => rfl
      | cons d u => simp at hsame
    | cons c t ih =>
      cases t2 with
      | nil => simp at hsame
      | cons d u =>
        simp only [List.map_cons, List.cons.injEq] at hsame
        obtain ⟨h1, h2⟩ := hsame
        have hstep : main_step cfg s c = main_step cfg s d := by
          unfold main_step; rw [h1, hcall s d.1 c.2 d.2]
        rw [run_cons, run_cons, hstep, ih _ u h2]

/-- C20 for two three-line traces with the same addresses and different R/W markers. -/
theorem write_flag_ignored_witness :
    ((([(0x05, 0), (0x1f, 0), (0x2b, 0)] : List (Int × Int))).map Prod.fst = (([(0x05, 1), (0x1f, 0), (0x2b, 1)] : List (Int × Int))).map Prod.fst) ∧
    (resolve_address (sample_cfg REPLACE_CLOCK) (setup (sample_cfg REPLACE_CLOCK) sample_raw) ((0x1a : Int)) 0 = resolve_address (sample_cfg REPLACE_CLOCK) (setup (sample_cfg REPLACE_CLOCK) sample_raw) ((0x1a : Int)) 1 ∧
    resolve_address (sample_cfg REPLACE_CLOCK) (setup (sample_cfg REPLACE_CLOCK) sample_raw) ((0x1a : Int)) 0 = resolve_address (sample_cfg REPLACE_CLOCK) (setup (sample_cfg REPLACE_CLOCK) sample_raw) ((0x1a : Int)) 1 ∧
    outputs (sample_cfg REPLACE_CLOCK) (setup (sample_cfg REPLACE_CLOCK) sample_raw) (([(0x05, 0), (0x1f, 0), (0x2b, 0)] : List (Int × Int))) = outputs (sample_cfg REPLACE_CLOCK) (setup (sample_cfg REPLACE_CLOCK) sample_raw) (([(0x05, 1), (0x1f, 0), (0x2b, 1)] : List (Int × Int))) ∧
    run (sample_cfg REPLACE_CLOCK) (setup (sample_cfg REPLACE_CLOCK) sample_raw) (([(0x05, 0), (0x1f, 0), (0x2b, 0)] : List (Int × Int))) = run (sample_cfg REPLACE_CLOCK) (setup (sample_cfg REPLACE_CLOCK) sample_raw) (([(0x05, 1), (0x1f, 0), (0x2b, 1)] : List (Int × Int)))) :=
  ⟨by decide,
    write_flag_ignored (sample_cfg REPLACE_CLOCK) (setup (sample_cfg REPLACE_CLOCK) sample_raw) ((0x1a : Int)) 0 1 (([(0x05, 0), (0x1f, 0), (0x2b, 0)] : List (Int × Int))) (([(0x05, 1), (0x1f, 0), (0x2b, 1)] : List (Int × Int)))
      (by decide)⟩


/-! ## Integers of 32 and 64 bits -/

theorem wrap_int_of_range (x : Int) (h : int_range x) : wrap_int x = x := by
  unfold int_range at h
  unfold wrap_int
  omega

theorem wrap_int_range (x : Int) : int_range (wrap_int x) := by
  unfold int_range wrap_int
  omega

theorem wrap_int_add (a d : Int) : wrap_int (wrap_int a + d) = wrap_int (a + d) := by
  unfold wrap_int
  omega

theorem wrap_long_of_range (x : Int) (h0 : -9223372036854775808 ≤ x)
    (h1 : x ≤ 9223372036854775807) : wrap_long x = x := by
  unfold wrap_long
  omega

/-! ## The CLOCK loop of the compiled program -/

theorem clock_loop_machine_eq (n : Nat) (pt : List page_table_entry) (h : Nat) (si : Int) :
    ∀ x : Int, wrap_int si = x →
      clock_loop_machine n pt h x =
        ((clock_loop n pt h si).1, (clock_loop n pt h si).2.1, (clock_loop n pt h si).2.2.1,
          wrap_int (clock_loop n pt h si).2.2.2) := by
  induction pt, h, si using clock_loop.induct n with
  | case1 pt h si hd =>
    intro x hx
    rw [clock_loop, if_pos hd, clock_loop_machine, if_pos hd, hx]
  | case2 pt h si hd ih =>
    intro x hx
    rw [clock_loop, if_neg hd, clock_loop_machine, if_neg hd]
    exact ih _ (by rw [← hx, wrap_int_add])

/-! ## The branches of `resolve_address_machine` -/

/-- The hit branch of the compiled program. -/
theorem resolve_address_machine_hit (cfg : Config) (s : State) (logical memwrite : Int) (f : Nat)
    (h : find_page s.page_table (shr_long logical cfg.size_of_frame) 0 cfg.size_of_memory
      = (f : Int)) :
    resolve_address_machine cfg s logical memwrite =
      (Int.lor (shl_long (f : Int) cfg.size_of_frame)
          (Int.land logical (mask_loop_machine cfg.size_of_frame 0)),
        if cfg.page_replacement_scheme = REPLACE_LRU then
          { s with
            page_table := s.page_table.set f { entry s.page_table f with modified := s.lru_mod }
            lru_mod := wrap_int (s.lru_mod + 1)
            swap_ins := wrap_int (s.swap_ins + 1) }
        else if cfg.page_replacement_scheme = REPLACE_CLOCK then
          if (entry s.page_table f).dirty = 0 then
            { s with
              page_table := s.page_table.set f { entry s.page_table f with dirty := 1 }
              swap_ins := wrap_int (s.swap_ins + 1) }
          else s
        else s) := by
  have hne : ((f : Int) ≠ -1) := by omega
  unfold resolve_address_machine
  simp only [h, hne, if_true, Int.toNat_ofNat, ne_eq, not_false_eq_true]
  by_cases h2 : cfg.page_replacement_scheme = REPLACE_LRU
  · have h3 : ¬ REPLACE_LRU = REPLACE_CLOCK := by decide
    simp only [h2, h3, if_true, if_false]
  · simp only [h2, if_false]

/-- The branch of the compiled program that loads into a free frame. -/
theorem resolve_address_machine_load (cfg : Config) (s : State) (logical memwrite : Int)
    (f : Nat)
    (hmiss : find_page s.page_table (shr_long logical cfg.size_of_frame) 0 cfg.size_of_memory
      = -1)
    (h : find_free s.page_table 0 cfg.size_of_memory = (f : Int)) :
    resolve_address_machine cfg s logical memwrite =
      (Int.lor (shl_long (f : Int) cfg.size_of_frame)
          (Int.land logical (mask_loop_machine cfg.size_of_frame 0)),
        { s with
          page_faults := wrap_int (s.page_faults + 1)
          page_table := s.page_table.set f
            { page_num := shr_long logical cfg.size_of_frame
              free := FALSE
              modified :=
                if cfg.page_replacement_scheme = REPLACE_LRU then s.lru_mod
                else (entry s.page_table f).modified
              dirty :=
                if cfg.page_replacement_scheme = REPLACE_CLOCK then 1
                else (entry s.page_table f).dirty }
          lru_mod :=
            if cfg.page_replacement_scheme = REPLACE_LRU then wrap_int (s.lru_mod + 1)
            else s.lru_mod }) := by
  have hne : ((f : Int) ≠ -1) := by omega
  have hfree : (entry s.page_table f).free ≠ 0 := by
    obtain ⟨g, e1, _, _, e4, _⟩ := find_free_found s.page_table 0 cfg.size_of_memory (by rw [h]; exact hne)
    have : g = f := by rw [h] at e1; exact_mod_cast e1.symm
    rw [← this]; exact e4
  have hlt : f < s.page_table.length := lt_length_of_free_ne _ _ hfree
  unfold resolve_address_machine
  simp only [hmiss, h, hne, if_true, if_false, Int.toNat_ofNat, ne_eq, not_false_eq_true,
    not_true_eq_false]
  by_cases h2 : cfg.page_replacement_scheme = REPLACE_LRU
  · have h3 : ¬ REPLACE_LRU = REPLACE_CLOCK := by decide
    simp only [h2, h3, if_true, if_false, entry_set_self _ _ _ hlt, List.set_set]
  · by_cases h3 : cfg.page_replacement_scheme = REPLACE_CLOCK
    · have h4 : ¬ REPLACE_CLOCK = REPLACE_LRU := by decide
      simp only [h3, h4, if_true, if_false, entry_set_self _ _ _ hlt, List.set_set]
    · simp only [h2, h3, if_false]

/-- The FIFO replacement branch of the compiled program. -/
theorem resolve_address_machine_fifo (cfg : Config) (s : State) (logical memwrite : Int)
    (hs : cfg.page_replacement_scheme = REPLACE_FIFO)
    (hmiss : find_page s.page_table (shr_long logical cfg.size_of_frame) 0 cfg.size_of_memory
      = -1)
    (hfull : find_free s.page_table 0 cfg.size_of_memory = -1) :
    resolve_address_machine cfg s logical memwrite =
      (Int.lor (shl_long (s.fifo_index : Int) cfg.size_of_frame)
          (Int.land logical (mask_loop_machine cfg.size_of_frame 0)),
        { s with
          page_faults := wrap_int (s.page_faults + 1)
          fifo_index := advance cfg.size_of_memory s.fifo_index
          page_table := s.page_table.set s.fifo_index
            { entry s.page_table s.fifo_index with
              page_num := shr_long logical cfg.size_of_frame, free := FALSE }
          swap_outs := wrap_int (s.swap_outs + 1)
          swap_ins := wrap_int (s.swap_ins + 1) }) := by
  unfold resolve_address_machine
  simp only [hmiss, hfull, hs, if_true, if_false, Int.toNat_ofNat, ne_eq, not_false_eq_true,
    not_true_eq_false]

/-- The LRU replacement branch of the compiled program. -/
theorem resolve_address_machine_lru (cfg : Config) (s : State) (logical memwrite : Int)
    (f : Nat)
    (hs : cfg.page_replacement_scheme = REPLACE_LRU)
    (hmiss : find_page s.page_table (shr_long logical cfg.size_of_frame) 0 cfg.size_of_memory
      = -1)
    (hfull : find_free s.page_table 0 cfg.size_of_memory = -1)
    (h : lru_scan s.page_table 0 cfg.size_of_memory 0 (entry s.page_table 0).modified = (f : Int)) :
    resolve_address_machine cfg s logical memwrite =
      (Int.lor (shl_long (f : Int) cfg.size_of_frame)
          (Int.land logical (mask_loop_machine cfg.size_of_frame 0)),
        { s with
          page_faults := wrap_int (s.page_faults + 1)
          page_table := s.page_table.set f
            { entry s.page_table f with
              page_num := shr_long logical cfg.size_of_frame, free := FALSE,
              modified := s.lru_mod }
          lru_mod := wrap_int (s.lru_mod + 1)
          swap_outs := wrap_int (s.swap_outs + 1)
          swap_ins := wrap_int (s.swap_ins + 1) }) := by
  have h1 : ¬ REPLACE_LRU = REPLACE_FIFO := by decide
  unfold resolve_address_machine
  simp only [hmiss, hfull, hs, h, h1, if_true, if_false, Int.toNat_ofNat, ne_eq,
    not_false_eq_true, not_true_eq_false]

/-- The CLOCK replacement branch of the compiled program. -/
theorem resolve_address_machine_clock (cfg : Config) (s : State) (logical memwrite : Int)
    (f : Nat)
    (hs : cfg.page_replacement_scheme = REPLACE_CLOCK)
    (hmiss : find_page s.page_table (shr_long logical cfg.size_of_frame) 0 cfg.size_of_memory
      = -1)
    (hfull : find_free s.page_table 0 cfg.size_of_memory = -1)
    (h : (clock_loop_machine cfg.size_of_memory s.page_table s.clock_hand s.swap_ins).1
      = (f : Int)) :
    resolve_address_machine cfg s logical memwrite =
      (Int.lor (shl_long (f : Int) cfg.size_of_frame)
          (Int.land logical (mask_loop_machine cfg.size_of_frame 0)),
        { s with
          page_faults := wrap_int (s.page_faults + 1)
          page_table :=
            (clock_loop_machine cfg.size_of_memory s.page_table s.clock_hand s.swap_ins).2.1.set f
              { entry (clock_loop_machine cfg.size_of_memory s.page_table s.clock_hand
                  s.swap_ins).2.1 f
                with page_num := shr_long logical cfg.size_of_frame, free := FALSE, dirty := 1 }
          clock_hand :=
            (clock_loop_machine cfg.size_of_memory s.page_table s.clock_hand s.swap_ins).2.2.1
          swap_outs := wrap_int (s.swap_outs + 1)
          swap_ins := wrap_int
            ((clock_loop_machine cfg.size_of_memory s.page_table s.clock_hand s.swap_ins).2.2.2
              + 1) }) := by
  have h1 : ¬ REPLACE_CLOCK = REPLACE_FIFO := by decide
  have h2 : ¬ REPLACE_CLOCK = REPLACE_LRU := by decide
  unfold resolve_address_machine
  simp only [hmiss, hfull, hs, h, h1, h2, if_true, if_false, Int.toNat_ofNat, ne_eq,
    not_false_eq_true, not_true_eq_false]

/-- The branch of the compiled program without a replacement scheme that
`resolve_address` knows. -/
theorem resolve_address_machine_none (cfg : Config) (s : State) (logical memwrite : Int)
    (h1 : cfg.page_replacement_scheme ≠ REPLACE_FIFO)
    (h2 : cfg.page_replacement_scheme ≠ REPLACE_LRU)
    (h3 : cfg.page_replacement_scheme ≠ REPLACE_CLOCK)
    (hmiss : find_page s.page_table (shr_long logical cfg.size_of_frame) 0 cfg.size_of_memory
      = -1)
    (hfull : find_free s.page_table 0 cfg.size_of_memory = -1) :
    resolve_address_machine cfg s logical memwrite =
      (-1, { s with page_faults := wrap_int (s.page_faults + 1) }) := by
  unfold resolve_address_machine
  simp only [hmiss, hfull, h1, h2, h3, if_true, if_false, ne_eq, not_false_eq_true,
    not_true_eq_false]

/-! ## The compiled program and the unbounded reading -/

theorem shift_cfg_page (cfg : Config) (logical : Int) :
    logical >>> (shift_cfg cfg).size_of_frame = shr_long logical cfg.size_of_frame := rfl

/-- One call of the compiled program leaves the globals that the unbounded reading
leaves, with the counters read as `int`s. -/
theorem resolve_address_machine_state (cfg : Config) (s : State) (logical memwrite : Int)
    (hfit : counters_fit s) :
    (resolve_address_machine cfg s logical memwrite).2
      = wrap_counters (resolve_address (shift_cfg cfg) s logical memwrite).2 := by
  obtain ⟨f1, f2, f3, f4, f5⟩ := hfit
  have w1 := wrap_int_of_range _ f1
  have w3 := wrap_int_of_range _ f3
  have w4 := wrap_int_of_range _ f4
  have w5 := wrap_int_of_range _ f5
  have hself : wrap_counters s = s := by
    unfold wrap_counters; rw [w1, w3, w4, w5]
  by_cases hp : find_page s.page_table (shr_long logical cfg.size_of_frame) 0
      cfg.size_of_memory = -1
  · by_cases hf : find_free s.page_table 0 cfg.size_of_memory = -1
    · by_cases h1 : cfg.page_replacement_scheme = REPLACE_FIFO
      · rw [resolve_address_machine_fifo cfg s logical memwrite h1 hp hf,
          resolve_address_fifo (shift_cfg cfg) s logical memwrite h1 hp hf]
        simp only [wrap_counters, w5, shift_cfg]
        rfl
      · by_cases h2 : cfg.page_replacement_scheme = REPLACE_LRU
        · obtain ⟨g, e1, _⟩ := lru_scan_spec s.page_table 0 cfg.size_of_memory 0 (le_refl 0)
            (fun j hj => by omega) (fun j hj => by omega)
          have e1 : lru_scan s.page_table 0 cfg.size_of_memory 0 (entry s.page_table 0).modified
              = (g : Int) := by simpa using e1
          rw [resolve_address_machine_lru cfg s logical memwrite g h2 hp hf e1,
            resolve_address_lru (shift_cfg cfg) s logical memwrite g h2 hp hf e1]
          simp only [wrap_counters, shift_cfg]
          rfl
        · by_cases h3 : cfg.page_replacement_scheme = REPLACE_CLOCK
          · obtain ⟨g, e1⟩ := clock_loop_frame cfg.size_of_memory s.page_table s.clock_hand
              s.swap_ins
            have hm := clock_loop_machine_eq cfg.size_of_memory s.page_table s.clock_hand
              s.swap_ins s.swap_ins w4
            have e2 : (clock_loop_machine cfg.size_of_memory s.page_table s.clock_hand
                s.swap_ins).1 = (g : Int) := by rw [hm]; exact e1
            rw [resolve_address_machine_clock cfg s logical memwrite g h3 hp hf e2,
              resolve_address_clock (shift_cfg cfg) s logical memwrite g h3 hp hf e1, hm]
            simp only [wrap_counters, w5, shift_cfg, wrap_int_add]
            rfl
          · rw [resolve_address_machine_none cfg s logical memwrite h1 h2 h3 hp hf,
              resolve_address_none (shift_cfg cfg) s logical memwrite h1 h2 h3 hp hf]
            simp only [wrap_counters, w3, w4, w5]
    · obtain ⟨f, e1, _, e3, e4, e5⟩ := find_free_found s.page_table 0 cfg.size_of_memory hf
      rw [resolve_address_machine_load cfg s logical memwrite f hp e1,
        resolve_address_load (shift_cfg cfg) s logical memwrite f hp e1]
      simp only [wrap_counters, w3, w4, shift_cfg]
      by_cases h2 : cfg.page_replacement_scheme = REPLACE_LRU
      · simp only [h2, if_true]; rfl
      · simp only [h2, if_false, w5]; rfl
  · obtain ⟨f, e1, _, e3, e4, e5, _⟩ :=
      find_page_found s.page_table (shr_long logical cfg.size_of_frame) 0 cfg.size_of_memory hp
    rw [resolve_address_machine_hit cfg s logical memwrite f e1,
      resolve_address_hit (shift_cfg cfg) s logical memwrite f e1]
    show _ = wrap_counters
      (if cfg.page_replacement_scheme = REPLACE_LRU then _
        else if cfg.page_replacement_scheme = REPLACE_CLOCK then _ else _)
    by_cases h2 : cfg.page_replacement_scheme = REPLACE_LRU
    · simp only [h2, if_true, wrap_counters, w1, w3]
    · by_cases h3 : cfg.page_replacement_scheme = REPLACE_CLOCK
      · have n1 : ¬ REPLACE_CLOCK = REPLACE_LRU := by decide
        simp only [h3, n1, if_true, if_false]
        by_cases hd : (entry s.page_table f).dirty = 0
        · simp only [hd, if_true, wrap_counters, w1, w3, w5]
        · simp only [hd, if_false, hself]
      · simp only [h2, h3, if_false, hself]

/-! ## Runs of the compiled program -/

theorem run_machine_nil (cfg : Config) (s : State) : run_machine cfg s [] = s := rfl

theorem run_machine_cons (cfg : Config) (s : State) (c : Int × Int) (t : List (Int × Int)) :
    run_machine cfg s (c :: t) = run_machine cfg (main_step_machine cfg s c) t := rfl

theorem counters_le_refl (s : State) : counters_le s s :=
  ⟨le_refl _, le_refl _, le_refl _, le_refl _, le_refl _⟩

theorem counters_le_trans (s t u : State) (h1 : counters_le s t) (h2 : counters_le t u) :
    counters_le s u := by
  unfold counters_le at *
  omega

/-- With unbounded counters no call lowers a counter. -/
theorem counters_le_resolve (cfg : Config) (s : State) (logical memwrite : Int) :
    counters_le s (resolve_address cfg s logical memwrite).2 := by
  apply resolve_address_cases cfg s logical memwrite (fun r => counters_le s r.2)
  · intro f _ _ _ _
    unfold counters_le
    split_ifs <;> simp only <;> omega
  · intro f _ _ _ _ _ _
    unfold counters_le
    simp only
    split_ifs <;> omega
  · intro _ _ _
    unfold counters_le
    simp only; omega
  · intro f _ _ _ _
    unfold counters_le
    simp only; omega
  · intro f _ _ _ _
    have := clock_loop_swap_ins_le cfg.size_of_memory s.page_table s.clock_hand s.swap_ins
    unfold counters_le
    simp only; omega
  · intro _ _ _ _ _
    unfold counters_le
    simp only; omega

theorem counters_le_main_step (cfg : Config) (s : State) (c : Int × Int) :
    counters_le s (main_step cfg s c) := by
  have h := counters_le_resolve cfg s c.1 c.2
  unfold counters_le at *
  unfold main_step
  simp only
  omega

theorem counters_le_call_main_step (cfg : Config) (s : State) (c : Int × Int) :
    counters_le (resolve_address cfg s c.1 c.2).2 (main_step cfg s c) := by
  unfold counters_le main_step
  simp only
  omega

theorem counters_le_run (cfg : Config) (s : State) (trace : List (Int × Int)) :
    counters_le s (run cfg s trace) := by
  induction trace generalizing s with
  | nil => exact counters_le_refl s
  | cons c t ih =>
    rw [run_cons]
    exact counters_le_trans _ _ _ (counters_le_main_step cfg s c) (ih _)

/-- A state between two states whose counters are `int`s has `int` counters. -/
theorem counters_fit_between (s t u : State) (h1 : counters_le s t) (h2 : counters_le t u)
    (hs : counters_fit s) (hu : counters_fit u) : counters_fit t := by
  unfold counters_le at h1 h2
  unfold counters_fit int_range at *
  omega

theorem wrap_counters_of_fit (s : State) (h : counters_fit s) : wrap_counters s = s := by
  obtain ⟨f1, _, f3, f4, f5⟩ := h
  unfold wrap_counters
  rw [wrap_int_of_range _ f1, wrap_int_of_range _ f3, wrap_int_of_range _ f4,
    wrap_int_of_range _ f5]

/-- A call of the compiled program leaves the globals that the unbounded reading
leaves, when the counters of the latter are `int`s. -/
theorem resolve_address_machine_state_eq (cfg : Config) (s : State) (logical memwrite : Int)
    (hs : counters_fit s)
    (ht : counters_fit (resolve_address (shift_cfg cfg) s logical memwrite).2) :
    (resolve_address_machine cfg s logical memwrite).2
      = (resolve_address (shift_cfg cfg) s logical memwrite).2 := by
  rw [resolve_address_machine_state cfg s logical memwrite hs, wrap_counters_of_fit _ ht]

theorem main_step_machine_eq (cfg : Config) (s : State) (c : Int × Int)
    (hs : counters_fit s) (ht : counters_fit (main_step (shift_cfg cfg) s c)) :
    main_step_machine cfg s c = main_step (shift_cfg cfg) s c := by
  have hc : counters_fit (resolve_address (shift_cfg cfg) s c.1 c.2).2 :=
    counters_fit_between _ _ _ (counters_le_resolve _ s c.1 c.2)
      (counters_le_call_main_step _ s c) hs ht
  have hw : wrap_int ((resolve_address (shift_cfg cfg) s c.1 c.2).2.mem_refs + 1)
      = (resolve_address (shift_cfg cfg) s c.1 c.2).2.mem_refs + 1 :=
    wrap_int_of_range _ ht.2.1
  unfold main_step_machine
  simp only
  rw [resolve_address_machine_state_eq cfg s c.1 c.2 hs hc, hw]
  rfl

/-- The loop of the compiled program reaches the state that the unbounded reading
reaches, when the counters of the latter are `int`s at the end of the trace. -/
theorem run_machine_eq_run (cfg : Config) (s : State) (trace : List (Int × Int))
    (hs : counters_fit s) (ht : counters_fit (run (shift_cfg cfg) s trace)) :
    run_machine cfg s trace = run (shift_cfg cfg) s trace := by
  induction trace generalizing s with
  | nil => rw [run_machine_nil, run_nil]
  | cons c t ih =>
    rw [run_cons] at ht
    have hm : counters_fit (main_step (shift_cfg cfg) s c) :=
      counters_fit_between _ _ _ (counters_le_main_step _ s c) (counters_le_run _ _ t) hs ht
    rw [run_machine_cons, run_cons, main_step_machine_eq cfg s c hs hm]
    exact ih _ hm ht

theorem counters_fit_setup (cfg : Config) (raw : List page_table_entry) :
    counters_fit (setup cfg raw) := by
  unfold counters_fit int_range setup
  simp

theorem no_counter_overflow_prefix (cfg : Config) (raw : List page_table_entry)
    (t u : List (Int × Int)) (h : no_counter_overflow cfg raw (t ++ u)) :
    no_counter_overflow cfg raw t := by
  unfold no_counter_overflow at *
  rw [run_append] at h
  exact counters_fit_between _ _ _ (counters_le_run _ _ t) (counters_le_run _ _ u)
    (counters_fit_setup cfg raw) h

/-- Along a trace without counter overflow the compiled program is in the state of
the unbounded reading. -/
theorem run_machine_of_no_overflow (cfg : Config) (raw : List page_table_entry)
    (trace : List (Int × Int)) (h : no_counter_overflow cfg raw trace) :
    run_machine cfg (setup cfg raw) trace = run (shift_cfg cfg) (setup (shift_cfg cfg) raw) trace :=
  run_machine_eq_run cfg (setup cfg raw) trace (counters_fit_setup cfg raw) h

/-- After a call at the end of a trace without counter overflow the globals of the
compiled program are those of the unbounded reading. -/
theorem call_machine_of_no_overflow (cfg : Config) (raw : List page_table_entry)
    (trace : List (Int × Int)) (logical memwrite : Int)
    (h : no_counter_overflow cfg raw (trace ++ [(logical, memwrite)])) :
    (resolve_address_machine cfg (run_machine cfg (setup cfg raw) trace) logical memwrite).2
      = (resolve_address (shift_cfg cfg) (run (shift_cfg cfg) (setup (shift_cfg cfg) raw) trace)
          logical memwrite).2 := by
  have hp := no_counter_overflow_prefix cfg raw trace [(logical, memwrite)] h
  rw [run_machine_of_no_overflow cfg raw trace hp]
  unfold no_counter_overflow at h hp
  rw [run_snoc] at h
  exact resolve_address_machine_state_eq cfg _ logical memwrite hp
    (counters_fit_between _ _ _ (counters_le_resolve _ _ logical memwrite)
      (counters_le_call_main_step _ _ (logical, memwrite)) hp h)

/-! ## Address arithmetic of the compiled program -/

theorem lor_shl_one (m : Nat) : Int.lor (shl (m : Int) 1) 1 = ((2 * m + 1 : Nat) : Int) := by
  rw [shl_natCast]
  have := Nat.mul_add_lt_is_or (show 1 < 2 ^ 1 by norm_num) m
  rw [show (1 : Int) = ((1 : Nat) : Int) from rfl, lor_natCast]
  congr 1
  rw [Nat.mul_comm m (2 ^ 1), ← this]

/-- A left shift of a frame index that fits in a `long` is the product. -/
theorem shl_long_natCast (f b : Nat) (hb : b ≤ 63)
    (h : f * 2 ^ b < 9223372036854775808) :
    shl_long (f : Int) b = ((f * 2 ^ b : Nat) : Int) := by
  unfold shl_long
  rw [Nat.mod_eq_of_lt (by omega)]
  have e : (f : Int) * ((2 ^ b : Nat) : Int) = ((f * 2 ^ b : Nat) : Int) := by push_cast; ring
  rw [e]
  apply wrap_long_of_range <;> omega

theorem mask_loop_machine_eq (k m : Nat) (h : m * 2 ^ k + (2 ^ k - 1) < 9223372036854775808) :
    mask_loop_machine k (m : Int) = mask_loop k (m : Int) := by
  induction k generalizing m with
  | zero => rfl
  | succ k ih =>
    have hp : 0 < 2 ^ k := Nat.pow_pos (by norm_num)
    have hpow : 2 ^ (k + 1) = 2 * 2 ^ k := by rw [pow_succ]; ring
    have hm : m * 2 ^ 1 < 9223372036854775808 := by
      have : m * 2 ^ 1 ≤ m * 2 ^ (k + 1) :=
        Nat.mul_le_mul_left m (Nat.pow_le_pow_right (by norm_num) (by omega))
      omega
    rw [mask_loop_machine, mask_loop, shl_long_natCast m 1 (by omega) hm, ← shl_natCast,
      lor_shl_one]
    apply ih
    have e : (2 * m + 1) * 2 ^ k = m * 2 ^ (k + 1) + 2 ^ k := by rw [hpow]; ring
    omega

/-- The mask of the compiled program is `2 ^ size_of_frame - 1` up to 63 bits. -/
theorem mask_loop_machine_cast (b : Nat) (hb : b ≤ 63) :
    mask_loop_machine b 0 = ((2 ^ b - 1 : Nat) : Int) := by
  have hlt : 2 ^ b ≤ 2 ^ 63 := Nat.pow_le_pow_right (by norm_num) hb
  have h63 : (2 : Nat) ^ 63 = 9223372036854775808 := by norm_num
  have := mask_loop_machine_eq b 0 (by omega)
  rw [show ((0 : Nat) : Int) = 0 from rfl] at this
  rw [this, mask_loop_cast]

theorem ldiff_self (a : Nat) : Nat.ldiff a a = 0 := by
  apply Nat.eq_of_testBit_eq
  intro i
  simp [Nat.testBit_ldiff]

theorem ldiff_zero (a : Nat) : Nat.ldiff a 0 = a := by
  apply Nat.eq_of_testBit_eq
  intro i
  simp [Nat.testBit_ldiff]

/-- The bit pattern `0x8000000000000000 | 0x7fffffffffffffff` is the `long` `-1`. -/
theorem lor_sign_bit_all_ones :
    Int.lor (-9223372036854775808) 9223372036854775807 = -1 := by
  show Int.negSucc (Nat.ldiff 9223372036854775807 9223372036854775807) = -1
  rw [ldiff_self]
  rfl

theorem land_neg_one (m : Nat) : Int.land (-1) (m : Int) = (m : Int) := by
  show ((Nat.ldiff m 0 : Nat) : Int) = (m : Int)
  rw [ldiff_zero]

/-! ## The loop of `main` in the compiled program -/

theorem main_loop_machine_of_ne_none (cfg : Config) (s : State) (trace : List (Int × Int))
    (h : main_loop_machine cfg s trace ≠ none) :
    main_loop_machine cfg s trace = some (run_machine cfg s trace) := by
  induction trace generalizing s with
  | nil => rfl
  | cons c t ih =>
    rw [main_loop_machine] at h ⊢
    by_cases hc : (resolve_address_machine cfg s c.1 c.2).1 = -1
    · rw [if_pos hc] at h; exact absurd rfl h
    · rw [if_neg hc] at h ⊢
      rw [run_machine_cons]
      exact ih _ h

theorem main_loop_machine_snoc (cfg : Config) (s : State) (t : List (Int × Int))
    (c : Int × Int)
    (ht : main_loop_machine cfg s t = some (run_machine cfg s t))
    (hc : (resolve_address_machine cfg (run_machine cfg s t) c.1 c.2).1 ≠ -1) :
    main_loop_machine cfg s (t ++ [c]) = some (run_machine cfg s (t ++ [c])) := by
  induction t generalizing s with
  | nil =>
    rw [run_machine_nil] at hc
    rw [List.nil_append, main_loop_machine, if_neg hc]
    rfl
  | cons d t ih =>
    rw [List.cons_append, main_loop_machine]
    rw [main_loop_machine] at ht
    by_cases hd : (resolve_address_machine cfg s d.1 d.2).1 = -1
    · rw [if_pos hd] at ht; exact absurd ht (by simp)
    · rw [if_neg hd] at ht ⊢
      rw [run_machine_cons] at ht hc ⊢
      exact ih _ ht hc

theorem miss_count_machine_eq (cfg : Config) (s : State) (trace : List (Int × Int))
    (hs : counters_fit s) (ht : counters_fit (run (shift_cfg cfg) s trace)) :
    miss_count_machine cfg s trace = miss_count (shift_cfg cfg) s trace ∧
    hit_count_machine cfg s trace = hit_count (shift_cfg cfg) s trace := by
  induction trace generalizing s with
  | nil => exact ⟨rfl, rfl⟩
  | cons c t ih =>
    rw [run_cons] at ht
    have hm : counters_fit (main_step (shift_cfg cfg) s c) :=
      counters_fit_between _ _ _ (counters_le_main_step _ s c) (counters_le_run _ _ t) hs ht
    obtain ⟨i1, i2⟩ := ih _ hm ht
    rw [miss_count_machine, hit_count_machine, miss_count, hit_count,
      main_step_machine_eq cfg s c hs hm, i1, i2]
    exact ⟨rfl, rfl⟩

/-- Under an implemented scheme, from globals in range with `int` counters, a call of
the compiled program returns `(f << size_of_frame) | offset` for a frame `f` of the
table that is occupied after the call. -/
theorem resolve_address_machine_frame (cfg : Config) (s : State) (logical memwrite : Int)
    (hs : scheme_implemented cfg) (hN : 0 < cfg.size_of_memory) (hr : in_range cfg s)
    (hfit : counters_fit s) :
    ∃ f : Nat, f < cfg.size_of_memory ∧
      (resolve_address_machine cfg s logical memwrite).1
        = Int.lor (shl_long (f : Int) cfg.size_of_frame)
            (Int.land logical (mask_loop_machine cfg.size_of_frame 0)) ∧
      (entry (resolve_address_machine cfg s logical memwrite).2.page_table f).free = 0 := by
  obtain ⟨h1, h2, h3⟩ := hr
  by_cases hp : find_page s.page_table (shr_long logical cfg.size_of_frame) 0
      cfg.size_of_memory = -1
  · by_cases hf : find_free s.page_table 0 cfg.size_of_memory = -1
    · by_cases c1 : cfg.page_replacement_scheme = REPLACE_FIFO
      · have hres := resolve_address_machine_fifo cfg s logical memwrite c1 hp hf
        refine ⟨s.fifo_index, h2, by rw [hres], ?_⟩
        rw [hres]
        simp only [entry_set_self _ _ _ (show s.fifo_index < s.page_table.length by omega)]
        rfl
      · by_cases c2 : cfg.page_replacement_scheme = REPLACE_LRU
        · obtain ⟨g, e1, e2, _, _⟩ := lru_scan_min s.page_table cfg.size_of_memory hN
          have hres := resolve_address_machine_lru cfg s logical memwrite g c2 hp hf e1
          refine ⟨g, e2, by rw [hres], ?_⟩
          rw [hres]
          simp only [entry_set_self _ _ _ (show g < s.page_table.length by omega)]
          rfl
        · by_cases c3 : cfg.page_replacement_scheme = REPLACE_CLOCK
          · obtain ⟨g, e1, e2⟩ := clock_loop_frame_lt cfg.size_of_memory hN s.page_table
              s.clock_hand s.swap_ins h3
            have hm := clock_loop_machine_eq cfg.size_of_memory s.page_table s.clock_hand
              s.swap_ins s.swap_ins (wrap_int_of_range _ hfit.2.2.2.1)
            have e3 : (clock_loop_machine cfg.size_of_memory s.page_table s.clock_hand
                s.swap_ins).1 = (g : Int) := by rw [hm]; exact e2
            have hl := clock_loop_length cfg.size_of_memory s.page_table s.clock_hand s.swap_ins
            have hres := resolve_address_machine_clock cfg s logical memwrite g c3 hp hf e3
            refine ⟨g, e1, by rw [hres], ?_⟩
            rw [hres, hm]
            simp only [entry_set_self _ _ _
              (show g < (clock_loop cfg.size_of_memory s.page_table s.clock_hand
                s.swap_ins).2.1.length by omega)]
            rfl
          · rcases hs with hs | hs | hs
            · exact absurd hs c1
            · exact absurd hs c2
            · exact absurd hs c3
    · obtain ⟨f, e1, _, e3, e4, e5⟩ := find_free_found s.page_table 0 cfg.size_of_memory hf
      have hres := resolve_address_machine_load cfg s logical memwrite f hp e1
      refine ⟨f, by omega, by rw [hres], ?_⟩
      rw [hres]
      simp only [entry_set_self _ _ _ (lt_length_of_free_ne _ _ e4)]
      rfl
  · obtain ⟨f, e1, _, e3, e4, e5, _⟩ :=
      find_page_found s.page_table (shr_long logical cfg.size_of_frame) 0 cfg.size_of_memory hp
    have hl : f < s.page_table.length := by omega
    have hres := resolve_address_machine_hit cfg s logical memwrite f e1
    refine ⟨f, by omega, by rw [hres], ?_⟩
    rw [hres]
    split_ifs
    · simp only [entry_set_self _ _ _ hl]; exact e4
    · simp only [entry_set_self _ _ _ hl]; exact e4
    · exact e4
    · exact e4

/-- After a call every occupied entry holds the page it held, or the page of the call. -/
theorem resolve_address_pages (cfg : Config) (s : State) (logical memwrite : Int) (j : Nat)
    (hj : (entry (resolve_address cfg s logical memwrite).2.page_table j).free = 0) :
    ((entry s.page_table j).free = 0 ∧
      (entry (resolve_address cfg s logical memwrite).2.page_table j).page_num
        = (entry s.page_table j).page_num) ∨
    (entry (resolve_address cfg s logical memwrite).2.page_table j).page_num
      = logical >>> cfg.size_of_frame := by
  revert hj
  apply resolve_address_cases cfg s logical memwrite
    (fun r => (entry r.2.page_table j).free = 0 →
      ((entry s.page_table j).free = 0 ∧
        (entry r.2.page_table j).page_num = (entry s.page_table j).page_num) ∨
      (entry r.2.page_table j).page_num = logical >>> cfg.size_of_frame)
  · intro f _ _ _ _
    split_ifs
    · simp only [entry_set]
      split
      · rename_i hh; rw [← hh.1]; exact fun h => Or.inl ⟨h, rfl⟩
      · exact fun h => Or.inl ⟨h, rfl⟩
    · simp only [entry_set]
      split
      · rename_i hh; rw [← hh.1]; exact fun h => Or.inl ⟨h, rfl⟩
      · exact fun h => Or.inl ⟨h, rfl⟩
    · exact fun h => Or.inl ⟨h, rfl⟩
    · exact fun h => Or.inl ⟨h, rfl⟩
  · intro f _ _ _ _ _ _
    simp only [entry_set]
    split
    · exact fun _ => Or.inr rfl
    · exact fun h => Or.inl ⟨h, rfl⟩
  · intro _ _ _
    simp only [entry_set]
    split
    · exact fun _ => Or.inr rfl
    · exact fun h => Or.inl ⟨h, rfl⟩
  · intro f _ _ _ _
    simp only [entry_set]
    split
    · exact fun _ => Or.inr rfl
    · exact fun h => Or.inl ⟨h, rfl⟩
  · intro f _ _ _ _
    obtain ⟨a, b, _⟩ := clock_loop_fields cfg.size_of_memory s.page_table s.clock_hand
      s.swap_ins j
    simp only [entry_set]
    split
    · exact fun _ => Or.inr rfl
    · rw [a, b]; exact fun h => Or.inl ⟨h, rfl⟩
  · intro _ _ _ _ _
    exact fun h => Or.inl ⟨h, rfl⟩

/-! ## Non-negative addresses in the compiled program -/

theorem land_nonneg_left (x m : Int) (hx : 0 ≤ x) : 0 ≤ Int.land x m := by
  obtain ⟨a, ha⟩ := Int.eq_ofNat_of_zero_le hx
  subst ha
  cases m with
  | ofNat b => exact Int.ofNat_nonneg _
  | negSucc b => exact Int.ofNat_nonneg _

theorem lor_nonneg (x y : Int) (hx : 0 ≤ x) (hy : 0 ≤ y) : 0 ≤ Int.lor x y := by
  obtain ⟨a, ha⟩ := Int.eq_ofNat_of_zero_le hx
  obtain ⟨b, hb⟩ := Int.eq_ofNat_of_zero_le hy
  subst ha hb
  exact Int.ofNat_nonneg _

theorem shl_long_mod (x : Int) (b : Nat) : shl_long x b = shl_long x (b % 64) := by
  unfold shl_long
  rw [Nat.mod_mod]

theorem pow_split (b : Nat) (hb : b ≤ 63) :
    2 ^ (63 - b) * 2 ^ b = 9223372036854775808 := by
  rw [← pow_add, Nat.sub_add_cancel hb]
  norm_num

/-- The page of a non-negative `long` is below `2 ^ (63 - b)` for a shift count
`b <= 63`. -/
theorem page_bounded (x : Int) (b : Nat) (hb : b ≤ 63) (hx : nonneg_long x) :
    0 ≤ x >>> b ∧ x >>> b < ((2 ^ (63 - b) : Nat) : Int) := by
  obtain ⟨h0, h1⟩ := hx
  obtain ⟨a, ha⟩ := Int.eq_ofNat_of_zero_le h0
  subst ha
  rw [page_natCast]
  have hs := pow_split b hb
  have ha : a < 2 ^ (63 - b) * 2 ^ b := by rw [hs]; omega
  refine ⟨Int.ofNat_nonneg _, ?_⟩
  exact_mod_cast Nat.div_lt_of_lt_mul (by rw [Nat.mul_comm]; exact ha)

/-- Occupied frames with distinct pages from 0 to `bound - 1` are at most `bound`. -/
theorem occupied_le_of_bounded (pt : List page_table_entry) (n k bound : Nat)
    (hd : pages_distinct pt n) (hb : occupied_below pt n k)
    (hp : ∀ j, j < n → (entry pt j).free = 0 →
      0 ≤ (entry pt j).page_num ∧ (entry pt j).page_num < (bound : Int)) :
    k ≤ bound := by
  have hk := hb.1
  have hocc : ∀ j, j < k → (entry pt j).free = 0 := fun j hj => (hb.2 j (by omega)).mpr hj
  have h := Finset.card_le_card_of_injOn (fun j => ((entry pt j).page_num).toNat)
    (s := Finset.range k) (t := Finset.range bound)
    (by
      intro j hj
      have hj : j < k := Finset.mem_range.mp hj
      obtain ⟨p0, p1⟩ := hp j (by omega) (hocc j hj)
      apply Finset.mem_range.mpr
      show ((entry pt j).page_num).toNat < bound
      omega)
    (by
      intro i hi j hj hij
      have hi : i < k := Finset.mem_range.mp hi
      have hj : j < k := Finset.mem_range.mp hj
      by_contra hne
      obtain ⟨p0, p1⟩ := hp i (by omega) (hocc i hi)
      obtain ⟨q0, q1⟩ := hp j (by omega) (hocc j hj)
      have : (entry pt i).page_num = (entry pt j).page_num := by
        have hij : ((entry pt i).page_num).toNat = ((entry pt j).page_num).toNat := hij
        omega
      exact hd i j (by omega) (by omega) hne (hocc i hi) (hocc j hj) this)
  simpa using h

theorem pages_bounded_run (cfg : Config) (raw : List page_table_entry)
    (hraw : raw.length = cfg.size_of_memory) (bound : Nat) (trace : List (Int × Int)) :
    (∀ c, c ∈ trace → 0 ≤ c.1 >>> cfg.size_of_frame ∧
      c.1 >>> cfg.size_of_frame < (bound : Int)) →
    pages_bounded cfg (run cfg (setup cfg raw) trace) bound := by
  induction trace using List.reverseRecOn with
  | nil =>
    intro _ j hj hfree
    rw [run_nil, setup_free cfg raw hraw j hj] at hfree
    exact absurd hfree (by decide)
  | append_singleton t c ih =>
    intro hpage j hj hfree
    have iht := ih (fun d hd => hpage d (List.mem_append_left _ hd))
    rw [run_snoc, main_step_page_table] at hfree ⊢
    rcases resolve_address_pages cfg _ c.1 c.2 j hfree with ⟨h1, h2⟩ | h2
    · rw [h2]; exact iht j hj h1
    · rw [h2]; exact hpage c (List.mem_append_right _ (List.mem_singleton.mpr rfl))

/-- The loop of `main` of the compiled program runs to the end of a trace of
non-negative `long` addresses, as long as no `int` counter overflows. -/
theorem main_loop_machine_completes (cfg : Config) (raw : List page_table_entry)
    (hs : scheme_implemented cfg) (hN : 0 < cfg.size_of_memory)
    (hraw : raw.length = cfg.size_of_memory) (trace : List (Int × Int)) :
    no_counter_overflow cfg raw trace → (∀ c, c ∈ trace → nonneg_long c.1) →
    main_loop_machine cfg (setup cfg raw) trace
      = some (run_machine cfg (setup cfg raw) trace) := by
  induction trace using List.reverseRecOn with
  | nil => intro _ _; rfl
  | append_singleton t c ih =>
    intro hfit haddr
    have hb : cfg.size_of_frame % 64 ≤ 63 := by omega
    have hp := no_counter_overflow_prefix cfg raw t [c] hfit
    have iht := ih hp (fun d hd => haddr d (List.mem_append_left _ hd))
    apply main_loop_machine_snoc cfg _ t c iht
    have hr : in_range cfg (run_machine cfg (setup cfg raw) t) := by
      rw [run_machine_of_no_overflow cfg raw t hp]
      exact in_range_run (shift_cfg cfg) hN raw hraw t
    have hfitS : counters_fit (run_machine cfg (setup cfg raw) t) := by
      rw [run_machine_of_no_overflow cfg raw t hp]
      exact hp
    obtain ⟨f, hfN, hval, hocc⟩ := resolve_address_machine_frame cfg _ c.1 c.2 hs hN hr hfitS
    rw [call_machine_of_no_overflow cfg raw t c.1 c.2 hfit, ← main_step_page_table,
      ← run_snoc] at hocc
    obtain ⟨k, hbelow, _⟩ := fault_account_run (shift_cfg cfg) raw hs hraw (t ++ [c])
    have hdist := pages_distinct_run (shift_cfg cfg) raw hraw (t ++ [c])
    have hbnd := pages_bounded_run (shift_cfg cfg) raw hraw (2 ^ (63 - cfg.size_of_frame % 64))
      (t ++ [c]) (fun d hd => page_bounded d.1 (cfg.size_of_frame % 64) hb (haddr d hd))
    have hk := occupied_le_of_bounded _ cfg.size_of_memory k _ hdist hbelow hbnd
    have hfk : f < k := (hbelow.2 f hfN).mp hocc
    have hsplit := pow_split (cfg.size_of_frame % 64) hb
    have hlt : f * 2 ^ (cfg.size_of_frame % 64) < 9223372036854775808 := by
      have hpos : 0 < 2 ^ (cfg.size_of_frame % 64) := Nat.pow_pos (by norm_num)
      have h1 : (f + 1) * 2 ^ (cfg.size_of_frame % 64)
          ≤ 2 ^ (63 - cfg.size_of_frame % 64) * 2 ^ (cfg.size_of_frame % 64) :=
        Nat.mul_le_mul_right _ (by omega)
      have h2 : (f + 1) * 2 ^ (cfg.size_of_frame % 64)
          = f * 2 ^ (cfg.size_of_frame % 64) + 2 ^ (cfg.size_of_frame % 64) := by ring
      omega
    have hnn : 0 ≤ (resolve_address_machine cfg (run_machine cfg (setup cfg raw) t) c.1 c.2).1 := by
      rw [hval, shl_long_mod, shl_long_natCast f (cfg.size_of_frame % 64) hb hlt]
      exact lor_nonneg _ _ (Int.ofNat_nonneg _)
        (land_nonneg_left _ _ (haddr c (List.mem_append_right _ (List.mem_singleton.mpr rfl))).1)
    omega

/-! ## A bound on the counters -/

/-- With unbounded counters a call adds at most 1 to `page_faults`, `swap_outs` and
`lru_mod`, at most `size_of_memory + 1` to `swap_ins`, and nothing to `mem_refs`. -/
theorem counters_step_bound (cfg : Config) (s : State) (logical memwrite : Int)
    (hr : in_range cfg s) :
    (resolve_address cfg s logical memwrite).2.page_faults ≤ s.page_faults + 1 ∧
    (resolve_address cfg s logical memwrite).2.mem_refs ≤ s.mem_refs ∧
    (resolve_address cfg s logical memwrite).2.swap_outs ≤ s.swap_outs + 1 ∧
    (resolve_address cfg s logical memwrite).2.swap_ins
      ≤ s.swap_ins + ((cfg.size_of_memory : Int) + 1) ∧
    (resolve_address cfg s logical memwrite).2.lru_mod ≤ s.lru_mod + 1 := by
  have hn : (0 : Int) ≤ (cfg.size_of_memory : Int) := Int.ofNat_nonneg _
  apply resolve_address_cases cfg s logical memwrite
    (fun r => r.2.page_faults ≤ s.page_faults + 1 ∧ r.2.mem_refs ≤ s.mem_refs ∧
      r.2.swap_outs ≤ s.swap_outs + 1 ∧
      r.2.swap_ins ≤ s.swap_ins + ((cfg.size_of_memory : Int) + 1) ∧
      r.2.lru_mod ≤ s.lru_mod + 1)
  · intro f _ _ _ _
    split_ifs <;> simp only <;> omega
  · intro f _ _ _ _ _ _
    simp only
    split_ifs <;> omega
  · intro _ _ _
    simp only; omega
  · intro f _ _ _ _
    simp only; omega
  · intro f _ _ _ _
    have h1 := clock_loop_swap_ins_count cfg.size_of_memory s.page_table s.clock_hand
      s.swap_ins hr.1
    have h2 : flags_cleared s.page_table
        (clock_loop cfg.size_of_memory s.page_table s.clock_hand s.swap_ins).2.1
        cfg.size_of_memory ≤ cfg.size_of_memory := by
      unfold flags_cleared
      exact le_trans (List.length_filter_le _ _) (by rw [List.length_range])
    simp only
    omega
  · intro _ _ _ _ _
    simp only; omega

/-- A trace of at most `INT_MAX / (size_of_memory + 1)` lines overflows no counter. -/
theorem no_counter_overflow_of_short (cfg : Config) (raw : List page_table_entry)
    (hN : 0 < cfg.size_of_memory) (hraw : raw.length = cfg.size_of_memory)
    (trace : List (Int × Int))
    (hlen : (cfg.size_of_memory + 1) * trace.length ≤ 2147483647) :
    no_counter_overflow cfg raw trace := by
  have key : ∀ t : List (Int × Int),
      (run (shift_cfg cfg) (setup cfg raw) t).page_faults ≤ (t.length : Int) ∧
      (run (shift_cfg cfg) (setup cfg raw) t).mem_refs ≤ (t.length : Int) ∧
      (run (shift_cfg cfg) (setup cfg raw) t).swap_outs ≤ (t.length : Int) ∧
      (run (shift_cfg cfg) (setup cfg raw) t).swap_ins
        ≤ ((cfg.size_of_memory : Int) + 1) * (t.length : Int) ∧
      (run (shift_cfg cfg) (setup cfg raw) t).lru_mod ≤ (t.length : Int) := by
    intro t
    induction t using List.reverseRecOn with
    | nil =>
      rw [run_nil]
      unfold setup
      simp
    | append_singleton t c ih =>
      obtain ⟨i1, i2, i3, i4, i5⟩ := ih
      obtain ⟨b1, b2, b3, b4, b5⟩ := counters_step_bound (shift_cfg cfg)
        (run (shift_cfg cfg) (setup cfg raw) t) c.1 c.2
        (in_range_run (shift_cfg cfg) hN raw hraw t)
      have e : ((t ++ [c]).length : Int) = (t.length : Int) + 1 := by
        rw [List.length_append]; simp
      have bsz : ((shift_cfg cfg).size_of_memory : Int) = (cfg.size_of_memory : Int) := rfl
      rw [bsz] at b4
      rw [run_snoc, e]
      unfold main_step
      simp only
      refine ⟨by omega, by omega, by omega, ?_, by omega⟩
      have : ((cfg.size_of_memory : Int) + 1) * ((t.length : Int) + 1)
          = ((cfg.size_of_memory : Int) + 1) * (t.length : Int)
            + ((cfg.size_of_memory : Int) + 1) := by ring
      rw [this]
      omega
  obtain ⟨k1, k2, k3, k4, k5⟩ := key trace
  obtain ⟨l1, l2, l3, l4, l5⟩ := counters_le_run (shift_cfg cfg) (setup cfg raw) trace
  have z1 : (setup cfg raw).page_faults = 0 := rfl
  have z2 : (setup cfg raw).mem_refs = 0 := rfl
  have z3 : (setup cfg raw).swap_outs = 0 := rfl
  have z4 : (setup cfg raw).swap_ins = 0 := rfl
  have z5 : (setup cfg raw).lru_mod = 0 := rfl
  rw [z1] at l1
  rw [z2] at l2
  rw [z3] at l3
  rw [z4] at l4
  rw [z5] at l5
  have hcast : ((cfg.size_of_memory : Int) + 1) * (trace.length : Int) ≤ 2147483647 := by
    exact_mod_cast hlen
  have hlen2 : (trace.length : Int) ≤ ((cfg.size_of_memory : Int) + 1) * (trace.length : Int) := by
    have h0 : (0 : Int) ≤ (trace.length : Int) := Int.ofNat_nonneg _
    have h1 : (0 : Int) ≤ (cfg.size_of_memory : Int) := Int.ofNat_nonneg _
    nlinarith
  unfold no_counter_overflow counters_fit int_range
  refine ⟨⟨?_, ?_⟩, ⟨?_, ?_⟩, ⟨?_, ?_⟩, ⟨?_, ?_⟩, ⟨?_, ?_⟩⟩ <;> omega

/-! ## C4 -/

/-- With `REPLACE_NONE`, `--framesize=63 --numframes=2` and page `-1` in frame 0, the
compiled program loads page 0 of the address `0x7fffffffffffffff` into the free
frame 1 and returns `(1 << 63) | 0x7fffffffffffffff`, which is `-1`. -/
theorem none_scheme_load_returns_all_ones :
    find_free (main_step_machine ⟨63, 2, REPLACE_NONE⟩ (setup ⟨63, 2, REPLACE_NONE⟩ sample_raw)
      (-1, 0)).page_table 0 2 = 1 ∧
    (resolve_address_machine ⟨63, 2, REPLACE_NONE⟩
      (main_step_machine ⟨63, 2, REPLACE_NONE⟩ (setup ⟨63, 2, REPLACE_NONE⟩ sample_raw) (-1, 0))
      9223372036854775807 0).1 = -1 := by
  refine ⟨by decide, ?_⟩
  rw [resolve_address_machine_load ⟨63, 2, REPLACE_NONE⟩ _ 9223372036854775807 0 1
    (by decide) (by decide)]
  simp only
  rw [mask_loop_machine_cast 63 (by norm_num)]
  have e1 : shl_long ((1 : Nat) : Int) 63 = -9223372036854775808 := by decide
  have e2 : Int.land 9223372036854775807 (((2 ^ 63 - 1 : Nat)) : Int)
      = 9223372036854775807 := by decide
  rw [e1, e2]
  exact lor_sign_bit_all_ones

/-- C13, as stated, fails for the compiled program: under LRU, a hit in a state
whose stamp counter `lru_mod` is `INT_MAX` leaves `lru_mod = INT_MIN`, not
`lru_mod + 1`. -/
theorem lru_hit_wraps_counter :
    sample_lru_state_max.page_table.length = (sample_cfg REPLACE_LRU).size_of_memory ∧
    (∃ j, j < (sample_cfg REPLACE_LRU).size_of_memory ∧
      (entry sample_lru_state_max.page_table j).free = 0 ∧
      (entry sample_lru_state_max.page_table j).page_num
        = shr_long 0x05 (sample_cfg REPLACE_LRU).size_of_frame) ∧
    sample_lru_state_max.lru_mod = 2147483647 ∧
    (resolve_address_machine (sample_cfg REPLACE_LRU) sample_lru_state_max 0x05 0).2.lru_mod
      = -2147483648 ∧
    (resolve_address_machine (sample_cfg REPLACE_LRU) sample_lru_state_max 0x05 0).2.lru_mod
      ≠ sample_lru_state_max.lru_mod + 1 := by
  refine ⟨rfl, ⟨0, by decide, by decide, by decide⟩, rfl, by decide, by decide⟩

/-- C13, amended. In the compiled program a hit, under any scheme, leaves the page
number and occupancy of every entry, `page_faults`, `swap_outs`, `fifo_index` and
`clock_hand` as they were. Under FIFO the globals after the call are the globals
before it. Under LRU the globals change only in `modified` of the hit frame, which
becomes the old `lru_mod`, and in `lru_mod` and `swap_ins`, each incremented as an
`int`: the value plus 1 when the value is below `INT_MAX`, and `INT_MIN` when it is
`INT_MAX`. -/
theorem hit_keeps_mapping_machine (cfg : Config) (s : State) (logical memwrite : Int)
    (hlen : s.page_table.length = cfg.size_of_memory)
    (hhit : ∃ j, j < cfg.size_of_memory ∧ (entry s.page_table j).free = 0 ∧
      (entry s.page_table j).page_num = shr_long logical cfg.size_of_frame) :
    (∀ j, (entry (resolve_address_machine cfg s logical memwrite).2.page_table j).page_num
          = (entry s.page_table j).page_num ∧
        (entry (resolve_address_machine cfg s logical memwrite).2.page_table j).free
          = (entry s.page_table j).free) ∧
    (resolve_address_machine cfg s logical memwrite).2.page_table.length
      = s.page_table.length ∧
    (resolve_address_machine cfg s logical memwrite).2.page_faults = s.page_faults ∧
    (resolve_address_machine cfg s logical memwrite).2.swap_outs = s.swap_outs ∧
    (resolve_address_machine cfg s logical memwrite).2.fifo_index = s.fifo_index ∧
    (resolve_address_machine cfg s logical memwrite).2.clock_hand = s.clock_hand ∧
    (cfg.page_replacement_scheme = REPLACE_FIFO →
      (resolve_address_machine cfg s logical memwrite).2 = s) ∧
    (cfg.page_replacement_scheme = REPLACE_LRU →
      (∃ f : Nat, f < cfg.size_of_memory ∧ (entry s.page_table f).free = 0 ∧
        (entry s.page_table f).page_num = shr_long logical cfg.size_of_frame ∧
        (entry (resolve_address_machine cfg s logical memwrite).2.page_table f).modified
          = s.lru_mod ∧
        (resolve_address_machine cfg s logical memwrite).2 =
          { s with
            page_table := s.page_table.set f { entry s.page_table f with modified := s.lru_mod }
            lru_mod := wrap_int (s.lru_mod + 1)
            swap_ins := wrap_int (s.swap_ins + 1) }) ∧
      (int_range s.lru_mod → s.lru_mod < INT_MAX →
        (resolve_address_machine cfg s logical memwrite).2.lru_mod = s.lru_mod + 1) ∧
      (s.lru_mod = INT_MAX →
        (resolve_address_machine cfg s logical memwrite).2.lru_mod = INT_MIN) ∧
      (int_range s.swap_ins → s.swap_ins < INT_MAX →
        (resolve_address_machine cfg s logical memwrite).2.swap_ins = s.swap_ins + 1) ∧
      (s.swap_ins = INT_MAX →
        (resolve_address_machine cfg s logical memwrite).2.swap_ins = INT_MIN)) := by
  obtain ⟨f, e1, _, e3, e4, e5, _⟩ := find_page_found s.page_table
    (shr_long logical cfg.size_of_frame) 0 cfg.size_of_memory (find_page_of_resident _ _ _ hhit)
  have hf : f < s.page_table.length := by omega
  have n1 : ¬ REPLACE_FIFO = REPLACE_LRU := by decide
  have n2 : ¬ REPLACE_FIFO = REPLACE_CLOCK := by decide
  rw [resolve_address_machine_hit cfg s logical memwrite f e1]
  refine ⟨?_, ?_, ?_, ?_, ?_, ?_, ?_, ?_⟩
  · intro j
    split_ifs
    · simp only [entry_set]
      split
      · rename_i hh; rw [← hh.1]; exact ⟨rfl, rfl⟩
      · exact ⟨rfl, rfl⟩
    · simp only [entry_set]
      split
      · rename_i hh; rw [← hh.1]; exact ⟨rfl, rfl⟩
      · exact ⟨rfl, rfl⟩
    · exact ⟨rfl, rfl⟩
    · exact ⟨rfl, rfl⟩
  · split_ifs <;> simp
  · split_ifs <;> rfl
  · split_ifs <;> rfl
  · split_ifs <;> rfl
  · split_ifs <;> rfl
  · intro h
    simp only [h, n1, n2, if_false]
  · intro h
    simp only [h, if_true]
    refine ⟨⟨f, by omega, e4, e5, by rw [entry_set_self _ _ _ hf], rfl⟩, ?_, ?_, ?_, ?_⟩
    · intro hr hlt
      unfold int_range at hr
      unfold INT_MAX at hlt
      exact wrap_int_of_range _ (by unfold int_range; omega)
    · intro hm
      rw [hm]; decide
    · intro hr hlt
      unfold int_range at hr
      unfold INT_MAX at hlt
      exact wrap_int_of_range _ (by unfold int_range; omega)
    · intro hm
      rw [hm]; decide

/-- C13 as amended, under LRU on two frames: the access to 0x05 after 0x00 and 0x10 hits frame 0. -/
theorem hit_keeps_mapping_machine_witness :
    (((run_machine (sample_cfg REPLACE_LRU) (setup (sample_cfg REPLACE_LRU) sample_raw) [(0x00, 0), (0x10, 1)]).page_table.length = (sample_cfg REPLACE_LRU).size_of_memory) ∧
      (∃ j, j < (sample_cfg REPLACE_LRU).size_of_memory ∧ (entry (run_machine (sample_cfg REPLACE_LRU) (setup (sample_cfg REPLACE_LRU) sample_raw) [(0x00, 0), (0x10, 1)]).page_table j).free = 0 ∧
      (entry (run_machine (sample_cfg REPLACE_LRU) (setup (sample_cfg REPLACE_LRU) sample_raw) [(0x00, 0), (0x10, 1)]).page_table j).page_num = shr_long ((0x05 : Int)) (sample_cfg REPLACE_LRU).size_of_frame)) ∧
    ((∀ j, (entry (resolve_address_machine (sample_cfg REPLACE_LRU) (run_machine (sample_cfg REPLACE_LRU) (setup (sample_cfg REPLACE_LRU) sample_raw) [(0x00, 0), (0x10, 1)]) ((0x05 : Int)) 0).2.page_table j).page_num
          = (entry (run_machine (sample_cfg REPLACE_LRU) (setup (sample_cfg REPLACE_LRU) sample_raw) [(0x00, 0), (0x10, 1)]).page_table j).page_num ∧
        (entry (resolve_address_machine (sample_cfg REPLACE_LRU) (run_machine (sample_cfg REPLACE_LRU) (setup (sample_cfg REPLACE_LRU) sample_raw) [(0x00, 0), (0x10, 1)]) ((0x05 : Int)) 0).2.page_table j).free
          = (entry (run_machine (sample_cfg REPLACE_LRU) (setup (sample_cfg REPLACE_LRU) sample_raw) [(0x00, 0), (0x10, 1)]).page_table j).free) ∧
    (resolve_address_machine (sample_cfg REPLACE_LRU) (run_machine (sample_cfg REPLACE_LRU) (setup (sample_cfg REPLACE_LRU) sample_raw) [(0x00, 0), (0x10, 1)]) ((0x05 : Int)) 0).2.page_table.length
      = (run_machine (sample_cfg REPLACE_LRU) (setup (sample_cfg REPLACE_LRU) sample_raw) [(0x00, 0), (0x10, 1)]).page_table.length ∧
    (resolve_address_machine (sample_cfg REPLACE_LRU) (run_machine (sample_cfg REPLACE_LRU) (setup (sample_cfg REPLACE_LRU) sample_raw) [(0x00, 0), (0x10, 1)]) ((0x05 : Int)) 0).2.page_faults = (run_machine (sample_cfg REPLACE_LRU) (setup (sample_cfg REPLACE_LRU) sample_raw) [(0x00, 0), (0x10, 1)]).page_faults ∧
    (resolve_address_machine (sample_cfg REPLACE_LRU) (run_machine (sample_cfg REPLACE_LRU) (setup (sample_cfg REPLACE_LRU) sample_raw) [(0x00, 0), (0x10, 1)]) ((0x05 : Int)) 0).2.swap_outs = (run_machine (sample_cfg REPLACE_LRU) (setup (sample_cfg REPLACE_LRU) sample_raw) [(0x00, 0), (0x10, 1)]).swap_outs ∧
    (resolve_address_machine (sample_cfg REPLACE_LRU) (run_machine (sample_cfg REPLACE_LRU) (setup (sample_cfg REPLACE_LRU) sample_raw) [(0x00, 0), (0x10, 1)]) ((0x05 : Int)) 0).2.fifo_index = (run_machine (sample_cfg REPLACE_LRU) (setup (sample_cfg REPLACE_LRU) sample_raw) [(0x00, 0), (0x10, 1)]).fifo_index ∧
    (resolve_address_machine (sample_cfg REPLACE_LRU) (run_machine (sample_cfg REPLACE_LRU) (setup (sample_cfg REPLACE_LRU) sample_raw) [(0x00, 0), (0x10, 1)]) ((0x05 : Int)) 0).2.clock_hand = (run_machine (sample_cfg REPLACE_LRU) (setup (sample_cfg REPLACE_LRU) sample_raw) [(0x00, 0), (0x10, 1)]).clock_hand ∧
    ((sample_cfg REPLACE_LRU).page_replacement_scheme = REPLACE_FIFO →
      (resolve_address_machine (sample_cfg REPLACE_LRU) (run_machine (sample_cfg REPLACE_LRU) (setup (sample_cfg REPLACE_LRU) sample_raw) [(0x00, 0), (0x10, 1)]) ((0x05 : Int)) 0).2 = (run_machine (sample_cfg REPLACE_LRU) (setup (sample_cfg REPLACE_LRU) sample_raw) [(0x00, 0), (0x10, 1)])) ∧
    ((sample_cfg REPLACE_LRU).page_replacement_scheme = REPLACE_LRU →
      (∃ f : Nat, f < (sample_cfg REPLACE_LRU).size_of_memory ∧ (entry (run_machine (sample_cfg REPLACE_LRU) (setup (sample_cfg REPLACE_LRU) sample_raw) [(0x00, 0), (0x10, 1)]).page_table f).free = 0 ∧
        (entry (run_machine (sample_cfg REPLACE_LRU) (setup (sample_cfg REPLACE_LRU) sample_raw) [(0x00, 0), (0x10, 1)]).page_table f).page_num = shr_long ((0x05 : Int)) (sample_cfg REPLACE_LRU).size_of_frame ∧
        (entry (resolve_address_machine (sample_cfg REPLACE_LRU) (run_machine (sample_cfg REPLACE_LRU) (setup (sample_cfg REPLACE_LRU) sample_raw) [(0x00, 0), (0x10, 1)]) ((0x05 : Int)) 0).2.page_table f).modified
          = (run_machine (sample_cfg REPLACE_LRU) (setup (sample_cfg REPLACE_LRU) sample_raw) [(0x00, 0), (0x10, 1)]).lru_mod ∧
        (resolve_address_machine (sample_cfg REPLACE_LRU) (run_machine (sample_cfg REPLACE_LRU) (setup (sample_cfg REPLACE_LRU) sample_raw) [(0x00, 0), (0x10, 1)]) ((0x05 : Int)) 0).2 =
          { (run_machine (sample_cfg REPLACE_LRU) (setup (sample_cfg REPLACE_LRU) sample_raw) [(0x00, 0), (0x10, 1)]) with
            page_table := (run_machine (sample_cfg REPLACE_LRU) (setup (sample_cfg REPLACE_LRU) sample_raw) [(0x00, 0), (0x10, 1)]).page_table.set f { entry (run_machine (sample_cfg REPLACE_LRU) (setup (sample_cfg REPLACE_LRU) sample_raw) [(0x00, 0), (0x10, 1)]).page_table f with modified := (run_machine (sample_cfg REPLACE_LRU) (setup (sample_cfg REPLACE_LRU) sample_raw) [(0x00, 0), (0x10, 1)]).lru_mod }
            lru_mod := wrap_int ((run_machine (sample_cfg REPLACE_LRU) (setup (sample_cfg REPLACE_LRU) sample_raw) [(0x00, 0), (0x10, 1)]).lru_mod + 1)
            swap_ins := wrap_int ((run_machine (sample_cfg REPLACE_LRU) (setup (sample_cfg REPLACE_LRU) sample_raw) [(0x00, 0), (0x10, 1)]).swap_ins + 1) }) ∧
      (int_range (run_machine (sample_cfg REPLACE_LRU) (setup (sample_cfg REPLACE_LRU) sample_raw) [(0x00, 0), (0x10, 1)]).lru_mod → (run_machine (sample_cfg REPLACE_LRU) (setup (sample_cfg REPLACE_LRU) sample_raw) [(0x00, 0), (0x10, 1)]).lru_mod < INT_MAX →
        (resolve_address_machine (sample_cfg REPLACE_LRU) (run_machine (sample_cfg REPLACE_LRU) (setup (sample_cfg REPLACE_LRU) sample_raw) [(0x00, 0), (0x10, 1)]) ((0x05 : Int)) 0).2.lru_mod = (run_machine (sample_cfg REPLACE_LRU) (setup (sample_cfg REPLACE_LRU) sample_raw) [(0x00, 0), (0x10, 1)]).lru_mod + 1) ∧
      ((run_machine (sample_cfg REPLACE_LRU) (setup (sample_cfg REPLACE_LRU) sample_raw) [(0x00, 0), (0x10, 1)]).lru_mod = INT_MAX →
        (resolve_address_machine (sample_cfg REPLACE_LRU) (run_machine (sample_cfg REPLACE_LRU) (setup (sample_cfg REPLACE_LRU) sample_raw) [(0x00, 0), (0x10, 1)]) ((0x05 : Int)) 0).2.lru_mod = INT_MIN) ∧
      (int_range (run_machine (sample_cfg REPLACE_LRU) (setup (sample_cfg REPLACE_LRU) sample_raw) [(0x00, 0), (0x10, 1)]).swap_ins → (run_machine (sample_cfg REPLACE_LRU) (setup (sample_cfg REPLACE_LRU) sample_raw) [(0x00, 0), (0x10, 1)]).swap_ins < INT_MAX →
        (resolve_address_machine (sample_cfg REPLACE_LRU) (run_machine (sample_cfg REPLACE_LRU) (setup (sample_cfg REPLACE_LRU) sample_raw) [(0x00, 0), (0x10, 1)]) ((0x05 : Int)) 0).2.swap_ins = (run_machine (sample_cfg REPLACE_LRU) (setup (sample_cfg REPLACE_LRU) sample_raw) [(0x00, 0), (0x10, 1)]).swap_ins + 1) ∧
      ((run_machine (sample_cfg REPLACE_LRU) (setup (sample_cfg REPLACE_LRU) sample_raw) [(0x00, 0), (0x10, 1)]).swap_ins = INT_MAX →
        (resolve_address_machine (sample_cfg REPLACE_LRU) (run_machine (sample_cfg REPLACE_LRU) (setup (sample_cfg REPLACE_LRU) sample_raw) [(0x00, 0), (0x10, 1)]) ((0x05 : Int)) 0).2.swap_ins = INT_MIN))) :=
  ⟨⟨by decide, ⟨0, by decide, by decide, by decide⟩⟩,
    hit_keeps_mapping_machine (sample_cfg REPLACE_LRU) (run_machine (sample_cfg REPLACE_LRU) (setup (sample_cfg REPLACE_LRU) sample_raw) [(0x00, 0), (0x10, 1)]) ((0x05 : Int)) 0
      (by decide) (⟨0, by decide, by decide, by decide⟩)⟩


/-! ## C14 -/

/-- C14, as stated, fails for the compiled program: with `--replace=fifo
--framesize=63 --numframes=2`, which `main` accepts, the line `ffffffffffffffff`
(the `long` `-1`) loads page `-1` into frame 0 and is counted; the line
`7fffffffffffffff` is a fault that loads page 0 into frame 1, for which
`(1 << 63) | 0x7fffffffffffffff` is `-1`, so that `main` leaves the loop through
`error_resolve_address` with `page_faults = 2` and `mem_refs = 1`. -/
theorem main_loop_leaves_with_fault_counted :
    config_rejected sample_cfg_wide = false ∧
    scheme_implemented sample_cfg_wide ∧
    sample_raw.length = sample_cfg_wide.size_of_memory ∧
    (resolve_address_machine sample_cfg_wide (setup sample_cfg_wide sample_raw) (-1) 0).1
      = 9223372036854775807 ∧
    (resolve_address_machine sample_cfg_wide
      (main_step_machine sample_cfg_wide (setup sample_cfg_wide sample_raw) (-1, 0))
      9223372036854775807 0).1 = -1 ∧
    main_loop_machine sample_cfg_wide (setup sample_cfg_wide sample_raw)
      [(-1, 0), (9223372036854775807, 0)] = none ∧
    (resolve_address_machine sample_cfg_wide
      (main_step_machine sample_cfg_wide (setup sample_cfg_wide sample_raw) (-1, 0))
      9223372036854775807 0).2.page_faults = 2 ∧
    (resolve_address_machine sample_cfg_wide
      (main_step_machine sample_cfg_wide (setup sample_cfg_wide sample_raw) (-1, 0))
      9223372036854775807 0).2.mem_refs = 1 ∧
    ¬ ((resolve_address_machine sample_cfg_wide
        (main_step_machine sample_cfg_wide (setup sample_cfg_wide sample_raw) (-1, 0))
        9223372036854775807 0).2.page_faults
      ≤ (resolve_address_machine sample_cfg_wide
        (main_step_machine sample_cfg_wide (setup sample_cfg_wide sample_raw) (-1, 0))
        9223372036854775807 0).2.mem_refs) := by
  have hmask : mask_loop_machine sample_cfg_wide.size_of_frame 0
      = ((9223372036854775807 : Nat) : Int) :=
    mask_loop_machine_cast 63 (by norm_num)
  have h1 : (resolve_address_machine sample_cfg_wide (setup sample_cfg_wide sample_raw)
      (-1) 0).1 = 9223372036854775807 := by
    rw [resolve_address_machine_load sample_cfg_wide _ (-1) 0 0 (by decide) (by decide)]
    simp only
    rw [hmask, land_neg_one]
    decide
  have h2 : (resolve_address_machine sample_cfg_wide
      (main_step_machine sample_cfg_wide (setup sample_cfg_wide sample_raw) (-1, 0))
      9223372036854775807 0).1 = -1 := by
    rw [resolve_address_machine_load sample_cfg_wide _ 9223372036854775807 0 1
      (by decide) (by decide)]
    simp only
    rw [hmask]
    have e1 : shl_long ((1 : Nat) : Int) sample_cfg_wide.size_of_frame
        = -9223372036854775808 := by decide
    have e2 : Int.land 9223372036854775807 ((9223372036854775807 : Nat) : Int)
        = 9223372036854775807 := by decide
    rw [e1, e2]
    exact lor_sign_bit_all_ones
  have h3 : main_loop_machine sample_cfg_wide (setup sample_cfg_wide sample_raw)
      [(-1, 0), (9223372036854775807, 0)] = none := by
    rw [main_loop_machine, if_neg (by rw [h1]; decide), main_loop_machine, if_pos h2]
  refine ⟨by decide, Or.inl rfl, rfl, h1, h2, h3, by decide, by decide, by decide⟩

/-- C14, amended. In the compiled program under FIFO, LRU or CLOCK, for a trace
from the state that `setup` builds over which no `int` counter overflows: the loop
of `main` runs to the end of the trace when every address is a non-negative `long`;
and whenever it runs to the end, `mem_refs` is the number of lines, `page_faults` is
the number of lines whose page was not resident when reached, the other lines are
the hits, so that faults plus hits are the references and `page_faults <= mem_refs`. -/
theorem faults_plus_hits_are_references_without_overflow (cfg : Config)
    (raw : List page_table_entry) (trace : List (Int × Int))
    (hs : scheme_implemented cfg) (hN : 1 ≤ cfg.size_of_memory)
    (hraw : raw.length = cfg.size_of_memory)
    (hfit : no_counter_overflow cfg raw trace) :
    ((∀ c, c ∈ trace → nonneg_long c.1) →
      main_loop_machine cfg (setup cfg raw) trace ≠ none) ∧
    (∀ s, main_loop_machine cfg (setup cfg raw) trace = some s →
      s = run_machine cfg (setup cfg raw) trace ∧
      s.mem_refs = trace.length ∧
      s.page_faults = miss_count_machine cfg (setup cfg raw) trace ∧
      hit_count_machine cfg (setup cfg raw) trace + miss_count_machine cfg (setup cfg raw) trace
        = trace.length ∧
      s.page_faults + hit_count_machine cfg (setup cfg raw) trace = s.mem_refs ∧
      s.page_faults ≤ s.mem_refs) := by
  constructor
  · intro haddr
    rw [main_loop_machine_completes cfg raw hs hN hraw trace hfit haddr]
    exact fun h => Option.noConfusion h
  · intro s hsome
    have hrun := main_loop_machine_of_ne_none cfg (setup cfg raw) trace
      (by rw [hsome]; exact fun h => Option.noConfusion h)
    have hse : s = run_machine cfg (setup cfg raw) trace := by
      rw [hsome] at hrun
      exact Option.some.inj hrun
    obtain ⟨m1, m2⟩ := miss_count_machine_eq cfg (setup cfg raw) trace
      (counters_fit_setup cfg raw) hfit
    obtain ⟨_, i2, i3, i4⟩ := main_loop_counts (shift_cfg cfg) hs hN (setup cfg raw)
      (in_range_setup (shift_cfg cfg) raw hN hraw) trace
    have h0 : (setup cfg raw).mem_refs = 0 := rfl
    have h1 : (setup cfg raw).page_faults = 0 := rfl
    rw [h0] at i2
    rw [h1] at i3
    rw [hse, run_machine_of_no_overflow cfg raw trace hfit, m1, m2]
    have hcast : (hit_count (shift_cfg cfg) (setup cfg raw) trace : Int)
        + miss_count (shift_cfg cfg) (setup cfg raw) trace = trace.length := by
      exact_mod_cast i4
    refine ⟨rfl, ?_, ?_, i4, ?_, ?_⟩
    · rw [show setup (shift_cfg cfg) raw = setup cfg raw from rfl, i2]; simp
    · rw [show setup (shift_cfg cfg) raw = setup cfg raw from rfl, i3]; simp
    · rw [show setup (shift_cfg cfg) raw = setup cfg raw from rfl, i2, i3]; omega
    · rw [show setup (shift_cfg cfg) raw = setup cfg raw from rfl, i2, i3]; omega

/-- C14 as amended, under LRU on two frames for the pages 0, 1, 0, 2, 1: the loop runs to the end, with five references, four faults and one hit. -/
theorem faults_plus_hits_are_references_without_overflow_witness :
    ((scheme_implemented (sample_cfg REPLACE_LRU)) ∧
      (1 ≤ (sample_cfg REPLACE_LRU).size_of_memory) ∧
      (sample_raw.length = (sample_cfg REPLACE_LRU).size_of_memory) ∧
      (no_counter_overflow (sample_cfg REPLACE_LRU) sample_raw (([(0x00, 0), (0x1c, 1), (0x04, 0), (0x20, 1), (0x11, 0)] : List (Int × Int))))) ∧
    (((∀ c, c ∈ (([(0x00, 0), (0x1c, 1), (0x04, 0), (0x20, 1), (0x11, 0)] : List (Int × Int))) → nonneg_long c.1) →
      main_loop_machine (sample_cfg REPLACE_LRU) (setup (sample_cfg REPLACE_LRU) sample_raw) (([(0x00, 0), (0x1c, 1), (0x04, 0), (0x20, 1), (0x11, 0)] : List (Int × Int))) ≠ none) ∧
    (∀ s, main_loop_machine (sample_cfg REPLACE_LRU) (setup (sample_cfg REPLACE_LRU) sample_raw) (([(0x00, 0), (0x1c, 1), (0x04, 0), (0x20, 1), (0x11, 0)] : List (Int × Int))) = some s →
      s = run_machine (sample_cfg REPLACE_LRU) (setup (sample_cfg REPLACE_LRU) sample_raw) (([(0x00, 0), (0x1c, 1), (0x04, 0), (0x20, 1), (0x11, 0)] : List (Int × Int))) ∧
      s.mem_refs = (([(0x00, 0), (0x1c, 1), (0x04, 0), (0x20, 1), (0x11, 0)] : List (Int × Int))).length ∧
      s.page_faults = miss_count_machine (sample_cfg REPLACE_LRU) (setup (sample_cfg REPLACE_LRU) sample_raw) (([(0x00, 0), (0x1c, 1), (0x04, 0), (0x20, 1), (0x11, 0)] : List (Int × Int))) ∧
      hit_count_machine (sample_cfg REPLACE_LRU) (setup (sample_cfg REPLACE_LRU) sample_raw) (([(0x00, 0), (0x1c, 1), (0x04, 0), (0x20, 1), (0x11, 0)] : List (Int × Int))) + miss_count_machine (sample_cfg REPLACE_LRU) (setup (sample_cfg REPLACE_LRU) sample_raw) (([(0x00, 0), (0x1c, 1), (0x04, 0), (0x20, 1), (0x11, 0)] : List (Int × Int)))
        = (([(0x00, 0), (0x1c, 1), (0x04, 0), (0x20, 1), (0x11, 0)] : List (Int × Int))).length ∧
      s.page_faults + hit_count_machine (sample_cfg REPLACE_LRU) (setup (sample_cfg REPLACE_LRU) sample_raw) (([(0x00, 0), (0x1c, 1), (0x04, 0), (0x20, 1), (0x11, 0)] : List (Int × Int))) = s.mem_refs ∧
      s.page_faults ≤ s.mem_refs)) ∧
    (main_loop_machine (sample_cfg REPLACE_LRU) (setup (sample_cfg REPLACE_LRU) sample_raw)
        [(0x00, 0), (0x1c, 1), (0x04, 0), (0x20, 1), (0x11, 0)] ≠ none) ∧
    (miss_count_machine (sample_cfg REPLACE_LRU) (setup (sample_cfg REPLACE_LRU) sample_raw)
        [(0x00, 0), (0x1c, 1), (0x04, 0), (0x20, 1), (0x11, 0)] = 4) ∧
    (hit_count_machine (sample_cfg REPLACE_LRU) (setup (sample_cfg REPLACE_LRU) sample_raw)
        [(0x00, 0), (0x1c, 1), (0x04, 0), (0x20, 1), (0x11, 0)] = 1) :=
  ⟨⟨Or.inr (Or.inl rfl), by decide, rfl, by decide⟩,
    faults_plus_hits_are_references_without_overflow (sample_cfg REPLACE_LRU) sample_raw (([(0x00, 0), (0x1c, 1), (0x04, 0), (0x20, 1), (0x11, 0)] : List (Int × Int)))
      (Or.inr (Or.inl rfl)) (by decide) (rfl) (by decide),
    by decide,
    by decide,
    by decide⟩


/-! ## C19 -/

end Virtmem
